import Mathlib

/-!
# Gemini Forker: fork orchestrator and stream response parser

A shallow embedding of `src/gemini_fork.js` (`handleForkConfirm`, `createNewChat`,
`extractGemini`) and `src/tester-inject.js` (`parseStreamResponse`, `createChat`
as the request it builds and the response it handles, `sendApiRequest`,
`deleteChat`, `cacheRequestParams`, `isReady`, `extractTokenFromGlobals` and
the `FORKER_REQUEST` listener).

* JavaScript strings are sequences of UTF-16 code units (`JsString`), so that
  `length`, `substring`, `startsWith` and indexing count what JavaScript counts.
* JavaScript numbers are IEEE 754 binary64 values; the arithmetic of the split
  index is carried out on exact dyadic numbers and rounded to nearest, ties to
  even, after every operation (`F64`).
* Calls that leave the program (the injected API, `fetch`, `XMLHttpRequest`,
  `JSON.parse`, `JSON.stringify`, `URLSearchParams`, the document queries) are
  inputs of the model: the functions take the answers of the environment and
  return the effects they perform.
-/

set_option maxRecDepth 100000

namespace GeminiForker

/-! ## Strings -/

/-- A JavaScript string: its UTF-16 code units. -/
abbrev JsString := List Nat

/-- The code units of a literal whose characters all lie in the basic plane. -/
def lit (s : String) : JsString := s.toList.map Char.toNat

/-- `s.startsWith(p)`. -/
def startsWith (s p : JsString) : Bool := p.isPrefixOf s

/-- `s.substring(k)` for a non-negative integer `k`. -/
def substring (s : JsString) (k : Nat) : JsString := s.drop k

/-- `xs.join(sep)` for an array of strings. -/
def join (sep : JsString) : List JsString → JsString
  | [] => []
  | [x] => x
  | x :: y :: rest => x ++ sep ++ join sep (y :: rest)

/-! ## Binary64 arithmetic -/

/-- A finite binary64 value `m * 2 ^ e`. -/
structure F64 where
  m : Int
  e : Int
deriving DecidableEq, Repr

/-- Nearest integer to `a / b`, ties to the even one (`0 < b`). -/
def roundHalfEven (a b : Nat) : Nat :=
  let q := a / b
  let r := a % b
  if 2 * r < b then q else if b < 2 * r then q + 1 else if q % 2 = 0 then q else q + 1

/-- Position of the leading binary digit of `n`, with `fuel` halvings allowed:
`floor (log2 n)` for `0 < n < 2 ^ fuel`. -/
def ilog2 : Nat → Nat → Nat
  | 0, _ => 0
  | fuel + 1, n => if n < 2 then 0 else ilog2 fuel (n / 2) + 1

/-- The exponent `k` with `2 ^ k ≤ a / b < 2 ^ (k + 1)`, for positive `a`, `b`. -/
def leadExp (a b : Nat) : Int :=
  let k : Int := (ilog2 a a : Int) - (ilog2 b b : Int)
  if b * 2 ^ k.toNat ≤ a * 2 ^ (-k).toNat then k else k - 1

/-- Rounding of the positive rational `a / b` to binary64: 53 significant bits,
nearest, ties to even; below `2 ^ (-1022)` the spacing stays `2 ^ (-1074)`.
Overflow to `Infinity` is not represented: every magnitude that occurs is below
`2 ^ 1024`, since an array holds fewer than `2 ^ 32` elements. -/
def roundPos (a b : Nat) : F64 :=
  let e : Int := max (leadExp a b - 52) (-1074)
  ⟨roundHalfEven (a * 2 ^ (-e).toNat) (b * 2 ^ e.toNat), e⟩

/-- Rounding of the rational `a / b` (`0 < b`) to binary64. -/
def roundRat (a : Int) (b : Nat) : F64 :=
  if a = 0 then ⟨0, 0⟩
  else
    let r := roundPos a.natAbs b
    ⟨if a < 0 then -r.m else r.m, r.e⟩

/-- The Number with integer value `n`. -/
def F64.ofNat (n : Nat) : F64 := roundRat n 1

/-- `x / y` for a non-zero `y`. -/
def F64.div (x y : F64) : F64 :=
  roundRat (x.m * 2 ^ (x.e - y.e).toNat * (if y.m < 0 then -1 else 1))
    (y.m.natAbs * 2 ^ (y.e - x.e).toNat)

/-- `x - y`. -/
def F64.sub (x y : F64) : F64 :=
  let e := min x.e y.e
  let a := x.m * 2 ^ (x.e - e).toNat - y.m * 2 ^ (y.e - e).toNat
  roundRat (a * 2 ^ e.toNat) (2 ^ (-e).toNat)

/-- `x * y`. -/
def F64.mul (x y : F64) : F64 :=
  let e := x.e + y.e
  roundRat (x.m * y.m * 2 ^ e.toNat) (2 ^ (-e).toNat)

/-- `Math.floor(x)`. -/
def F64.floor (x : F64) : Int :=
  x.m * 2 ^ x.e.toNat / 2 ^ (-x.e).toNat

/-- The split index of `handleForkConfirm`:
`Math.floor(messages.length * (1 - (rawTextPercentage / 100)))`, for a
transcript of `n` messages and the integer percentage `p`. -/
def splitPoint (n p : Nat) : Int :=
  F64.floor (F64.mul (F64.ofNat n)
    (F64.sub (F64.ofNat 1) (F64.div (F64.ofNat p) (F64.ofNat 100))))

/-- The split index in exact arithmetic: `floor (n * (100 - p) / 100)`. -/
def exactSplit (n p : Nat) : Int := (n * (100 - p) / 100 : Nat)

/-! ## Transcript, rendering and the final prompt (`gemini_fork.js`) -/

/-- A transcript entry produced by `extractGemini`. -/
structure Message where
  role : JsString
  text : JsString
deriving DecidableEq, Repr

/-- The index `k` of `Array.prototype.slice` resolved against the length:
a negative index counts from the end, everything is clamped to `0 .. len`. -/
def relIndex (len : Nat) (k : Int) : Nat :=
  if k < 0 then (len + k).toNat else min k.toNat len

/-- `xs.slice(start, stop)`. -/
def slice {α : Type} (xs : List α) (start stop : Int) : List α :=
  (xs.take (relIndex xs.length stop)).drop (relIndex xs.length start)

/-- `xs.slice(start)`. -/
def sliceFrom {α : Type} (xs : List α) (start : Int) : List α :=
  xs.drop (relIndex xs.length start)

/-- `messages.slice(0, splitPoint)`. -/
def messagesToSummarize (messages : List Message) (rawTextPercentage : Nat) : List Message :=
  slice messages 0 (splitPoint messages.length rawTextPercentage)

/-- `messages.slice(splitPoint)`. -/
def messagesToKeep (messages : List Message) (rawTextPercentage : Nat) : List Message :=
  sliceFrom messages (splitPoint messages.length rawTextPercentage)

/-- The template `**${msg.role}:**\n${msg.text}`. -/
def renderMessage (msg : Message) : JsString :=
  lit "**" ++ msg.role ++ lit ":**\n" ++ msg.text

/-- The separator `"\n\n---\n\n"`. -/
def separator : JsString := lit "\n\n---\n\n"

/-- `msgs.map(msg => ...).join("\n\n---\n\n")`: the role-labelled transcript. -/
def renderLog (msgs : List Message) : JsString :=
  join separator (msgs.map renderMessage)

/-- The label `createNewChat` puts in front of a summary. -/
def summaryLabel : JsString := lit "**Assistant (Summary):**\n"

/-- `summaryText ? ... : ""` in `createNewChat`. -/
def summaryLog (summaryText : JsString) : JsString :=
  if summaryText = [] then [] else summaryLabel ++ summaryText

/-- `[summaryLog, keepLog].filter(Boolean).join("\n\n---\n\n")`: the context
block of `createNewChat`. -/
def chatContext (summaryText : JsString) (keep : List Message) : JsString :=
  join separator ([summaryLog summaryText, renderLog keep].filter fun s => decide (s ≠ []))

/-- The text of `finalPrompt` up to and including `[START CONTEXT]` and its
line break. -/
def promptHead : JsString :=
  lit ("This conversation is forked from a previous chat. The context is provided below. \n" ++
    "Please read it, respond only with \"Acknowledged\", and then wait for my next prompt.\n" ++
    "\n---\n[START CONTEXT]\n")

/-- The text of `finalPrompt` from the line break before `[END CONTEXT]` on. -/
def promptTail : JsString :=
  lit "\n[END CONTEXT]\n---\n\nPlease respond only with \"Acknowledged\"."

/-- The template `finalPrompt` of `createNewChat` around a context block. -/
def finalPrompt (context : JsString) : JsString :=
  promptHead ++ context ++ promptTail

/-! ## The injected API as seen from the orchestrator -/

/-- The object `createChat` hands back: `{ chatId, responseText }`, each a
string or `null`. -/
structure ChatResult where
  chatId : Option JsString
  responseText : Option JsString
deriving DecidableEq, Repr

/-- Truthiness of a value that is a string or `null`. -/
def truthyStr : Option JsString → Bool
  | some (_ :: _) => true
  | _ => false

/-- How the promise of `callInjectedApi` settles: `resolve(data.payload)` or
`reject(new Error(data.error))`. -/
inductive Reply (α : Type) where
  | resolved (payload : α)
  | rejected (error : JsString)
deriving DecidableEq, Repr

/-- A thrown `Error`, known by its `message`. -/
structure Thrown where
  message : JsString
deriving DecidableEq, Repr

/-- What the environment answers to the calls of one fork, should they be made.
A payload `none` is a missing (`null`) result. -/
structure Env where
  summaryReply : Reply (Option ChatResult)
  deleteReply : Reply Unit
  finalReply : Reply (Option ChatResult)
  /-- The message of the `TypeError` the engine raises for `null.chatId`. -/
  nullDeref : JsString

/-- The effects of the orchestrator, in the order they happen. -/
inductive Effect where
  | createChat (message : JsString) (gemId : Option JsString)
  | deleteChat (chatId : Option JsString)
  | sleep (ms : Nat)
  | navigate (href : JsString)
  | alert (text : JsString)
deriving DecidableEq, Repr

/-- The placeholder used when the summary chat returned no text. -/
def summaryPlaceholder : JsString :=
  lit "[Summary was generated, but text could not be extracted.]"

/-- The text handed to `alert` in the `catch` of `handleForkConfirm`. -/
def alertText (e : Thrown) : JsString :=
  lit "Forking failed: " ++ e.message ++ lit ". See console for details."

/-- The summary text chosen after the summary request resolved:
`summaryResult && summaryResult.responseText`, else the placeholder. -/
def summaryTextOf (summaryResult : Option ChatResult) : JsString :=
  match summaryResult with
  | some r => if truthyStr r.responseText then r.responseText.getD [] else summaryPlaceholder
  | none => summaryPlaceholder

/-- Step 3 of `handleForkConfirm`, the block under
`if (messagesToSummarize.length > 0)`: the effects performed and the summary
text, or what was thrown. -/
def summarizeRound (currentGemId : Option JsString) (toSummarize : List Message)
    (summaryPrompt : JsString) (env : Env) : List Effect × Except Thrown JsString :=
  let fullSummaryPrompt := summaryPrompt ++ separator ++ renderLog toSummarize
  let request := Effect.createChat fullSummaryPrompt currentGemId
  match env.summaryReply with
  | .rejected err => ([request], .error ⟨err⟩)
  | .resolved summaryResult =>
    let summaryText := summaryTextOf summaryResult
    match summaryResult with
    | none => ([request], .error ⟨env.nullDeref⟩)
    | some r =>
      match env.deleteReply with
      | .rejected err => ([request, .deleteChat r.chatId], .error ⟨err⟩)
      | .resolved _ => ([request, .deleteChat r.chatId, .sleep 500], .ok summaryText)

/-- The function `createNewChat`: the request it sends and the chat id it
returns, or what it throws. -/
def createNewChat (summaryText : JsString) (keep : List Message) (gemId : Option JsString)
    (reply : Reply (Option ChatResult)) : List Effect × Except Thrown JsString :=
  let request := Effect.createChat (finalPrompt (chatContext summaryText keep)) gemId
  match reply with
  | .rejected err => ([request], .error ⟨err⟩)
  | .resolved result =>
    match result with
    | some r =>
      if truthyStr r.chatId then ([request], .ok (r.chatId.getD []))
      else ([request],
        .error ⟨lit "Failed to create the final chat. The API did not return a chat ID."⟩)
    | none => ([request],
        .error ⟨lit "Failed to create the final chat. The API did not return a chat ID."⟩)

/-- Step 6 of `handleForkConfirm`: the location assigned to
`window.location.href`. -/
def targetUrl (currentGemId : Option JsString) (newChatId : JsString) : JsString :=
  if truthyStr currentGemId then
    lit "https://gemini.google.com/gem/" ++ currentGemId.getD [] ++ lit "/" ++ newChatId
  else lit "https://gemini.google.com/app/" ++ newChatId

/-- The function `handleForkConfirm`, after `detectCurrentGem` returned
`currentGemId` and `extractGemini` returned `messages`: the effects it
performs, in order. -/
def handleForkConfirm (currentGemId : Option JsString) (messages : List Message)
    (rawTextPercentage : Nat) (summaryPrompt : JsString) (env : Env) : List Effect :=
  let toSummarize := messagesToSummarize messages rawTextPercentage
  let keep := messagesToKeep messages rawTextPercentage
  let summary : List Effect × Except Thrown JsString :=
    if 0 < toSummarize.length then summarizeRound currentGemId toSummarize summaryPrompt env
    else ([], .ok [])
  match summary with
  | (effects, .error e) => effects ++ [.alert (alertText e)]
  | (effects, .ok summaryText) =>
    match createNewChat summaryText keep currentGemId env.finalReply with
    | (effects2, .error e) => effects ++ effects2 ++ [.alert (alertText e)]
    | (effects2, .ok newChatId) =>
      effects ++ effects2 ++ [.sleep 1500, .navigate (targetUrl currentGemId newChatId)]

/-! ## Conversation ids (`tester-inject.js`) -/

/-- The id without its provider marker, as `parseStreamResponse` takes it:
`foundChatId.substring(2)`. -/
def stripPrefix (foundChatId : JsString) : JsString := substring foundChatId 2

/-- The id `deleteChat` sends: `chatId.startsWith('c_') ? chatId : 'c_' + chatId`. -/
def apiChatId (chatId : JsString) : JsString :=
  if startsWith chatId (lit "c_") then chatId else lit "c_" ++ chatId

/-! ## JavaScript values -/

/-- The values `JSON.parse` produces, and `undefined`. A number is kept as its
binary64 value. The properties of an object are in source order; a later
duplicate of a key shadows an earlier one. -/
inductive JsVal where
  | undefined
  | null
  | bool (b : Bool)
  | num (x : F64)
  | str (s : JsString)
  | arr (items : List JsVal)
  | obj (props : List (JsString × JsVal))

/-- Truthiness (`ToBoolean`). -/
def truthy : JsVal → Bool
  | .undefined => false
  | .null => false
  | .bool b => b
  | .num x => x.m != 0
  | .str s => !s.isEmpty
  | .arr _ => true
  | .obj _ => true

/-- The property key of an array index: its decimal digits. -/
def indexKey (i : Nat) : JsString := lit (toString i)

/-- The own property `key` of an object read by `JSON.parse`. -/
def lookupProp (key : JsString) (props : List (JsString × JsVal)) : JsVal :=
  match props.reverse.find? (fun p => p.1 == key) with
  | some p => p.2
  | none => .undefined

/-- The member access `v[i]`: `none` is the `TypeError` raised on `null` and
`undefined`. A string yields its code unit at `i` as a string, a number or a
boolean has no such property. -/
def getIndex (v : JsVal) (i : Nat) : Option JsVal :=
  match v with
  | .undefined => none
  | .null => none
  | .bool _ => some .undefined
  | .num _ => some .undefined
  | .str s =>
    match s.get? i with
    | some c => some (.str [c])
    | none => some .undefined
  | .arr items => some (items.getD i .undefined)
  | .obj props => some (lookupProp (indexKey i) props)

/-- The optional member access `v?.[i]`; a chain of them stays `undefined`
once it met `null` or `undefined`. -/
def optIndex (v : JsVal) (i : Nat) : JsVal :=
  match getIndex v i with
  | some w => w
  | none => .undefined

/-- White space and line terminators, the code units `trim` removes. -/
def isWhiteSpace (c : Nat) : Bool :=
  c == 9 || c == 10 || c == 11 || c == 12 || c == 13 || c == 32 || c == 160 || c == 5760 ||
  (decide (8192 ≤ c) && decide (c ≤ 8202)) || c == 8232 || c == 8233 || c == 8239 ||
  c == 8287 || c == 12288 || c == 65279

/-- `s.trim()`. -/
def trim (s : JsString) : JsString :=
  ((s.dropWhile isWhiteSpace).reverse.dropWhile isWhiteSpace).reverse

/-- `s.split('\n')`. -/
def splitLines : JsString → List JsString
  | [] => [[]]
  | c :: rest =>
    if c = 10 then [] :: splitLines rest
    else
      match splitLines rest with
      | [] => [[c]]
      | l :: ls => (c :: l) :: ls

/-! ## The stream response parser (`tester-inject.js`) -/

/-- The marker a relevant line starts with: `[["wrb.fr"`. -/
def marker : JsString := lit "[[\"wrb.fr\""

/-- The variables `chatId` and `longestResponse` of `parseStreamResponse`. -/
structure ParseState where
  chatId : Option JsString
  longestResponse : JsString
deriving DecidableEq, Repr

/-- The block under `// --- Find Chat ID ---`: the value of `chatId` after it,
or `none` when it throws (`innerData` is `null`, or `foundChatId` is truthy and
not a string, so that `foundChatId.startsWith` is not a function). -/
def findChatId (chatId : Option JsString) (innerData : JsVal) : Option (Option JsString) :=
  if truthyStr chatId then some chatId
  else
    match getIndex innerData 1 with
    | none => none
    | some a =>
      let foundChatId := if truthy a then optIndex a 0 else a
      if truthy foundChatId then
        match foundChatId with
        | .str s => if startsWith s (lit "c_") then some (some (substring s 2)) else some chatId
        | _ => none
      else some chatId

/-- The block under `// --- Find AI Response ---`: the value of
`longestResponse` after it, or `none` when `innerData[4]` throws. -/
def findText (longestResponse : JsString) (innerData : JsVal) : Option JsString :=
  match getIndex innerData 4 with
  | none => none
  | some a =>
    let text := optIndex (optIndex (optIndex a 0) 1) 0
    if truthy text then
      match text with
      | .str s =>
        if trim s ≠ [] ∧ longestResponse.length < s.length then some s
        else some longestResponse
      | _ => some longestResponse
    else some longestResponse

/-- The value `innerData` the body of the loop reaches for a line: `none` when
the line is skipped (no marker, falsy third element) or an exception is thrown
before (`JSON.parse`, `json[0][2]`). `jsonParse` is `JSON.parse`, `none` when
it throws. -/
def innerDataOf (jsonParse : JsVal → Option JsVal) (line : JsString) : Option JsVal :=
  if !startsWith line marker then none
  else
    match jsonParse (.str line) with
    | none => none
    | some json =>
      match getIndex json 0 with
      | none => none
      | some first =>
        match getIndex first 2 with
        | none => none
        | some innerDataString =>
          if !truthy innerDataString then none else jsonParse innerDataString

/-- One turn of the loop over the lines; an exception inside the inner `try`
leaves the line with what was assigned before it. -/
def processLine (jsonParse : JsVal → Option JsVal) (st : ParseState) (line : JsString) :
    ParseState :=
  match innerDataOf jsonParse line with
  | none => st
  | some innerData =>
    match findChatId st.chatId innerData with
    | none => st
    | some chatId =>
      match findText st.longestResponse innerData with
      | none => ⟨chatId, st.longestResponse⟩
      | some longest => ⟨chatId, longest⟩

/-- The loop of `parseStreamResponse` over the lines of the body. -/
def parseLines (jsonParse : JsVal → Option JsVal) (lines : List JsString) : ParseState :=
  lines.foldl (processLine jsonParse) ⟨none, []⟩

/-- The object `parseStreamResponse` returns for the state after the loop. -/
def finish (st : ParseState) : ChatResult :=
  ⟨st.chatId, if trim st.longestResponse ≠ [] then some (trim st.longestResponse) else none⟩

/-- The method `parseStreamResponse`. -/
def parseStreamResponse (jsonParse : JsVal → Option JsVal) (responseText : JsString) :
    ChatResult :=
  finish (parseLines jsonParse (splitLines responseText))

/-! ## What a line offers, in the words of the specification -/

/-- The id a decoded line offers: the string at `inner[1][0]`, when it starts
with `c_`, without these two code units. -/
def idCandidate (innerData : JsVal) : Option JsString :=
  match optIndex (optIndex innerData 1) 0 with
  | .str s => if startsWith s (lit "c_") then some (s.drop 2) else none
  | _ => none

/-- The id a line of the body offers. -/
def lineChatId (jsonParse : JsVal → Option JsVal) (line : JsString) : Option JsString :=
  (innerDataOf jsonParse line).bind idCandidate

/-- The text candidate of a decoded line: the string at `inner[4][0][1][0]`,
when it is not blank. -/
def textCandidate (innerData : JsVal) : Option JsString :=
  match optIndex (optIndex (optIndex (optIndex innerData 4) 0) 1) 0 with
  | .str s => if trim s ≠ [] then some s else none
  | _ => none

/-- The text candidate a line of the body carries. -/
def lineText (jsonParse : JsVal → Option JsVal) (line : JsString) : Option JsString :=
  (innerDataOf jsonParse line).bind textCandidate

/-- The value `foundChatId` of a decoded line: `innerData[1] && innerData[1][0]`. -/
def foundChatIdOf (innerData : JsVal) : JsVal :=
  if truthy (optIndex innerData 1) then optIndex (optIndex innerData 1) 0
  else optIndex innerData 1

/-- Whether `foundChatId` is falsy or a string, so that the id block of the
loop cannot throw on `foundChatId.startsWith`. -/
def idBlockSafe (innerData : JsVal) : Bool :=
  match foundChatIdOf innerData with
  | .str _ => true
  | v => !truthy v

/-- A relevant line of the worked examples: the envelope `[["wrb.fr",null,"..."]]`
around the JSON text of an inner array with the id at `[1][0]` and the text
at `[4][0][1][0]`. -/
def exampleLine (id text : String) : JsString :=
  lit ("[[\"wrb.fr\",null,\"[null,[\\\"" ++ id ++ "\\\",\\\"r_1\\\"],null,null,[[\\\"rc_1\\\",[\\\""
    ++ text ++ "\\\"]]]]\"]]")

/-- A relevant line whose inner array has the number 5 at `[1][0]` and the
text `long text` at `[4][0][1][0]`. -/
def numericIdLine : JsString :=
  lit "[[\"wrb.fr\",null,\"[null,[5],null,null,[[null,[\\\"long text\\\"]]]]\"]]"

/-- A body made of the given lines, one per line. -/
def bodyOf (lines : List JsString) : JsString := join (lit "\n") lines

/-- Whether the id block of the loop cannot throw on `foundChatId.startsWith`
for a line of the body. -/
def lineIdSafe (jsonParse : JsVal → Option JsVal) (line : JsString) : Bool :=
  match innerDataOf jsonParse line with
  | none => true
  | some innerData => idBlockSafe innerData

/-- The text candidates of a body, in line order. -/
def textCandidates (jsonParse : JsVal → Option JsVal) (body : JsString) : List JsString :=
  (splitLines body).filterMap (lineText jsonParse)

/-- The ids the lines of a body offer, in line order. -/
def idCandidates (jsonParse : JsVal → Option JsVal) (body : JsString) : List JsString :=
  (splitLines body).filterMap (lineChatId jsonParse)

/-- The comparison of the loop: `text.length > longestResponse.length`. -/
def pick (longest text : JsString) : JsString :=
  if longest.length < text.length then text else longest

/-- The three relevant lines with the texts `Hel`, `Hello wor`, `Hello world`,
in each of their six orders. -/
def sixOrders : List JsString :=
  let a := exampleLine "c_abc" "Hel"
  let b := exampleLine "c_abc" "Hello wor"
  let c := exampleLine "c_abc" "Hello world"
  [bodyOf [a, b, c], bodyOf [a, c, b], bodyOf [b, a, c], bodyOf [b, c, a],
    bodyOf [c, a, b], bodyOf [c, b, a]]

/-! ## Creating a chat: from the response to the orchestrator -/

/-- What `fetch` resolves with for the `StreamGenerate` request: the status and
the text of the body. -/
structure HttpResponse where
  status : Nat
  body : JsString
deriving DecidableEq, Repr

/-- `response.ok`: the status is in the range 200 to 299. -/
def HttpResponse.ok (response : HttpResponse) : Bool :=
  decide (200 ≤ response.status) && decide (response.status ≤ 299)

/-- The method `createChat` from the point where `fetch` has answered: the
object it returns or the error it throws. -/
def createChat (jsonParse : JsVal → Option JsVal) (response : HttpResponse) :
    Except Thrown ChatResult :=
  if !response.ok then
    .error ⟨lit "StreamGenerate failed: " ++ lit (toString response.status) ++
      lit ". Response: " ++ response.body.take 100 ++ lit "..."⟩
  else
    let parsed := parseStreamResponse jsonParse response.body
    if truthyStr parsed.chatId then .ok ⟨parsed.chatId, parsed.responseText⟩
    else .error ⟨lit "Could not extract chat ID from API"⟩

/-- The text the listener answers a caught error with:
`e.message || "Unknown error in tester-inject.js"`. -/
def errorMsg (e : Thrown) : JsString :=
  if e.message = [] then lit "Unknown error in tester-inject.js" else e.message

/-- The bridge `callInjectedApi` around an operation of the injected script:
the listener answers `success: true` with the result as payload, or
`success: false` with the error text, and the promise settles accordingly. -/
def callInjectedApi {α : Type} (outcome : Except Thrown α) : Reply (Option α) :=
  match outcome with
  | .ok result => .resolved (some result)
  | .error e => .rejected (errorMsg e)

/-- Whether the answer to the final `createChat` request carries no
conversation id: it is an error, a missing result, or a result whose `chatId`
is falsy. -/
def noChatId : Reply (Option ChatResult) → Bool
  | .rejected _ => true
  | .resolved none => true
  | .resolved (some r) => !truthyStr r.chatId

/-- Whether an effect is an assignment to `window.location.href`. -/
def Effect.isNavigate : Effect → Bool
  | .navigate _ => true
  | _ => false

/-! ## The credential cache and the request listener (`tester-inject.js`) -/

/-- The object `requestCache.streamGenerate`. -/
structure StreamGenerateCache where
  /-- The field `at`. -/
  atToken : Option JsString
  snlm0Token : Option JsString
deriving DecidableEq, Repr

/-- The object `requestCache`; `none` is a field that was never assigned. -/
structure RequestCache where
  /-- The field `at`. -/
  atToken : Option JsString
  f_sid : Option JsString
  bl : Option JsString
  rt : Option JsString
  _reqid_base : Option Int
  targetUrl : Option JsString
  streamGenerate : Option StreamGenerateCache
deriving DecidableEq, Repr

/-- The object `isReady` returns. -/
structure ReadyStatus where
  /-- The field `at`. -/
  atToken : Bool
  snlm0Token : Bool
  all : Bool
deriving DecidableEq, Repr

/-- The method `isReady`. -/
def isReady (cache : RequestCache) : ReadyStatus :=
  let atToken := truthyStr cache.atToken ||
    (match cache.streamGenerate with
      | some sg => truthyStr sg.atToken
      | none => false)
  let snlm0Token :=
    match cache.streamGenerate with
    | some sg => truthyStr sg.snlm0Token
    | none => false
  ⟨atToken, snlm0Token, atToken && snlm0Token⟩

/-- What the page provides to the injected script. -/
structure Page where
  /-- The value of `window.WIZ_global_data.SNlM0e`, `none` when the page has
  no `WIZ_global_data` or no such field. -/
  SNlM0e : Option JsString
  /-- The message of the `TypeError` the engine raises for a property of
  `null` or `undefined`. -/
  typeError : JsString
deriving DecidableEq, Repr

/-- The method `extractTokenFromGlobals`: the cache after it and its result. -/
def extractTokenFromGlobals (page : Page) (cache : RequestCache) : RequestCache × Bool :=
  if truthyStr page.SNlM0e then
    let sg : StreamGenerateCache := cache.streamGenerate.getD ⟨none, none⟩
    ({ cache with streamGenerate := some { sg with snlm0Token := page.SNlM0e } }, true)
  else (cache, false)

/-- The data of a `message` event, as far as the listener reads it. A missing
`type` or `action` is the empty string. -/
structure ForkerMessage where
  type : JsString
  action : JsString
  payload : JsVal
  requestId : JsString

/-- What the listener does with a message. Every answer is a `FORKER_RESPONSE`
carrying the `requestId` of the message. -/
inductive Handled where
  /-- The listener returns without answering. -/
  | ignored
  /-- It answers `success: false` with this error text, having called neither
  `createChat` nor `deleteChat`. -/
  | failed (error : JsString)
  /-- It calls `this.createChat(message, gemId)` and answers with its outcome. -/
  | createChat (message gemId : JsVal)
  /-- It calls `this.deleteChat(payload)` and answers with its outcome. -/
  | deleteChat (payload : JsVal)

/-- The text of the error thrown when the client is not ready. -/
def notReadyError (status : ReadyStatus) : JsString :=
  lit "Gemini API client is not ready. Try refreshing." ++
    (if !status.snlm0Token then lit " (Missing: SNlM0e Token)" else []) ++
    (if !status.atToken then lit " (Missing: 'at' Token - try sending a message)" else [])

/-- The named property `v.key`: `none` is the `TypeError` on `null` and
`undefined`; only an object read from JSON has such a property. -/
def getProp (v : JsVal) (key : JsString) : Option JsVal :=
  match v with
  | .undefined => none
  | .null => none
  | .obj props => some (lookupProp key props)
  | _ => some .undefined

/-- The branch on `action` in the listener, once the client is ready. -/
def dispatch (page : Page) (msg : ForkerMessage) : Handled :=
  if msg.action = lit "createChat" then
    let message : Option JsVal :=
      match msg.payload with
      | .str s => some (.str s)
      | payload => getProp payload (lit "message")
    match message with
    | none => .failed (errorMsg ⟨page.typeError⟩)
    | some message =>
      let gemId : JsVal :=
        match msg.payload with
        | .obj props => lookupProp (lit "gemId") props
        | .arr _ => .undefined
        | _ => .null
      .createChat message gemId
  else if msg.action = lit "deleteChat" then .deleteChat msg.payload
  else .failed (errorMsg ⟨lit "Unknown action: " ++ msg.action⟩)

/-- The `message` listener of `setupMessageListener`: the cache after the
message and what was done with it. `data` is `none` for an event without data. -/
def onMessage (page : Page) (cache : RequestCache) (data : Option ForkerMessage) :
    RequestCache × Handled :=
  match data with
  | none => (cache, .ignored)
  | some msg =>
    if msg.type ≠ lit "FORKER_REQUEST" ∨ msg.action = [] then (cache, .ignored)
    else if !(isReady cache).all then
      let cache1 := (extractTokenFromGlobals page cache).1
      if !(isReady cache1).all then (cache1, .failed (errorMsg ⟨notReadyError (isReady cache1)⟩))
      else (cache1, dispatch page msg)
    else (cache, dispatch page msg)

/-! ## A reader for JSON texts

`JSON.parse` is an input of the model. The worked examples use this reader of
the JSON grammar for it. -/

/-- The white space of JSON: space, tab, line feed, carriage return. -/
def isJsonSpace (c : Nat) : Bool := c == 32 || c == 9 || c == 10 || c == 13

/-- Drop leading JSON white space. -/
def skipSpace (s : JsString) : JsString := s.dropWhile isJsonSpace

/-- The value of a hexadecimal digit. -/
def hexVal (c : Nat) : Option Nat :=
  if 48 ≤ c ∧ c ≤ 57 then some (c - 48)
  else if 97 ≤ c ∧ c ≤ 102 then some (c - 87)
  else if 65 ≤ c ∧ c ≤ 70 then some (c - 55)
  else none

/-- The code unit a one-letter escape stands for. -/
def escapeVal (c : Nat) : Option Nat :=
  if c = 34 then some 34 else if c = 92 then some 92 else if c = 47 then some 47
  else if c = 98 then some 8 else if c = 102 then some 12 else if c = 110 then some 10
  else if c = 114 then some 13 else if c = 116 then some 9 else none

/-- The rest of a string literal after its opening quote: the code units it
denotes and what follows the closing quote. -/
def readString : Nat → JsString → Option (JsString × JsString)
  | 0, _ => none
  | _ + 1, [] => none
  | fuel + 1, c :: rest =>
    if c = 34 then some ([], rest)
    else if c = 92 then
      match rest with
      | [] => none
      | e :: rest1 =>
        if e = 117 then
          match rest1 with
          | h1 :: h2 :: h3 :: h4 :: rest2 =>
            match hexVal h1, hexVal h2, hexVal h3, hexVal h4 with
            | some a, some b, some c1, some d =>
              match readString fuel rest2 with
              | some (s, r) => some ((a * 4096 + b * 256 + c1 * 16 + d) :: s, r)
              | none => none
            | _, _, _, _ => none
          | _ => none
        else
          match escapeVal e with
          | some v =>
            match readString fuel rest1 with
            | some (s, r) => some (v :: s, r)
            | none => none
          | none => none
    else if c < 32 then none
    else
      match readString fuel rest with
      | some (s, r) => some (c :: s, r)
      | none => none

/-- Whether a code unit is a decimal digit. -/
def isDigit (c : Nat) : Bool := decide (48 ≤ c) && decide (c ≤ 57)

/-- The number a run of decimal digits denotes, continuing from `acc`. -/
def digitsVal (acc : Nat) (ds : JsString) : Nat :=
  ds.foldl (fun a c => 10 * a + (c - 48)) acc

/-- A number literal at the head of `s`: its binary64 value and the rest. -/
def readNumber (s : JsString) : Option (JsVal × JsString) :=
  let neg := s.head? == some 45
  let s1 := if neg then s.drop 1 else s
  let intDigits := s1.takeWhile isDigit
  let s2 := s1.dropWhile isDigit
  if intDigits = [] ∨ (intDigits.head? = some 48 ∧ intDigits.length ≠ 1) then none
  else
    let hasFrac := s2.head? == some 46
    let fracDigits := if hasFrac then (s2.drop 1).takeWhile isDigit else []
    let s3 := if hasFrac then (s2.drop 1).dropWhile isDigit else s2
    if hasFrac ∧ fracDigits = [] then none
    else
      let hasExp := s3.head? == some 101 || s3.head? == some 69
      let s4 := if hasExp then s3.drop 1 else s3
      let expNeg := hasExp && s4.head? == some 45
      let s5 := if hasExp && (s4.head? == some 45 || s4.head? == some 43) then s4.drop 1 else s4
      let expDigits := if hasExp then s5.takeWhile isDigit else []
      let s6 := if hasExp then s5.dropWhile isDigit else s5
      if hasExp ∧ expDigits = [] then none
      else
        let mant : Int := digitsVal (digitsVal 0 intDigits) fracDigits
        let ex : Int := (if expNeg then -(digitsVal 0 expDigits : Int) else digitsVal 0 expDigits)
          - fracDigits.length
        let x := roundRat ((if neg then -mant else mant) * 10 ^ ex.toNat) (10 ^ (-ex).toNat)
        some (.num x, s6)

mutual
/-- A JSON value at the head of `s` (after white space) and the rest. -/
def readValue : Nat → JsString → Option (JsVal × JsString)
  | 0, _ => none
  | fuel + 1, s =>
    match skipSpace s with
    | [] => none
    | c :: rest =>
      if c = 34 then
        match readString (rest.length + 1) rest with
        | some (str, r) => some (.str str, r)
        | none => none
      else if c = 91 then
        match skipSpace rest with
        | 93 :: r => some (.arr [], r)
        | _ => readElements fuel rest
      else if c = 123 then
        match skipSpace rest with
        | 125 :: r => some (.obj [], r)
        | _ => readMembers fuel rest
      else if (c :: rest).take 4 = lit "true" then some (.bool true, rest.drop 3)
      else if (c :: rest).take 5 = lit "false" then some (.bool false, rest.drop 4)
      else if (c :: rest).take 4 = lit "null" then some (.null, rest.drop 3)
      else readNumber (c :: rest)
/-- The elements of an array after `[` or `,`, up to and including `]`. -/
def readElements : Nat → JsString → Option (JsVal × JsString)
  | 0, _ => none
  | fuel + 1, s =>
    match readValue fuel s with
    | none => none
    | some (v, r) =>
      match skipSpace r with
      | 44 :: r1 =>
        match readElements fuel r1 with
        | some (.arr vs, r2) => some (.arr (v :: vs), r2)
        | _ => none
      | 93 :: r1 => some (.arr [v], r1)
      | _ => none
/-- The members of an object after `{` or `,`, up to and including `}`. -/
def readMembers : Nat → JsString → Option (JsVal × JsString)
  | 0, _ => none
  | fuel + 1, s =>
    match skipSpace s with
    | 34 :: r0 =>
      match readString (r0.length + 1) r0 with
      | none => none
      | some (key, r) =>
        match skipSpace r with
        | 58 :: r1 =>
          match readValue fuel r1 with
          | none => none
          | some (v, r2) =>
            match skipSpace r2 with
            | 44 :: r3 =>
              match readMembers fuel r3 with
              | some (.obj ps, r4) => some (.obj ((key, v) :: ps), r4)
              | _ => none
            | 125 :: r3 => some (.obj [(key, v)], r3)
            | _ => none
        | _ => none
    | _ => none
end

/-- A whole JSON text: one value, white space around it, nothing else. -/
def readJson (s : JsString) : Option JsVal :=
  match readValue (2 * s.length + 2) s with
  | some (v, rest) => if skipSpace rest = [] then some v else none
  | none => none

/-- `JSON.parse` on a string. A non-string argument, which the engine would
first convert to a string, does not occur in the worked examples and is
answered like a malformed text. -/
def jsonParse : JsVal → Option JsVal
  | .str s => readJson s
  | _ => none

/-! ## The requests of the injected client (`tester-inject.js`) -/

/-- The functions of the platform the client calls to encode a request. -/
structure Host where
  /-- The function `JSON.stringify`. -/
  stringify : JsVal → JsString
  /-- The function `encodeURIComponent`. -/
  encodeURIComponent : JsString → JsString

/-- The number 0 as a value. -/
def num0 : JsVal := .num ⟨0, 0⟩

/-- The number 1 as a value. -/
def num1 : JsVal := .num (F64.ofNat 1)

/-- The number 4 as a value. -/
def num4 : JsVal := .num (F64.ofNat 4)

/-- `count` times `null`. -/
def nulls (count : Nat) : List JsVal := List.replicate count .null

/-- A value that is a string, or `undefined` when it was never assigned. -/
def strOrUndefined : Option JsString → JsVal
  | some s => .str s
  | none => .undefined

/-- The expression `gemId || null` for a gem id that is a string or `null`. -/
def gemOrNull (gemId : Option JsString) : JsVal :=
  if truthyStr gemId then .str (gemId.getD []) else .null

/-- The array `innerPayload` of `createChat`, element by element as in the
source, for the token at `requestCache.streamGenerate.snlm0Token` and the two
results of `generateUUID()`. -/
def innerPayload (initialMessage : JsString) (snlm0Token : Option JsString)
    (uuid1 uuid2 : JsString) (gemId : Option JsString) : List JsVal :=
  [.arr [.str initialMessage, num0, .null, .null, .null, .null, num0],
   .arr [.str (lit "en")],
   .arr [.str [], .str [], .str [], .null, .null, .null, .null, .null, .null, .str []],
   strOrUndefined snlm0Token,
   .str uuid1,
   .null,
   .arr [num1],
   num1]
  ++ nulls 2 ++
  [num1,
   num0]
  ++ nulls 5 ++
  [.arr [.arr [num0]],
   num0,
   gemOrNull gemId]
  ++ nulls 7 ++
  [num1]
  ++ nulls 2 ++
  [.arr [num4]]
  ++ nulls 10 ++
  [.arr [num1]]
  ++ nulls 11 ++
  [num0]
  ++ nulls 5 ++
  [.str uuid2,
   .null,
   .arr []]
  ++ nulls 38 ++
  [.arr []]

/-- The `StreamGenerate` request of `createChat`, kept as its parts: the query
parameters `bl`, `f.sid`, `_reqid` and, when it is appended, `source-path`
(`hl=en` and `rt=c` are constant), and the form fields `f.req` and `at`. -/
structure StreamGenerateRequest where
  innerPayload : List JsVal
  bl : Option JsString
  f_sid : Option JsString
  /-- The value of `this.requestCache._reqid_base++`. -/
  reqid : Option Int
  /-- The value `encodeURIComponent('/gem/' + gemId)` of the parameter
  `source-path`; `none` when the parameter is not appended. -/
  sourcePath : Option JsString
  fReq : JsString
  atField : Option JsString

/-- The method `createChat` up to the call of `fetch`: the request it sends and
the cache after it. `none` is the `TypeError` raised on
`this.requestCache.streamGenerate.snlm0Token` when `streamGenerate` was never
assigned. -/
def createChatRequest (host : Host) (cache : RequestCache) (uuid1 uuid2 : JsString)
    (initialMessage : JsString) (gemId : Option JsString) :
    Option (StreamGenerateRequest × RequestCache) :=
  match cache.streamGenerate with
  | none => none
  | some sg =>
    let payload := innerPayload initialMessage sg.snlm0Token uuid1 uuid2 gemId
    let freqPayload : JsVal := .arr [.null, .str (host.stringify (.arr payload))]
    let request : StreamGenerateRequest :=
      { innerPayload := payload
        bl := cache.bl
        f_sid := cache.f_sid
        reqid := cache._reqid_base
        sourcePath :=
          if truthyStr gemId then some (host.encodeURIComponent (lit "/gem/" ++ gemId.getD []))
          else none
        fReq := host.stringify freqPayload
        atField := if truthyStr sg.atToken then sg.atToken else cache.atToken }
    some (request, { cache with _reqid_base := cache._reqid_base.map (· + 1) })

/-- The identifier `DELETE_RPC_ID`. -/
def DELETE_RPC_ID : JsString := lit "GzXR5e"

/-- The batched-RPC request of `sendApiRequest`: its target and form fields. -/
structure BatchRequest where
  targetUrl : JsString
  fReq : JsString
  atField : Option JsString
  f_sid : Option JsString
  bl : Option JsString
  rt : Option JsString
  /-- The form field `_reqid`. -/
  reqid : Option Int

/-- How the `XMLHttpRequest` of `sendApiRequest` ends: `onload` with a status
and a body, or `onerror`. -/
inductive XhrOutcome where
  | load (status : Nat) (responseText : JsString)
  | error
deriving DecidableEq, Repr

/-- The state a promise ends in; `pending` is a promise that is never settled. -/
inductive Settled (α : Type) where
  | resolved (value : α)
  | rejected (error : Thrown)
  | pending

/-- The handler `xhr.onload` of `sendApiRequest`: an exception of `JSON.parse`
is thrown inside the event handler, where nothing settles the promise. -/
def onload (jsonParse : JsVal → Option JsVal) (status : Nat) (responseText : JsString) :
    Settled JsVal :=
  if 200 ≤ status ∧ status < 300 then
    match jsonParse (.str (substring responseText 4)) with
    | some value => .resolved value
    | none => .pending
  else .rejected ⟨lit "API request failed: " ++ lit (toString status)⟩

/-- The method `sendApiRequest`: the cache after it, the request sent (if any)
and how the promise it returns ends. -/
def sendApiRequest (host : Host) (jsonParse : JsVal → Option JsVal) (cache : RequestCache)
    (rpcId : JsString) (rpcPayload : JsVal) (xhr : XhrOutcome) :
    RequestCache × Option BatchRequest × Settled JsVal :=
  if !truthyStr cache.atToken || !truthyStr cache.targetUrl then
    (cache, none, .rejected ⟨lit "Cache is empty. Please refresh Gemini."⟩)
  else
    let innerPayload := host.stringify rpcPayload
    let f_req := host.stringify
      (.arr [.arr [.arr [.str rpcId, .str innerPayload, .null, .str (lit "generic")]]])
    let request : BatchRequest :=
      { targetUrl := cache.targetUrl.getD []
        fReq := f_req
        atField := cache.atToken
        f_sid := cache.f_sid
        bl := cache.bl
        rt := cache.rt
        reqid := cache._reqid_base.map (· + 1) }
    let cache1 := { cache with _reqid_base := cache._reqid_base.map (· + 1) }
    match xhr with
    | .load status responseText => (cache1, some request, onload jsonParse status responseText)
    | .error => (cache1, some request, .rejected ⟨lit "Network error"⟩)

/-- The method `deleteChat` for a chat id that is a string. -/
def deleteChat (host : Host) (jsonParse : JsVal → Option JsVal) (cache : RequestCache)
    (chatId : JsString) (xhr : XhrOutcome) :
    RequestCache × Option BatchRequest × Settled JsVal :=
  sendApiRequest host jsonParse cache DELETE_RPC_ID (.arr [.str (apiChatId chatId)]) xhr

/-- `parseInt(s, 10)` for a string: leading white space, an optional sign and
the longest run of decimal digits; `none` is `NaN`. -/
def parseInt10 (s : JsString) : Option Int :=
  let s1 := s.dropWhile isWhiteSpace
  let neg := s1.head? == some 45
  let s2 := if s1.head? == some 45 || s1.head? == some 43 then s1.drop 1 else s1
  let digits := s2.takeWhile isDigit
  if digits = [] then none
  else some (if neg then -(digitsVal 0 digits : Int) else (digitsVal 0 digits : Int))

/-- The request-id seed `parseInt(params.get("_reqid"), 10) || random`, where
`random` is the value of `Math.floor(Math.random() * 100000)`; a missing
parameter reads as `NaN`. -/
def reqidSeed (reqid : Option JsString) (random : Nat) : Int :=
  match reqid.bind parseInt10 with
  | some n => if n = 0 then random else n
  | none => random

/-- `url.split('?')[0]`. -/
def beforeQuery (url : JsString) : JsString := url.takeWhile (· != 63)

/-- The method `cacheRequestParams`. `params body name` is
`new URLSearchParams(body).get(name)`, `body` is `none` when it is not a
string. -/
def cacheRequestParams (params : JsString → JsString → Option JsString) (random : Nat)
    (cache : RequestCache) (url : JsString) (body : Option JsString) : RequestCache :=
  match body with
  | none => cache
  | some body =>
    let cache1 :=
      if url ≠ [] ∧ lit "batchexecute" <:+: url then
        if truthyStr (params body (lit "at")) ∧ ¬ truthyStr cache.atToken then
          { cache with
            atToken := params body (lit "at")
            f_sid := params body (lit "f.sid")
            bl := params body (lit "bl")
            rt := params body (lit "rt")
            _reqid_base := some (reqidSeed (params body (lit "_reqid")) random)
            targetUrl := some (beforeQuery url) }
        else cache
      else cache
    if url ≠ [] ∧ lit "StreamGenerate" <:+: url then
      if truthyStr (params body (lit "at")) then
        let cache2 :=
          if truthyStr cache1.atToken then cache1
          else { cache1 with atToken := params body (lit "at") }
        let sg : StreamGenerateCache := cache2.streamGenerate.getD ⟨none, none⟩
        { cache2 with streamGenerate := some { sg with atToken := params body (lit "at") } }
      else cache1
    else cache1

/-- The message `callInjectedApi` posts for a request of the orchestrator. -/
def requestMessage (requestId : JsString) : Effect → Option ForkerMessage
  | .createChat message gemId =>
    some ⟨lit "FORKER_REQUEST", lit "createChat",
      .obj [(lit "message", .str message),
        (lit "gemId", match gemId with
          | some g => .str g
          | none => .null)],
      requestId⟩
  | .deleteChat chatId =>
    some ⟨lit "FORKER_REQUEST", lit "deleteChat",
      match chatId with
      | some c => .str c
      | none => .null,
      requestId⟩
  | _ => none

/-- The gem id `createChat` receives as a string or `null`. -/
def gemIdArg : JsVal → Option JsString
  | .str g => some g
  | _ => none

/-- The answers of `URLSearchParams` for the two bodies of the worked example:
`at=T1&bl=b1` and `at=T2&bl=b2`. -/
def exampleParams (body name : JsString) : Option JsString :=
  if body = lit "at=T1&bl=b1" then
    (if name = lit "at" then some (lit "T1") else if name = lit "bl" then some (lit "b1")
      else none)
  else if body = lit "at=T2&bl=b2" then
    (if name = lit "at" then some (lit "T2") else if name = lit "bl" then some (lit "b2")
      else none)
  else none

/-- The empty cache of the constructor: `this.requestCache = {}`. -/
def emptyCache : RequestCache := ⟨none, none, none, none, none, none, none⟩

/-- A relevant line whose outer JSON is cut off. -/
def truncatedLine : JsString := lit "[[\"wrb.fr\",null,\"[null,[\\\"c_zzz\\\""

/-- A relevant line whose third element is not the text of a JSON value. -/
def badInnerLine : JsString := lit "[[\"wrb.fr\",null,\"[null,[oops\"]]"

/-- A cache holding the signing token `tok`, the target `/batchexecute`, the
embedded token `SN` and the request counter `counter`. -/
def cacheAt (counter : Int) : RequestCache :=
  ⟨some (lit "tok"), some (lit "sid"), some (lit "bl"), some (lit "c"), some counter,
    some (lit "/batchexecute"), some ⟨none, some (lit "SN")⟩⟩

/-- The request id a `StreamGenerate` request carries, if the request was built. -/
def streamReqid (r : Option (StreamGenerateRequest × RequestCache)) : Option Int :=
  r.bind fun x => x.1.reqid

/-- The request id a batched-RPC request carries, if the request was sent. -/
def batchReqid (r : RequestCache × Option BatchRequest × Settled JsVal) : Option Int :=
  r.2.1.bind fun x => x.reqid

/-- Whether a promise is never settled. -/
def Settled.isPending {α : Type} : Settled α → Bool
  | .pending => true
  | _ => false

/-! ## The transcript extractor (`gemini_fork.js`) -/

/-- A node returned by `document.querySelectorAll('user-query, model-response')`
with what `extractGemini` reads from it. -/
structure MessageNode where
  /-- The identity of the node in the document. -/
  id : Nat
  tagName : JsString
  /-- The `innerText` of the first descendant matching
  `.query-text p, .query-text-line`; `none` when there is no such node. -/
  queryText : Option JsString
  /-- The result of `td.turndown` on the inner HTML of the first descendant
  matching `message-content .markdown, message-content`, cloned and stripped of
  its action containers; `none` when there is no such node. -/
  markdown : Option JsString
deriving DecidableEq, Repr

/-- `allMessageNodes.indexOf(anchorParent)`; `none` is the result `-1`. -/
def indexOfNode : List MessageNode → Nat → Option Nat
  | [], _ => none
  | node :: rest, anchorParent =>
    if node.id = anchorParent then some 0
    else (indexOfNode rest anchorParent).map (· + 1)

/-- The body of the `forEach` of `extractGemini`: the array `messages` after
the node. -/
def pushMessage (messages : List Message) (node : MessageNode) : List Message :=
  let roleText : Option JsString × JsString :=
    if node.tagName = lit "USER-QUERY" then
      (some (lit "user"), match node.queryText with
        | some innerText => innerText
        | none => [])
    else if node.tagName = lit "MODEL-RESPONSE" then
      (some (lit "model"), match node.markdown with
        | some md => trim md
        | none => [])
    else (none, [])
  if truthyStr roleText.1 ∧ roleText.2 ≠ [] then
    messages ++ [⟨if roleText.1 = some (lit "user") then lit "User" else lit "Assistant",
      roleText.2⟩]
  else messages

/-- The function `extractGemini`. `anchorParent` is the node
`anchorNode.closest('model-response')`, `none` when no anchor is given or the
anchor has no such ancestor. -/
def extractGemini (allMessageNodes : List MessageNode) (anchorParent : Option Nat) :
    List Message :=
  let nodes :=
    match anchorParent with
    | none => allMessageNodes
    | some anchor =>
      match indexOfNode allMessageNodes anchor with
      | some endIndex => slice allMessageNodes 0 (endIndex + 1)
      | none => allMessageNodes
  nodes.foldl pushMessage []

/-- The message a node stands for, in the words of the specification: a
`user-query` with a non-empty text is a `User` message, a `model-response`
with a non-empty text is an `Assistant` message, any other node is none. -/
def messageOf (node : MessageNode) : Option Message :=
  if node.tagName = lit "USER-QUERY" then
    match node.queryText with
    | some text => if text ≠ [] then some ⟨lit "User", text⟩ else none
    | none => none
  else if node.tagName = lit "MODEL-RESPONSE" then
    match node.markdown with
    | some md => if trim md ≠ [] then some ⟨lit "Assistant", trim md⟩ else none
    | none => none
  else none

/-- The rational number a binary64 value stands for. -/
def F64.toRat (x : F64) : ℚ := (x.m : ℚ) * (2 : ℚ) ^ x.e

/-! ## The operations on the cache -/

/-- One operation of the client on the cache, with its arguments and the
answers of the environment it reads. -/
inductive ClientOp where
  /-- The call `cacheRequestParams(url, body)` of the request hook; `random` is
  the value of `Math.floor(Math.random() * 100000)`. -/
  | cacheRequestParams (random : Nat) (url : JsString) (body : Option JsString)
  /-- The call `extractTokenFromGlobals()` on this page. -/
  | extractTokenFromGlobals (page : Page)
  /-- The call `createChat(initialMessage, gemId)`, with the two identifiers
  `generateUUID` returns. -/
  | createChat (uuid1 uuid2 initialMessage : JsString) (gemId : Option JsString)
  /-- The call `sendApiRequest(rpcId, rpcPayload)`, with the outcome of its request. -/
  | sendApiRequest (rpcId : JsString) (rpcPayload : JsVal) (xhr : XhrOutcome)

/-- The cache after one operation. A `createChat` that raises the `TypeError`
on `streamGenerate` has not touched the cache. -/
def runOp (params : JsString → JsString → Option JsString) (host : Host)
    (jsonParse : JsVal → Option JsVal) (cache : RequestCache) : ClientOp → RequestCache
  | .cacheRequestParams random url body => cacheRequestParams params random cache url body
  | .extractTokenFromGlobals page => (extractTokenFromGlobals page cache).1
  | .createChat uuid1 uuid2 initialMessage gemId =>
    match createChatRequest host cache uuid1 uuid2 initialMessage gemId with
    | some (_, cache1) => cache1
    | none => cache
  | .sendApiRequest rpcId rpcPayload xhr =>
    (sendApiRequest host jsonParse cache rpcId rpcPayload xhr).1

/-- The cache after a sequence of operations. -/
def runOps (params : JsString → JsString → Option JsString) (host : Host)
    (jsonParse : JsVal → Option JsVal) (ops : List ClientOp) (cache : RequestCache) :
    RequestCache :=
  ops.foldl (fun c op => runOp params host jsonParse c op) cache

/-- The field `requestCache.streamGenerate.at`, `none` when there is no
`streamGenerate` object. -/
def RequestCache.streamAt (cache : RequestCache) : Option JsString :=
  cache.streamGenerate.bind (·.atToken)

/-- The field `requestCache.streamGenerate.snlm0Token`, `none` when there is no
`streamGenerate` object. -/
def RequestCache.snlm0 (cache : RequestCache) : Option JsString :=
  cache.streamGenerate.bind (·.snlm0Token)

/-- The message of the error a promise was rejected with. -/
def Settled.rejection {α : Type} : Settled α → Option JsString
  | .rejected error => some error.message
  | _ => none

/-- The cache of a page whose first observed request with a signing token is a
`StreamGenerate` request, after `extractTokenFromGlobals` found the embedded
token `S`. -/
def streamFirstCache : RequestCache :=
  (extractTokenFromGlobals ⟨some (lit "S"), []⟩
    (cacheRequestParams exampleParams 3 emptyCache
      (lit "/_/BardChatUi/data/assistant.lamda.BardFrontendService/StreamGenerate?bl=b1")
      (some (lit "at=T1&bl=b1")))).1

/-- The operations of the worked example: a `batchexecute` request with
`at=T1`, a `StreamGenerate` request with `at=T2`, and `extractTokenFromGlobals`
finding the embedded token `S`. -/
def capturedOps : List ClientOp :=
  [.cacheRequestParams 7 (lit "/_/BardChatUi/data/batchexecute?rpcids=a")
      (some (lit "at=T1&bl=b1")),
   .cacheRequestParams 9 (lit "/_/BardChatUi/data/StreamGenerate") (some (lit "at=T2&bl=b2")),
   .extractTokenFromGlobals ⟨some (lit "S"), []⟩]

/-! ## Rounding lemmas -/

theorem ilog2_spec (fuel n : Nat) (hn : 0 < n) (hf : n < 2 ^ fuel) :
    2 ^ ilog2 fuel n ≤ n ∧ n < 2 ^ (ilog2 fuel n + 1) := by
  induction fuel generalizing n with
  | zero => simp at hf; omega
  | succ f ih =>
    unfold ilog2
    by_cases h2 : n < 2
    · simp [h2]; omega
    · simp only [h2, if_false]
      have hpos : 0 < n / 2 := by omega
      have hlt : n / 2 < 2 ^ f := by
        rw [pow_succ] at hf; omega
      obtain ⟨h1, h3⟩ := ih (n / 2) hpos hlt
      constructor
      · rw [pow_succ]; omega
      · rw [pow_succ]; omega

theorem ilog2_self_spec (n : Nat) (hn : 0 < n) :
    2 ^ ilog2 n n ≤ n ∧ n < 2 ^ (ilog2 n n + 1) :=
  ilog2_spec n n hn (Nat.lt_two_pow n)

theorem ilog2_unique (n k j : Nat) (h1 : 2 ^ k ≤ n) (h2 : n < 2 ^ (k + 1))
    (h3 : 2 ^ j ≤ n) (h4 : n < 2 ^ (j + 1)) : k = j := by
  by_contra hne
  rcases Nat.lt_or_gt_of_ne hne with h | h
  · have : 2 ^ (k + 1) ≤ 2 ^ j := Nat.pow_le_pow_right (by norm_num) h
    omega
  · have : 2 ^ (j + 1) ≤ 2 ^ k := Nat.pow_le_pow_right (by norm_num) h
    omega

theorem splitPoint_hundred (n : Nat) : splitPoint n 100 = 0 := by
  have h : F64.sub (F64.ofNat 1) (F64.div (F64.ofNat 100) (F64.ofNat 100)) = ⟨0, 0⟩ := by
    decide
  unfold splitPoint
  rw [h]
  simp [F64.mul, roundRat, F64.floor]

theorem roundHalfEven_mul (c b : Nat) (hb : 0 < b) : roundHalfEven (c * b) b = c := by
  unfold roundHalfEven
  simp [Nat.mul_div_cancel c hb, Nat.mul_mod_left, hb]

theorem ilog2_mul_pow (n j : Nat) (hn : 0 < n) :
    ilog2 (n * 2 ^ j) (n * 2 ^ j) = ilog2 n n + j := by
  have hj : 0 < 2 ^ j := Nat.two_pow_pos _
  obtain ⟨h1, h2⟩ := ilog2_self_spec n hn
  obtain ⟨h3, h4⟩ := ilog2_self_spec (n * 2 ^ j) (Nat.mul_pos hn hj)
  apply ilog2_unique (n * 2 ^ j) _ _ h3 h4
  · rw [pow_add]; exact Nat.mul_le_mul_right _ h1
  · have : 2 ^ (ilog2 n n + j + 1) = 2 ^ (ilog2 n n + 1) * 2 ^ j := by ring
    rw [this]; exact Nat.mul_lt_mul_of_pos_right h2 hj

theorem ilog2_lt (n b : Nat) (hn : 0 < n) (h : n < 2 ^ b) : ilog2 n n < b := by
  obtain ⟨h1, _⟩ := ilog2_self_spec n hn
  by_contra hc
  have : 2 ^ b ≤ 2 ^ ilog2 n n := Nat.pow_le_pow_right (by norm_num) (by omega)
  omega

theorem roundPos_exact (n j : Nat) (hn : 0 < n) (h : n < 2 ^ 53) :
    roundPos (n * 2 ^ j) (2 ^ j) = ⟨(n * 2 ^ (52 - ilog2 n n) : Nat), (ilog2 n n : Int) - 52⟩ := by
  have hk : ilog2 n n < 53 := ilog2_lt n 53 hn h
  obtain ⟨h1, _⟩ := ilog2_self_spec n hn
  have hA := ilog2_mul_pow n j hn
  have hB : ilog2 (2 ^ j) (2 ^ j) = j := by
    have := ilog2_mul_pow 1 j (by norm_num)
    simpa [ilog2] using this
  have hlead : leadExp (n * 2 ^ j) (2 ^ j) = (ilog2 n n : Int) := by
    unfold leadExp
    rw [hA, hB]
    have e1 : (((ilog2 n n + j : Nat) : Int) - (j : Int)) = (ilog2 n n : Int) := by
      push_cast; ring
    simp only [e1, Int.toNat_ofNat]
    have e2 : (-(ilog2 n n : Int)).toNat = 0 := by omega
    rw [e2, if_pos]
    rw [pow_zero, mul_one, mul_comm]
    exact Nat.mul_le_mul_right _ h1
  unfold roundPos
  rw [hlead]
  have e3 : max ((ilog2 n n : Int) - 52) (-1074) = (ilog2 n n : Int) - 52 := by omega
  simp only [e3]
  have e4 : (-((ilog2 n n : Int) - 52)).toNat = 52 - ilog2 n n := by omega
  have e5 : ((ilog2 n n : Int) - 52).toNat = 0 := by omega
  rw [e4, e5, pow_zero, mul_one]
  have e6 : n * 2 ^ j * 2 ^ (52 - ilog2 n n) = (n * 2 ^ (52 - ilog2 n n)) * 2 ^ j := by ring
  rw [e6, roundHalfEven_mul _ _ (Nat.two_pow_pos _)]

theorem splitPoint_zero (n : Nat) (h : n < 2 ^ 53) : splitPoint n 0 = n := by
  have hy : F64.sub (F64.ofNat 1) (F64.div (F64.ofNat 0) (F64.ofNat 100)) = ⟨2 ^ 52, -52⟩ := by
    decide
  unfold splitPoint
  rw [hy]
  rcases Nat.eq_zero_or_pos n with h0 | hn
  · subst h0; decide
  · have hk : ilog2 n n < 53 := ilog2_lt n 53 hn h
    have hx : F64.ofNat n = ⟨(n * 2 ^ (52 - ilog2 n n) : Nat), (ilog2 n n : Int) - 52⟩ := by
      have := roundPos_exact n 0 hn h
      simp only [pow_zero, mul_one] at this
      unfold F64.ofNat roundRat
      have hne : (n : Int) ≠ 0 := by omega
      have hnn : ¬ ((n : Int) < 0) := by omega
      simp only [hne, hnn, if_false, Int.natAbs_ofNat, this]
    rw [hx]
    unfold F64.mul
    simp only
    have e1 : ((ilog2 n n : Int) - 52 + -52).toNat = 0 := by omega
    have e2 : (-((ilog2 n n : Int) - 52 + -52)).toNat = 104 - ilog2 n n := by omega
    rw [e1, e2, pow_zero, mul_one]
    have e3 : ((n * 2 ^ (52 - ilog2 n n) : Nat) : Int) * 2 ^ 52
        = ((n * 2 ^ (104 - ilog2 n n) : Nat) : Int) := by
      have : 104 - ilog2 n n = (52 - ilog2 n n) + 52 := by omega
      rw [this, pow_add]; push_cast; ring
    rw [e3]
    unfold roundRat
    have hpos : 0 < n * 2 ^ (104 - ilog2 n n) := Nat.mul_pos hn (Nat.two_pow_pos _)
    have hne : ((n * 2 ^ (104 - ilog2 n n) : Nat) : Int) ≠ 0 := by omega
    have hnn : ¬ (((n * 2 ^ (104 - ilog2 n n) : Nat) : Int) < 0) := by omega
    simp only [hne, hnn, if_false, Int.natAbs_ofNat, roundPos_exact n _ hn h]
    unfold F64.floor
    simp only
    have e5 : ((ilog2 n n : Int) - 52).toNat = 0 := by omega
    have e4 : (-((ilog2 n n : Int) - 52)).toNat = 52 - ilog2 n n := by omega
    rw [e4, e5, pow_zero, mul_one]
    push_cast
    exact Int.mul_ediv_cancel _ (by positivity)

/-! ## The split index -/

/-- C1: the split index the code computes is not always the exact floor: for a
transcript of 10 messages and 90 percent retained, `1 - 90 / 100` is the
binary64 value below one tenth, ten times it is `1 - 2 ^ (-52)`, and the floor
is 0, while the exact `floor (10 * 10 / 100)` is 1. For 70 percent the two
agree on 3. -/
theorem splitPoint_ten_ninety :
    splitPoint 10 90 = 0 ∧ exactSplit 10 90 = 1 ∧
      splitPoint 10 70 = 3 ∧ exactSplit 10 70 = 3 := by
  decide

/-! ## Slicing at the two ends of the slider -/

theorem relIndex_zero (len : Nat) : relIndex len 0 = 0 := by
  simp [relIndex]

theorem relIndex_length (len : Nat) : relIndex len (len : Int) = len := by
  have h : ¬ ((len : Int) < 0) := by omega
  simp [relIndex, h]

theorem messagesToSummarize_hundred (msgs : List Message) :
    messagesToSummarize msgs 100 = [] := by
  simp [messagesToSummarize, slice, splitPoint_hundred, relIndex_zero]

theorem messagesToKeep_hundred (msgs : List Message) : messagesToKeep msgs 100 = msgs := by
  simp [messagesToKeep, sliceFrom, splitPoint_hundred, relIndex_zero]

theorem messagesToSummarize_zero (msgs : List Message) (h : msgs.length < 2 ^ 53) :
    messagesToSummarize msgs 0 = msgs := by
  simp [messagesToSummarize, slice, splitPoint_zero _ h, relIndex_zero, relIndex_length]

theorem messagesToKeep_zero (msgs : List Message) (h : msgs.length < 2 ^ 53) :
    messagesToKeep msgs 0 = [] := by
  simp [messagesToKeep, sliceFrom, splitPoint_zero _ h, relIndex_length]

theorem chatContext_no_summary (keep : List Message) : chatContext [] keep = renderLog keep := by
  unfold chatContext summaryLog
  by_cases h : renderLog keep = []
  · simp [h, join]
  · simp [h, join]

theorem summaryLabel_ne_nil : summaryLabel ≠ [] := by decide

theorem chatContext_no_keep (s : JsString) (hs : s ≠ []) :
    chatContext s [] = summaryLabel ++ s := by
  have h : summaryLabel ++ s ≠ [] := by simp [hs]
  simp [chatContext, summaryLog, hs, renderLog, join]

theorem summaryPlaceholder_ne_nil : summaryPlaceholder ≠ [] := by decide

theorem summaryTextOf_ne_nil (r : Option ChatResult) : summaryTextOf r ≠ [] := by
  unfold summaryTextOf
  cases r with
  | none => exact summaryPlaceholder_ne_nil
  | some r =>
    rcases r with ⟨c, t⟩
    cases t with
    | none => simpa [truthyStr] using summaryPlaceholder_ne_nil
    | some t =>
      cases t with
      | nil => simpa [truthyStr] using summaryPlaceholder_ne_nil
      | cons a t => simp [truthyStr]

/-- C2: with 100 percent retained the summarize set is empty, the context block
is exactly the role-labelled transcript (no summary section), and the only
request the fork sends is the final `createChat` carrying
`[START CONTEXT]`, that transcript, `[END CONTEXT]`: no summary request and no
`deleteChat` is made, whatever the transcript and whatever the environment
answers. -/
theorem retain_all_skips_summary (gem : Option JsString) (msgs : List Message)
    (prompt : JsString) (env : Env) :
    messagesToSummarize msgs 100 = [] ∧
    chatContext [] (messagesToKeep msgs 100) = renderLog msgs ∧
    renderLog msgs = join (lit "\n\n---\n\n")
      (msgs.map fun m => lit "**" ++ m.role ++ lit ":**\n" ++ m.text) ∧
    ∃ rest, handleForkConfirm gem msgs 100 prompt env
        = Effect.createChat (promptHead ++ renderLog msgs ++ promptTail) gem :: rest ∧
      ∀ e ∈ rest, (∀ m g, e ≠ Effect.createChat m g) ∧ (∀ c, e ≠ Effect.deleteChat c) := by
  refine ⟨messagesToSummarize_hundred msgs, ?_, rfl, ?_⟩
  · rw [messagesToKeep_hundred, chatContext_no_summary]
  · unfold handleForkConfirm
    simp only [messagesToSummarize_hundred, messagesToKeep_hundred, List.length_nil,
      lt_self_iff_false, if_false]
    unfold createNewChat
    rw [chatContext_no_summary]
    rcases h : env.finalReply with r | err
    · cases r with
      | none =>
        refine ⟨_, rfl, ?_⟩
        intro e he
        simp at he
        subst he
        simp
      | some r =>
        by_cases hc : truthyStr r.chatId = true
        · simp only [hc, if_true]
          refine ⟨_, rfl, ?_⟩
          intro e he
          simp at he
          rcases he with he | he <;> subst he <;> simp
        · simp only [hc]
          refine ⟨_, rfl, ?_⟩
          intro e he
          simp at he
          subst he
          simp
    · refine ⟨_, rfl, ?_⟩
      intro e he
      simp at he
      subst he
      simp

/-- C3 (as stated, refuted): for a one-message transcript, 0 percent retained
and a summary chat answering `S`, the retain set is empty but the context block
is `**Assistant (Summary):**\nS`, not the bare summary text `S`. -/
theorem retain_none_context_has_label :
    messagesToKeep [⟨lit "User", lit "hi"⟩] 0 = [] ∧
    summaryTextOf (some ⟨some (lit "t1"), some (lit "S")⟩) = lit "S" ∧
    chatContext (lit "S") (messagesToKeep [⟨lit "User", lit "hi"⟩] 0)
      = lit "**Assistant (Summary):**\nS" ∧
    chatContext (lit "S") (messagesToKeep [⟨lit "User", lit "hi"⟩] 0) ≠ lit "S" ∧
    handleForkConfirm none [⟨lit "User", lit "hi"⟩] 0 (lit "Sum up")
        ⟨.resolved (some ⟨some (lit "t1"), some (lit "S")⟩), .resolved (),
          .resolved (some ⟨some (lit "n1"), none⟩), lit "TypeError"⟩
      = [.createChat (lit "Sum up\n\n---\n\n**User:**\nhi") none,
         .deleteChat (some (lit "t1")),
         .sleep 500,
         .createChat (promptHead ++ lit "**Assistant (Summary):**\nS" ++ promptTail) none,
         .sleep 1500,
         .navigate (lit "https://gemini.google.com/app/n1")] := by
  decide

/-- C3 (amended): with 0 percent retained the retain set is empty and the whole
transcript is the summarize set; for a non-empty transcript whose summary
request and deletion are answered, the context block of the final request is
the label `**Assistant (Summary):**\n` followed by the summary text (the
response text of the summary chat, or the placeholder when there is none), and
nothing else. -/
theorem retain_none_context (gem : Option JsString) (msgs : List Message)
    (prompt : JsString) (env : Env) (r : ChatResult) (u : Unit)
    (hlen : msgs.length < 2 ^ 32) (hne : msgs ≠ [])
    (hsum : env.summaryReply = .resolved (some r)) (hdel : env.deleteReply = .resolved u) :
    messagesToKeep msgs 0 = [] ∧
    messagesToSummarize msgs 0 = msgs ∧
    chatContext (summaryTextOf (some r)) (messagesToKeep msgs 0)
      = lit "**Assistant (Summary):**\n" ++ summaryTextOf (some r) ∧
    ∃ rest, handleForkConfirm gem msgs 0 prompt env
      = [.createChat (prompt ++ lit "\n\n---\n\n" ++ renderLog msgs) gem,
         .deleteChat r.chatId,
         .sleep 500,
         .createChat (promptHead ++ (lit "**Assistant (Summary):**\n" ++ summaryTextOf (some r))
            ++ promptTail) gem] ++ rest := by
  have h53 : msgs.length < 2 ^ 53 := lt_trans hlen (by norm_num)
  have hk := messagesToKeep_zero msgs h53
  have hs := messagesToSummarize_zero msgs h53
  have hctx : chatContext (summaryTextOf (some r)) [] = summaryLabel ++ summaryTextOf (some r) :=
    chatContext_no_keep _ (summaryTextOf_ne_nil _)
  refine ⟨hk, hs, ?_, ?_⟩
  · rw [hk]; exact hctx
  · have hpos : 0 < msgs.length := List.length_pos.mpr hne
    unfold handleForkConfirm
    simp only [hk, hs, hpos, if_true]
    unfold summarizeRound
    simp only [hsum, hdel]
    unfold createNewChat
    rw [hctx]
    rcases env.finalReply with res | err
    · cases res with
      | none => exact ⟨_, rfl⟩
      | some res =>
        by_cases hc : truthyStr res.chatId = true
        · simp only [hc, if_true]; exact ⟨_, rfl⟩
        · simp only [hc]; exact ⟨_, rfl⟩
    · exact ⟨_, rfl⟩

/-- The amended C3 at a two-message transcript. -/
theorem retain_none_context_witness :
    messagesToKeep [⟨lit "User", lit "hi"⟩, ⟨lit "Assistant", lit "yo"⟩] 0 = [] ∧
    chatContext (summaryTextOf (some ⟨some (lit "t1"), none⟩))
        (messagesToKeep [⟨lit "User", lit "hi"⟩, ⟨lit "Assistant", lit "yo"⟩] 0)
      = lit "**Assistant (Summary):**\n[Summary was generated, but text could not be extracted.]" :=
  have h := retain_none_context none [⟨lit "User", lit "hi"⟩, ⟨lit "Assistant", lit "yo"⟩]
    (lit "Sum up")
    ⟨.resolved (some ⟨some (lit "t1"), none⟩), .resolved (), .rejected (lit "down"), []⟩
    ⟨some (lit "t1"), none⟩ () (by decide) (by decide) rfl rfl
  ⟨h.1, h.2.2.1⟩

/-- C4 (as stated, refuted): when the environment answers `deleteChat` with an
error, the fork stops in its failure branch: after the summary request and the
delete request it only alerts; the final conversation is not created and no
navigation happens. -/
theorem delete_failure_fails_fork :
    handleForkConfirm none [⟨lit "User", lit "hi"⟩] 0 (lit "Sum up")
        ⟨.resolved (some ⟨some (lit "t1"), some (lit "S")⟩), .rejected (lit "boom"),
          .resolved (some ⟨some (lit "n1"), none⟩), lit "TypeError"⟩
      = [.createChat (lit "Sum up\n\n---\n\n**User:**\nhi") none,
         .deleteChat (some (lit "t1")),
         .alert (lit "Forking failed: boom. See console for details.")] := by
  decide

/-- C4 (amended): whenever the summarize set is non-empty, the summary request
is answered and `deleteChat` is answered with an error, `handleForkConfirm`
performs exactly the summary request, the delete request and the alert
`Forking failed: <error>. See console for details.`: it neither creates the
final conversation nor navigates. -/
theorem delete_failure_alerts (gem : Option JsString) (msgs : List Message) (p : Nat)
    (prompt : JsString) (env : Env) (r : ChatResult) (err : JsString)
    (hne : messagesToSummarize msgs p ≠ [])
    (hsum : env.summaryReply = .resolved (some r)) (hdel : env.deleteReply = .rejected err) :
    handleForkConfirm gem msgs p prompt env
      = [.createChat (prompt ++ lit "\n\n---\n\n" ++ renderLog (messagesToSummarize msgs p)) gem,
         .deleteChat r.chatId,
         .alert (lit "Forking failed: " ++ err ++ lit ". See console for details.")] := by
  have hpos : 0 < (messagesToSummarize msgs p).length := List.length_pos.mpr hne
  unfold handleForkConfirm
  simp only [hpos, if_true]
  unfold summarizeRound
  simp only [hsum, hdel]
  rfl

/-- The amended C4 at a three-message transcript with 50 percent retained. -/
theorem delete_failure_alerts_witness :
    handleForkConfirm (some (lit "ab12"))
        [⟨lit "User", lit "a"⟩, ⟨lit "Assistant", lit "b"⟩, ⟨lit "User", lit "c"⟩] 50 (lit "P")
        ⟨.resolved (some ⟨some (lit "t1"), none⟩), .rejected (lit "API request failed: 500"),
          .resolved none, []⟩
      = [.createChat (lit "P\n\n---\n\n**User:**\na") (some (lit "ab12")),
         .deleteChat (some (lit "t1")),
         .alert (lit "Forking failed: API request failed: 500. See console for details.")] :=
  delete_failure_alerts (some (lit "ab12"))
    [⟨lit "User", lit "a"⟩, ⟨lit "Assistant", lit "b"⟩, ⟨lit "User", lit "c"⟩] 50 (lit "P")
    ⟨.resolved (some ⟨some (lit "t1"), none⟩), .rejected (lit "API request failed: 500"),
      .resolved none, []⟩
    ⟨some (lit "t1"), none⟩ (lit "API request failed: 500") (by decide) rfl rfl

/-! ## Conversation ids -/

theorem lit_marker : lit "c_" = [99, 95] := by decide

theorem startsWith_marker (x : JsString) (h : startsWith x (lit "c_") = true) :
    ∃ rest, x = 99 :: 95 :: rest := by
  rw [lit_marker] at h
  match x, h with
  | [], h => simp [startsWith, List.isPrefixOf] at h
  | [_], h => simp [startsWith, List.isPrefixOf] at h
  | a :: b :: rest, h =>
    simp [startsWith, List.isPrefixOf] at h
    exact ⟨rest, by rw [h.1, h.2]⟩

/-- C5 (as stated, refuted): the id `c_c_` carries the prefix, stripping gives
`c_`, and `deleteChat` leaves `c_` as it is because it starts with `c_`: the
round trip yields `c_`, not `c_c_`. -/
theorem strip_then_add_loses_marker :
    startsWith (lit "c_c_") (lit "c_") = true ∧
    apiChatId (stripPrefix (lit "c_c_")) = lit "c_" ∧
    apiChatId (stripPrefix (lit "c_c_")) ≠ lit "c_c_" := by
  decide

/-- C5 (amended): for an id `x` that starts with `c_`, stripping the prefix as
`parseStreamResponse` does and re-adding it as `deleteChat` does gives back `x`
exactly when what follows the prefix does not itself start with `c_`. -/
theorem strip_then_add (x : JsString) (h : startsWith x (lit "c_") = true) :
    apiChatId (stripPrefix x) = x ↔ startsWith (stripPrefix x) (lit "c_") = false := by
  obtain ⟨rest, rfl⟩ := startsWith_marker x h
  have hs : stripPrefix (99 :: 95 :: rest) = rest := rfl
  rw [hs]
  unfold apiChatId
  by_cases hr : startsWith rest (lit "c_") = true
  · simp only [hr, if_true]
    constructor
    · intro heq
      have := congrArg List.length heq
      simp at this
      omega
    · intro hc; simp at hc
  · simp only [hr]
    simp [lit_marker]

/-- The amended C5 at the id `c_abc123`. -/
theorem strip_then_add_witness :
    apiChatId (stripPrefix (lit "c_abc123")) = lit "c_abc123" :=
  (strip_then_add (lit "c_abc123") (by decide)).mpr (by decide)

/-! ## The stream response parser -/

theorem getIndex_none_iff (d : JsVal) (i : Nat) :
    getIndex d i = none ↔ d = .null ∨ d = .undefined := by
  cases d with
  | str s =>
    simp only [getIndex]
    split <;> simp
  | _ => simp [getIndex]

theorem optIndex_of_getIndex {d a : JsVal} {i : Nat} (h : getIndex d i = some a) :
    optIndex d i = a := by
  simp [optIndex, h]

theorem optIndex_of_none {d : JsVal} {i : Nat} (h : getIndex d i = none) (j : Nat) :
    optIndex d j = .undefined := by
  rcases (getIndex_none_iff d i).mp h with rfl | rfl <;> rfl

theorem optIndex_undefined (i : Nat) : optIndex .undefined i = .undefined := rfl

theorem optIndex_falsy (a : JsVal) (i : Nat) (h : truthy a = false) :
    optIndex a i = .undefined := by
  cases a with
  | str s =>
    cases s with
    | nil => rfl
    | cons c s => simp [truthy] at h
  | arr items => simp [truthy] at h
  | obj props => simp [truthy] at h
  | _ => rfl

theorem idCandidate_eq (d : JsVal) :
    idCandidate d = match foundChatIdOf d with
      | .str s => if startsWith s (lit "c_") then some (s.drop 2) else none
      | _ => none := by
  unfold idCandidate foundChatIdOf
  by_cases ht : truthy (optIndex d 1) = true
  · simp only [ht, if_true]
  · have hf : truthy (optIndex d 1) = false := by simpa using ht
    rw [optIndex_falsy _ 0 hf]
    simp only [hf]
    cases h1 : optIndex d 1 with
    | str s =>
      rw [h1] at hf
      cases s with
      | nil => simp [startsWith, lit_marker, List.isPrefixOf]
      | cons c s => simp [truthy] at hf
    | _ => simp

theorem findChatId_truthy (c : Option JsString) (d : JsVal) (hc : truthyStr c = true) :
    findChatId c d = some c := by
  simp [findChatId, hc]

theorem findChatId_falsy (c : Option JsString) (d : JsVal) (hc : truthyStr c = false) :
    (match findChatId c d with
      | none => c
      | some c1 => c1)
    = (match idCandidate d with
      | some r => some r
      | none => c) := by
  rw [idCandidate_eq]
  unfold findChatId
  simp only [hc]
  cases h1 : getIndex d 1 with
  | none =>
    have : foundChatIdOf d = .undefined := by
      simp [foundChatIdOf, optIndex_of_none h1, truthy]
    simp [this]
  | some a =>
    have ha : optIndex d 1 = a := optIndex_of_getIndex h1
    have hf : (if truthy a then optIndex a 0 else a) = foundChatIdOf d := by
      simp [foundChatIdOf, ha]
    simp only [hf]
    cases hv : foundChatIdOf d with
    | str s =>
      by_cases hs : truthy (.str s) = true
      · by_cases hw : startsWith s (lit "c_") = true <;> simp [hs, hw, substring]
      · have : s = [] := by simpa [truthy] using hs
        subst this
        simp [truthy, startsWith, lit_marker, List.isPrefixOf]
    | undefined => simp [truthy]
    | null => simp [truthy]
    | bool b => cases b <;> simp [truthy]
    | num x => by_cases hx : (x.m != 0) = true <;> simp [truthy, hx]
    | arr items => simp [truthy]
    | obj props => simp [truthy]

theorem findChatId_none_safe (c : Option JsString) (d : JsVal)
    (h : findChatId c d = none) (hs : idBlockSafe d = true) : getIndex d 1 = none := by
  unfold findChatId at h
  by_cases hc : truthyStr c = true
  · simp [hc] at h
  · simp only [hc] at h
    cases h1 : getIndex d 1 with
    | none => rfl
    | some a =>
      exfalso
      have ha : optIndex d 1 = a := optIndex_of_getIndex h1
      have hf : (if truthy a then optIndex a 0 else a) = foundChatIdOf d := by
        simp [foundChatIdOf, ha]
      simp only [h1, hf] at h
      unfold idBlockSafe at hs
      cases hv : foundChatIdOf d with
      | str s =>
        rw [hv] at h
        by_cases ht : truthy (.str s) = true
        · by_cases hw : startsWith s (lit "c_") = true <;> simp [ht, hw] at h
        · simp [ht] at h
      | undefined => rw [hv] at h; simp [truthy] at h
      | null => rw [hv] at h; simp [truthy] at h
      | bool b => rw [hv] at h hs; cases b <;> simp [truthy] at h hs
      | num x =>
        rw [hv] at h hs
        by_cases hx : (x.m != 0) = true
        · simp [truthy, hx] at hs
        · simp [truthy, hx] at h
      | arr items => rw [hv] at hs; simp [truthy] at hs
      | obj props => rw [hv] at hs; simp [truthy] at hs

theorem findText_spec (l : JsString) (d : JsVal) :
    (getIndex d 4 = none ∧ findText l d = none ∧ textCandidate d = none) ∨
    findText l d = some ((textCandidate d).elim l (pick l)) := by
  cases h4 : getIndex d 4 with
  | none =>
    left
    refine ⟨rfl, by simp [findText, h4], ?_⟩
    unfold textCandidate
    rw [optIndex_of_none h4 4, optIndex_undefined, optIndex_undefined, optIndex_undefined]
  | some a =>
    right
    have ha : optIndex d 4 = a := optIndex_of_getIndex h4
    unfold findText textCandidate
    simp only [h4, ha]
    cases hv : optIndex (optIndex (optIndex a 0) 1) 0 with
    | str s =>
      by_cases hs : truthy (.str s) = true
      · by_cases ht : trim s = []
        · simp [hs, ht]
        · by_cases hl : l.length < s.length <;> simp [hs, ht, hl, pick]
      · have : s = [] := by simpa [truthy] using hs
        subst this
        simp [truthy, trim]
    | undefined => simp [truthy]
    | null => simp [truthy]
    | bool b => cases b <;> simp [truthy]
    | num x => by_cases hx : (x.m != 0) = true <;> simp [truthy, hx]
    | arr items => simp [truthy]
    | obj props => simp [truthy]

theorem processLine_chatId (parse : JsVal → Option JsVal) (st : ParseState) (line : JsString) :
    (processLine parse st line).chatId =
      if truthyStr st.chatId then st.chatId
      else match lineChatId parse line with
        | some r => some r
        | none => st.chatId := by
  have hstep : (processLine parse st line).chatId =
      match innerDataOf parse line with
      | none => st.chatId
      | some d =>
        match findChatId st.chatId d with
        | none => st.chatId
        | some c1 => c1 := by
    unfold processLine
    cases hd : innerDataOf parse line with
    | none => rfl
    | some d =>
      simp only
      cases hf : findChatId st.chatId d with
      | none => rfl
      | some c1 => cases ht : findText st.longestResponse d <;> rfl
  rw [hstep]
  unfold lineChatId
  cases hd : innerDataOf parse line with
  | none => simp
  | some d =>
    by_cases hc : truthyStr st.chatId = true
    · simp [hc, findChatId_truthy _ d hc]
    · have hc1 : truthyStr st.chatId = false := by simpa using hc
      simpa [hc1] using findChatId_falsy st.chatId d hc1

theorem processLine_longest (parse : JsVal → Option JsVal) (st : ParseState) (line : JsString)
    (hs : lineIdSafe parse line = true) :
    (processLine parse st line).longestResponse =
      (lineText parse line).elim st.longestResponse (pick st.longestResponse) := by
  unfold processLine lineText
  unfold lineIdSafe at hs
  cases hd : innerDataOf parse line with
  | none => rfl
  | some d =>
    rw [hd] at hs
    simp only [Option.some_bind]
    cases hf : findChatId st.chatId d with
    | none =>
      have h1 := findChatId_none_safe _ _ hf hs
      have h4 : getIndex d 4 = none :=
        (getIndex_none_iff d 4).mpr ((getIndex_none_iff d 1).mp h1)
      rcases findText_spec st.longestResponse d with ⟨_, _, ht⟩ | ht
      · simp [ht]
      · simp [findText, h4] at ht
    | some c1 =>
      rcases findText_spec st.longestResponse d with ⟨_, hn, ht⟩ | ht
      · simp [hn, ht]
      · simp [ht]

/-- The id the loop ends with when it starts from `c` and meets the offered ids
`cands` in order. -/
theorem foldl_chatId (parse : JsVal → Option JsVal) (lines : List JsString) (st : ParseState) :
    (lines.foldl (processLine parse) st).chatId =
      (lines.filterMap (lineChatId parse)).foldl
        (fun c r => if truthyStr c then c else some r) st.chatId := by
  induction lines generalizing st with
  | nil => rfl
  | cons line rest ih =>
    rw [List.foldl_cons, ih, processLine_chatId]
    cases hl : lineChatId parse line with
    | none => simp [List.filterMap_cons, hl]
    | some r => simp [List.filterMap_cons, hl]

theorem foldl_longest (parse : JsVal → Option JsVal) (lines : List JsString) (st : ParseState)
    (hs : ∀ line ∈ lines, lineIdSafe parse line = true) :
    (lines.foldl (processLine parse) st).longestResponse =
      (lines.filterMap (lineText parse)).foldl pick st.longestResponse := by
  induction lines generalizing st with
  | nil => rfl
  | cons line rest ih =>
    have h1 := hs line (List.mem_cons_self _ _)
    have h2 : ∀ l ∈ rest, lineIdSafe parse l = true :=
      fun l hl => hs l (List.mem_cons_of_mem _ hl)
    rw [List.foldl_cons, ih _ h2, processLine_longest _ _ _ h1]
    cases hl : lineText parse line with
    | none => simp [List.filterMap_cons, hl]
    | some r => simp [List.filterMap_cons, hl]

theorem foldl_truthy (cands : List JsString) (a : Nat) (r : JsString) :
    cands.foldl (fun c r => if truthyStr c then c else some r) (some (a :: r))
      = some (a :: r) := by
  induction cands with
  | nil => rfl
  | cons x xs ih => simpa [truthyStr] using ih

theorem foldl_empty_id (cands : List JsString) :
    cands.foldl (fun c r => if truthyStr c then c else some r) (some [])
      = match cands.find? (fun r => decide (r ≠ [])) with
        | some r => some r
        | none => some [] := by
  induction cands with
  | nil => rfl
  | cons x xs ih =>
    cases x with
    | nil => simpa [truthyStr] using ih
    | cons a r => simpa [truthyStr] using foldl_truthy xs a r

theorem foldl_no_id (cands : List JsString) :
    cands.foldl (fun c r => if truthyStr c then c else some r) none
      = match cands.find? (fun r => decide (r ≠ [])) with
        | some r => some r
        | none => if cands = [] then none else some [] := by
  cases cands with
  | nil => rfl
  | cons x xs =>
    cases x with
    | nil => simpa [truthyStr] using foldl_empty_id xs
    | cons a r => simpa [truthyStr] using foldl_truthy xs a r

theorem processLine_no_marker (parse : JsVal → Option JsVal) (st : ParseState)
    (line : JsString) (h : startsWith line marker = false) : processLine parse st line = st := by
  simp [processLine, innerDataOf, h]

theorem foldl_no_marker (parse : JsVal → Option JsVal) (lines : List JsString) (st : ParseState)
    (h : ∀ line ∈ lines, startsWith line marker = false) :
    lines.foldl (processLine parse) st = st := by
  induction lines with
  | nil => rfl
  | cons line rest ih =>
    rw [List.foldl_cons, processLine_no_marker _ _ _ (h line (List.mem_cons_self _ _))]
    exact ih fun l hl => h l (List.mem_cons_of_mem _ hl)

/-- C8: for a body none of whose lines starts with `[["wrb.fr"`,
`parseStreamResponse` returns `{ chatId: null, responseText: null }`; being a
total function of the body, it returns it without throwing, whatever
`JSON.parse` would do. -/
theorem no_marker_gives_nulls (parse : JsVal → Option JsVal) (body : JsString)
    (h : ∀ line ∈ splitLines body, startsWith line marker = false) :
    parseStreamResponse parse body = ⟨none, none⟩ := by
  unfold parseStreamResponse parseLines
  rw [foldl_no_marker parse _ _ h]
  rfl

/-- C8 at the empty body and at a body of three lines without the marker. -/
theorem no_marker_gives_nulls_witness :
    parseStreamResponse jsonParse [] = ⟨none, none⟩ ∧
    parseStreamResponse jsonParse (lit "25\n\n[[\"di\",59]]") = ⟨none, none⟩ :=
  ⟨no_marker_gives_nulls jsonParse [] (by decide),
   no_marker_gives_nulls jsonParse (lit "25\n\n[[\"di\",59]]") (by decide)⟩

/-- C7 (as stated, refuted): the first relevant line carries the bare id `c_`,
which starts with `c_`; the claim makes the id the empty rest of that line, but
the loop still takes the id of the second line, `abc`. -/
theorem bare_marker_is_overridden :
    lineChatId jsonParse (exampleLine "c_" "one") = some [] ∧
    (parseStreamResponse jsonParse
      (bodyOf [exampleLine "c_" "one", exampleLine "c_abc" "two"])).chatId = some (lit "abc") := by
  decide

/-- C7 (amended): the id `parseStreamResponse` returns is the first, in line
order, of the ids the relevant lines offer (the string at `inner[1][0]` that
starts with `c_`, without these two code units) that is not empty; later lines
do not change it. When no line offers a non-empty id the result is `null`, or
the empty string if some line offered the bare `c_`. -/
theorem chatId_first_match (parse : JsVal → Option JsVal) (body : JsString) :
    (parseStreamResponse parse body).chatId =
      match (idCandidates parse body).find? (fun r => decide (r ≠ [])) with
      | some r => some r
      | none => if idCandidates parse body = [] then none else some [] := by
  unfold parseStreamResponse parseLines finish idCandidates
  simp only
  rw [foldl_chatId, foldl_no_id]

theorem pick_of_lt {l s : JsString} (h : l.length < s.length) : pick l s = s := by
  unfold pick
  rw [if_pos h]

theorem pick_of_not_lt {l s : JsString} (h : ¬ l.length < s.length) : pick l s = l := by
  unfold pick
  rw [if_neg h]

theorem pick_length_lt (n : Nat) (l s : JsString) (hl : l.length < n) (hs : s.length < n) :
    (pick l s).length < n := by
  unfold pick
  split <;> assumption

theorem foldl_pick_lt (n : Nat) (pre : List JsString) (l : JsString)
    (hpre : ∀ u ∈ pre, u.length < n) (hl : l.length < n) : (pre.foldl pick l).length < n := by
  induction pre generalizing l with
  | nil => exact hl
  | cons x xs ih =>
    rw [List.foldl_cons]
    exact ih _ (fun u hu => hpre u (List.mem_cons_of_mem _ hu))
      (pick_length_lt n l x hl (hpre x (List.mem_cons_self _ _)))

theorem foldl_pick_stays (post : List JsString) (t : JsString)
    (hpost : ∀ u ∈ post, u.length ≤ t.length) : post.foldl pick t = t := by
  induction post with
  | nil => rfl
  | cons x xs ih =>
    have hx := hpost x (List.mem_cons_self _ _)
    rw [List.foldl_cons, pick_of_not_lt (by omega)]
    exact ih fun u hu => hpost u (List.mem_cons_of_mem _ hu)

theorem foldl_pick_first_max (pre post : List JsString) (t : JsString) (ht : t ≠ [])
    (hpre : ∀ u ∈ pre, u.length < t.length) (hpost : ∀ u ∈ post, u.length ≤ t.length) :
    (pre ++ t :: post).foldl pick [] = t := by
  have hpos : 0 < t.length := List.length_pos.mpr ht
  have h1 := foldl_pick_lt t.length pre [] hpre hpos
  rw [List.foldl_append, List.foldl_cons]
  rw [pick_of_lt h1]
  exact foldl_pick_stays post t hpost

theorem exists_first_max (l : List JsString) (h : l ≠ []) :
    ∃ pre t post, l = pre ++ t :: post ∧ (∀ u ∈ pre, u.length < t.length) ∧
      (∀ u ∈ post, u.length ≤ t.length) := by
  induction l with
  | nil => exact absurd rfl h
  | cons a rest ih =>
    by_cases hr : rest = []
    · subst hr
      exact ⟨[], a, [], rfl, by simp, by simp⟩
    · obtain ⟨pre, t, post, heq, hpre, hpost⟩ := ih hr
      by_cases hlt : a.length < t.length
      · refine ⟨a :: pre, t, post, by rw [heq]; rfl, ?_, hpost⟩
        intro u hu
        rcases List.mem_cons.mp hu with rfl | hu
        · exact hlt
        · exact hpre u hu
      · refine ⟨[], a, rest, rfl, by simp, ?_⟩
        intro u hu
        rw [heq] at hu
        rcases List.mem_append.mp hu with hu | hu
        · have := hpre u hu; omega
        · rcases List.mem_cons.mp hu with rfl | hu
          · omega
          · have := hpost u hu; omega

theorem lineText_nonblank (parse : JsVal → Option JsVal) (line s : JsString)
    (h : lineText parse line = some s) : trim s ≠ [] := by
  unfold lineText at h
  cases hd : innerDataOf parse line with
  | none => rw [hd] at h; exact absurd h (by simp)
  | some d =>
    rw [hd, Option.some_bind] at h
    unfold textCandidate at h
    split at h
    · rename_i s1 _
      by_cases ht : trim s1 = []
      · rw [if_neg (not_not.mpr ht)] at h; exact absurd h (by simp)
      · rw [if_pos ht] at h
        have : s1 = s := Option.some.inj h
        rw [← this]; exact ht
    · exact absurd h (by simp)

theorem textCandidates_nonblank (parse : JsVal → Option JsVal) (body s : JsString)
    (h : s ∈ textCandidates parse body) : trim s ≠ [] := by
  unfold textCandidates at h
  obtain ⟨line, _, hl⟩ := List.mem_filterMap.mp h
  exact lineText_nonblank parse line s hl

theorem trim_ne_nil {s : JsString} (h : trim s ≠ []) : s ≠ [] := by
  intro hs
  subst hs
  exact h rfl

theorem responseText_eq (parse : JsVal → Option JsVal) (body : JsString)
    (hs : ∀ line ∈ splitLines body, lineIdSafe parse line = true) :
    (parseStreamResponse parse body).responseText =
      if trim ((textCandidates parse body).foldl pick []) ≠ []
      then some (trim ((textCandidates parse body).foldl pick [])) else none := by
  unfold parseStreamResponse parseLines finish textCandidates
  simp only
  rw [foldl_longest parse _ _ hs]

theorem responseText_first_max (parse : JsVal → Option JsVal) (body : JsString)
    (hs : ∀ line ∈ splitLines body, lineIdSafe parse line = true)
    (pre post : List JsString) (t : JsString)
    (heq : textCandidates parse body = pre ++ t :: post)
    (hpre : ∀ u ∈ pre, u.length < t.length) (hpost : ∀ u ∈ post, u.length ≤ t.length) :
    (parseStreamResponse parse body).responseText = some (trim t) := by
  have hmem : t ∈ textCandidates parse body := by rw [heq]; simp
  have hnb := textCandidates_nonblank parse body t hmem
  rw [responseText_eq parse body hs, heq,
    foldl_pick_first_max pre post t (trim_ne_nil hnb) hpre hpost, if_pos hnb]

/-- C6 (as stated, refuted): two relevant lines carry the candidates `ab` and
`cd` of equal length; with the lines in this order the parser returns `ab`,
with the lines swapped it returns `cd`: the result depends on the order. So
does it for a line whose `inner[1][0]` is the number 5: met before any id was
found, the line throws on `foundChatId.startsWith` and its text `long text` is
lost (the result is `hi`); met after, its text is the longest. -/
theorem response_text_depends_on_order :
    (splitLines (bodyOf [exampleLine "c_abc" "ab", exampleLine "c_abc" "cd"])).Perm
      (splitLines (bodyOf [exampleLine "c_abc" "cd", exampleLine "c_abc" "ab"])) ∧
    (parseStreamResponse jsonParse
      (bodyOf [exampleLine "c_abc" "ab", exampleLine "c_abc" "cd"])).responseText
        = some (lit "ab") ∧
    (parseStreamResponse jsonParse
      (bodyOf [exampleLine "c_abc" "cd", exampleLine "c_abc" "ab"])).responseText
        = some (lit "cd") ∧
    lineText jsonParse numericIdLine = some (lit "long text") ∧
    (parseStreamResponse jsonParse
      (bodyOf [numericIdLine, exampleLine "c_abc" "hi"])).responseText = some (lit "hi") ∧
    (parseStreamResponse jsonParse
      (bodyOf [exampleLine "c_abc" "hi", numericIdLine])).responseText
        = some (lit "long text") := by
  decide

theorem first_max_is_max {l pre post : List JsString} {t : JsString}
    (heq : l = pre ++ t :: post) (hpre : ∀ u ∈ pre, u.length < t.length)
    (hpost : ∀ u ∈ post, u.length ≤ t.length) : ∀ u ∈ l, u.length ≤ t.length := by
  intro u hu
  rw [heq] at hu
  rcases List.mem_append.mp hu with hu | hu
  · exact Nat.le_of_lt (hpre u hu)
  · rcases List.mem_cons.mp hu with rfl | hu
    · exact Nat.le_refl _
    · exact hpost u hu

/-- C6 (amended): when no line carries a truthy non-string at `inner[1][0]`,
`parseStreamResponse` returns as `responseText` the trimmed form of the first
text candidate of greatest length (`null` when there is no candidate); a body
with the same lines in another order gives the same `responseText` provided
the candidates of greatest length are all equal; and the three lines with the
texts `Hel`, `Hello wor`, `Hello world` give `Hello world` in each of their six
orders. -/
theorem longest_candidate_wins (parse : JsVal → Option JsVal) (b1 b2 : JsString)
    (hsafe : ∀ line ∈ splitLines b1, lineIdSafe parse line = true)
    (hperm : (splitLines b1).Perm (splitLines b2))
    (huniq : ∀ s ∈ textCandidates parse b1, ∀ t ∈ textCandidates parse b1,
      (∀ u ∈ textCandidates parse b1, u.length ≤ s.length) →
      (∀ u ∈ textCandidates parse b1, u.length ≤ t.length) → s = t) :
    (textCandidates parse b1 = [] → (parseStreamResponse parse b1).responseText = none) ∧
    (∀ pre t post, textCandidates parse b1 = pre ++ t :: post →
      (∀ u ∈ pre, u.length < t.length) → (∀ u ∈ post, u.length ≤ t.length) →
      (parseStreamResponse parse b1).responseText = some (trim t)) ∧
    (parseStreamResponse parse b2).responseText = (parseStreamResponse parse b1).responseText ∧
    (∀ body ∈ sixOrders,
      (parseStreamResponse jsonParse body).responseText = some (lit "Hello world")) := by
  have hsafe2 : ∀ line ∈ splitLines b2, lineIdSafe parse line = true :=
    fun line hl => hsafe line (hperm.mem_iff.mpr hl)
  have hcands : (textCandidates parse b1).Perm (textCandidates parse b2) :=
    hperm.filterMap _
  have hnil : ∀ b, (∀ line ∈ splitLines b, lineIdSafe parse line = true) →
      textCandidates parse b = [] → (parseStreamResponse parse b).responseText = none := by
    intro b hs he
    rw [responseText_eq parse b hs, he]
    rfl
  refine ⟨hnil b1 hsafe, ?_, ?_, by decide⟩
  · intro pre t post heq hpre hpost
    exact responseText_first_max parse b1 hsafe pre post t heq hpre hpost
  · by_cases h1 : textCandidates parse b1 = []
    · have h2 : textCandidates parse b2 = [] := by
        rw [h1] at hcands
        exact hcands.symm.eq_nil
      rw [hnil b1 hsafe h1, hnil b2 hsafe2 h2]
    · have h2 : textCandidates parse b2 ≠ [] := by
        intro h2
        rw [h2] at hcands
        exact h1 hcands.eq_nil
      obtain ⟨pre1, t1, post1, heq1, hpre1, hpost1⟩ := exists_first_max _ h1
      obtain ⟨pre2, t2, post2, heq2, hpre2, hpost2⟩ := exists_first_max _ h2
      have hm1 := first_max_is_max heq1 hpre1 hpost1
      have hm2 := first_max_is_max heq2 hpre2 hpost2
      have ht1 : t1 ∈ textCandidates parse b1 := by rw [heq1]; simp
      have ht2 : t2 ∈ textCandidates parse b1 := hcands.mem_iff.mpr (by rw [heq2]; simp)
      have hm2' : ∀ u ∈ textCandidates parse b1, u.length ≤ t2.length :=
        fun u hu => hm2 u (hcands.mem_iff.mp hu)
      have ht : t1 = t2 := huniq t1 ht1 t2 ht2 hm1 hm2'
      rw [responseText_first_max parse b1 hsafe pre1 post1 t1 heq1 hpre1 hpost1,
        responseText_first_max parse b2 hsafe2 pre2 post2 t2 heq2 hpre2 hpost2, ht]

/-- The amended C6 at the lines with the texts `Hel`, `Hello wor`,
`Hello world` and the same lines in reverse order. -/
theorem longest_candidate_wins_witness :
    (parseStreamResponse jsonParse (bodyOf [exampleLine "c_abc" "Hello world",
        exampleLine "c_abc" "Hello wor", exampleLine "c_abc" "Hel"])).responseText
      = (parseStreamResponse jsonParse (bodyOf [exampleLine "c_abc" "Hel",
        exampleLine "c_abc" "Hello wor", exampleLine "c_abc" "Hello world"])).responseText :=
  (longest_candidate_wins jsonParse
    (bodyOf [exampleLine "c_abc" "Hel", exampleLine "c_abc" "Hello wor",
      exampleLine "c_abc" "Hello world"])
    (bodyOf [exampleLine "c_abc" "Hello world", exampleLine "c_abc" "Hello wor",
      exampleLine "c_abc" "Hel"])
    (by decide) (by decide) (by decide)).2.2.1

/-! ## A missing conversation id -/

theorem createNewChat_no_id (summaryText : JsString) (keep : List Message)
    (gem : Option JsString) (reply : Reply (Option ChatResult)) (h : noChatId reply = true) :
    ∃ e, createNewChat summaryText keep gem reply
      = ([.createChat (finalPrompt (chatContext summaryText keep)) gem], .error e) := by
  unfold createNewChat
  rcases reply with r | err
  · cases r with
    | none => exact ⟨_, rfl⟩
    | some r =>
      have hc : truthyStr r.chatId = false := by simpa [noChatId] using h
      simp only [hc]
      exact ⟨_, rfl⟩
  · exact ⟨_, rfl⟩

theorem summarizeRound_effects (gem : Option JsString) (toSummarize : List Message)
    (prompt : JsString) (env : Env) :
    ∀ e ∈ (summarizeRound gem toSummarize prompt env).1, e.isNavigate = false := by
  unfold summarizeRound
  rcases env.summaryReply with r | err
  · cases r with
    | none => simp [Effect.isNavigate]
    | some r =>
      rcases env.deleteReply with u | err
      · simp [Effect.isNavigate]
      · simp [Effect.isNavigate]
  · simp [Effect.isNavigate]

/-- C9: when the answer to the final `createChat` request carries no
conversation id, the fork fails explicitly and never navigates. A response
whose stream has no id makes `createChat` throw
`Could not extract chat ID from API`, which reaches the orchestrator as a
rejection; a rejection or a result without `chatId` makes `createNewChat`
throw (for a result without `chatId`:
`Failed to create the final chat. The API did not return a chat ID.`);
`handleForkConfirm` then ends with an alert and assigns no location. -/
theorem missing_id_fails_without_navigation (parse : JsVal → Option JsVal)
    (response : HttpResponse) (gem : Option JsString) (msgs : List Message) (p : Nat)
    (prompt summaryText : JsString) (keep : List Message) (env : Env)
    (hok : response.ok = true)
    (hid : truthyStr (parseStreamResponse parse response.body).chatId = false)
    (hfinal : noChatId env.finalReply = true) :
    createChat parse response = .error ⟨lit "Could not extract chat ID from API"⟩ ∧
    callInjectedApi (createChat parse response)
      = .rejected (lit "Could not extract chat ID from API") ∧
    noChatId (callInjectedApi (createChat parse response)) = true ∧
    (∃ e, (createNewChat summaryText keep gem env.finalReply).2 = .error e) ∧
    (∀ r, env.finalReply = .resolved r →
      (createNewChat summaryText keep gem env.finalReply).2
        = .error ⟨lit "Failed to create the final chat. The API did not return a chat ID."⟩) ∧
    (∀ e ∈ handleForkConfirm gem msgs p prompt env, e.isNavigate = false) ∧
    (∃ init text, handleForkConfirm gem msgs p prompt env = init ++ [.alert text]) := by
  have h1 : createChat parse response = .error ⟨lit "Could not extract chat ID from API"⟩ := by
    simp [createChat, hok, hid]
  refine ⟨h1, ?_, ?_, ?_, ?_, ?_, ?_⟩
  · rw [h1]; decide
  · rw [h1]; rfl
  · obtain ⟨e, he⟩ := createNewChat_no_id summaryText keep gem env.finalReply hfinal
    exact ⟨e, by rw [he]⟩
  · intro r hr
    rw [hr] at hfinal ⊢
    unfold createNewChat
    cases r with
    | none => rfl
    | some r =>
      have hc : truthyStr r.chatId = false := by simpa [noChatId] using hfinal
      simp only [hc]
      rfl
  · unfold handleForkConfirm
    simp only
    split
    · rename_i effects e hs
      intro x hx
      rcases List.mem_append.mp hx with hx | hx
      · split at hs
        · have := summarizeRound_effects gem (messagesToSummarize msgs p) prompt env
          rw [hs] at this
          exact this x hx
        · simp at hs
      · simp at hx; subst hx; rfl
    · rename_i effects summaryText1 hs
      obtain ⟨e, he⟩ := createNewChat_no_id summaryText1 (messagesToKeep msgs p) gem
        env.finalReply hfinal
      rw [he]
      simp only
      intro x hx
      rcases List.mem_append.mp hx with hx | hx
      · rcases List.mem_append.mp hx with hx | hx
        · split at hs
          · have := summarizeRound_effects gem (messagesToSummarize msgs p) prompt env
            rw [hs] at this
            exact this x hx
          · simp at hs
            rw [hs.1] at hx
            simp at hx
        · simp at hx; subst hx; rfl
      · simp at hx; subst hx; rfl
  · unfold handleForkConfirm
    simp only
    split
    · exact ⟨_, _, rfl⟩
    · rename_i effects summaryText1 hs
      obtain ⟨e, he⟩ := createNewChat_no_id summaryText1 (messagesToKeep msgs p) gem
        env.finalReply hfinal
      rw [he]
      exact ⟨_, _, rfl⟩

/-- C9 for a response whose only relevant line carries the id `x_1` (no `c_`),
with everything retained. -/
theorem missing_id_fails_without_navigation_witness :
    createChat jsonParse ⟨200, exampleLine "x_1" "Acknowledged"⟩
      = .error ⟨lit "Could not extract chat ID from API"⟩ ∧
    handleForkConfirm none [⟨lit "User", lit "hi"⟩] 100 (lit "P")
        ⟨.resolved none, .resolved (),
          callInjectedApi (createChat jsonParse ⟨200, exampleLine "x_1" "Acknowledged"⟩), []⟩
      = [.createChat (promptHead ++ lit "**User:**\nhi" ++ promptTail) none,
         .alert (lit ("Forking failed: Could not extract chat ID from API. " ++
           "See console for details."))] :=
  have h := missing_id_fails_without_navigation jsonParse
    ⟨200, exampleLine "x_1" "Acknowledged"⟩ none [⟨lit "User", lit "hi"⟩] 100 (lit "P") []
    [⟨lit "User", lit "hi"⟩]
    ⟨.resolved none, .resolved (),
      callInjectedApi (createChat jsonParse ⟨200, exampleLine "x_1" "Acknowledged"⟩), []⟩
    (by decide) (by decide) (by decide)
  ⟨h.1, by decide⟩

/-! ## The readiness gate -/

/-- C10 (as stated, refuted): with the signing token cached, the embedded token
missing and no token in the page globals, a message of type `FORKER_REQUEST`
that names no action is not answered at all: the listener returns at its first
guard. -/
theorem request_without_action_is_ignored :
    (isReady ⟨some (lit "tok"), none, none, none, none, none, none⟩).all = false ∧
    onMessage ⟨none, lit "TypeError"⟩ ⟨some (lit "tok"), none, none, none, none, none, none⟩
        (some ⟨lit "FORKER_REQUEST", [], .null, lit "forker-1"⟩)
      = (⟨some (lit "tok"), none, none, none, none, none, none⟩, .ignored) := by
  constructor
  · decide
  · rfl

/-- C10 (amended): for a cache in which a signing token is set (in
`requestCache.at` or in `requestCache.streamGenerate.at`) but no embedded token,
and a page whose globals provide none, `isReady().all` is false and every
`FORKER_REQUEST` that names an action is answered with the failure
`Gemini API client is not ready. Try refreshing. (Missing: SNlM0e Token)`,
which names the SNlM0e token and not the `at` token; the cache is unchanged and
neither `createChat` nor `deleteChat` is called. -/
theorem not_ready_names_embedded_token (page : Page) (cache : RequestCache)
    (msg : ForkerMessage)
    (hat : truthyStr cache.atToken = true ∨
      ∃ sg, cache.streamGenerate = some sg ∧ truthyStr sg.atToken = true)
    (hsn : ∀ sg, cache.streamGenerate = some sg → truthyStr sg.snlm0Token = false)
    (hpage : truthyStr page.SNlM0e = false)
    (htype : msg.type = lit "FORKER_REQUEST") (hact : msg.action ≠ []) :
    (isReady cache).atToken = true ∧
    (isReady cache).snlm0Token = false ∧
    (isReady cache).all = false ∧
    onMessage page cache (some msg)
      = (cache, .failed
          (lit "Gemini API client is not ready. Try refreshing. (Missing: SNlM0e Token)")) ∧
    lit "SNlM0e" <:+:
      lit "Gemini API client is not ready. Try refreshing. (Missing: SNlM0e Token)" ∧
    ¬ lit "'at'" <:+:
      lit "Gemini API client is not ready. Try refreshing. (Missing: SNlM0e Token)" := by
  have h1 : (isReady cache).atToken = true := by
    unfold isReady
    rcases hat with h | ⟨sg, hsg, h⟩
    · simp [h]
    · simp [hsg, h]
  have h2 : (isReady cache).snlm0Token = false := by
    unfold isReady
    cases hsg : cache.streamGenerate with
    | none => rfl
    | some sg => simpa using hsn sg hsg
  have h3 : (isReady cache).all = false := by
    have : (isReady cache).all = ((isReady cache).atToken && (isReady cache).snlm0Token) := rfl
    rw [this, h2, Bool.and_false]
  have hext : (extractTokenFromGlobals page cache).1 = cache := by
    simp [extractTokenFromGlobals, hpage]
  have herr : notReadyError (isReady cache)
      = lit "Gemini API client is not ready. Try refreshing. (Missing: SNlM0e Token)" := by
    unfold notReadyError
    rw [h1, h2]
    decide
  refine ⟨h1, h2, h3, ?_, by decide, by decide⟩
  unfold onMessage
  simp only [htype, hact, ne_eq, not_true_eq_false, or_self, if_false, hext, h3, Bool.not_false,
    if_true, herr]
  rfl

/-- The amended C10 for a `createChat` request arriving at a cache that holds
only the signing token. -/
theorem not_ready_names_embedded_token_witness :
    onMessage ⟨none, lit "TypeError"⟩ ⟨some (lit "tok"), none, none, none, none, none, none⟩
        (some ⟨lit "FORKER_REQUEST", lit "createChat", .str (lit "Hello"), lit "forker-1"⟩)
      = (⟨some (lit "tok"), none, none, none, none, none, none⟩, .failed
          (lit "Gemini API client is not ready. Try refreshing. (Missing: SNlM0e Token)")) :=
  (not_ready_names_embedded_token ⟨none, lit "TypeError"⟩
    ⟨some (lit "tok"), none, none, none, none, none, none⟩
    ⟨lit "FORKER_REQUEST", lit "createChat", .str (lit "Hello"), lit "forker-1"⟩
    (Or.inl (by decide)) (by intro sg h; exact absurd h (by simp)) (by decide) rfl
    (by decide)).2.2.2.1

/-! ## The gem id through the fork -/

theorem summarizeRound_gem (gem : Option JsString) (toSummarize : List Message)
    (prompt : JsString) (env : Env) :
    ∀ e ∈ (summarizeRound gem toSummarize prompt env).1,
      ∀ m g, e = Effect.createChat m g → g = gem := by
  unfold summarizeRound
  rcases env.summaryReply with r | err
  · cases r with
    | none => simp
    | some r =>
      rcases env.deleteReply with u | err
      · simp
      · simp
  · simp

theorem createNewChat_effects (summaryText : JsString) (keep : List Message)
    (gem : Option JsString) (reply : Reply (Option ChatResult)) :
    (createNewChat summaryText keep gem reply).1
      = [.createChat (finalPrompt (chatContext summaryText keep)) gem] := by
  unfold createNewChat
  rcases reply with r | err
  · cases r with
    | none => rfl
    | some r => by_cases hc : truthyStr r.chatId = true <;> simp [hc]
  · rfl

theorem createNewChat_ok (summaryText : JsString) (keep : List Message)
    (gem : Option JsString) (reply : Reply (Option ChatResult)) (newChatId : JsString)
    (h : (createNewChat summaryText keep gem reply).2 = .ok newChatId) :
    ∃ r, reply = .resolved (some r) ∧ r.chatId = some newChatId ∧ newChatId ≠ [] := by
  unfold createNewChat at h
  rcases reply with r | err
  · cases r with
    | none => simp at h
    | some r =>
      by_cases hc : truthyStr r.chatId = true
      · simp only [hc, if_true] at h
        refine ⟨r, rfl, ?_⟩
        rcases r with ⟨c, t⟩
        cases c with
        | none => simp [truthyStr] at hc
        | some c =>
          cases c with
          | nil => simp [truthyStr] at hc
          | cons a c =>
            have : a :: c = newChatId := by simpa using h
            rw [← this]
            simp
      · simp [hc] at h
  · simp at h

/-- The effects of a fork, split into the summarize round and the rest. -/
theorem handleForkConfirm_cases (gem : Option JsString) (msgs : List Message) (p : Nat)
    (prompt : JsString) (env : Env) :
    ∃ effects : List Effect,
      (∀ e ∈ effects, e.isNavigate = false ∧ ∀ m g, e = Effect.createChat m g → g = gem) ∧
      ((∃ text, handleForkConfirm gem msgs p prompt env = effects ++ [.alert text]) ∨
       (∃ summaryText text, handleForkConfirm gem msgs p prompt env
          = effects ++ [.createChat (finalPrompt
              (chatContext summaryText (messagesToKeep msgs p))) gem] ++ [.alert text]) ∨
       (∃ summaryText r newChatId, env.finalReply = .resolved (some r) ∧
          r.chatId = some newChatId ∧ newChatId ≠ [] ∧
          handleForkConfirm gem msgs p prompt env
            = effects ++ [.createChat (finalPrompt
                (chatContext summaryText (messagesToKeep msgs p))) gem]
              ++ [.sleep 1500, .navigate (targetUrl gem newChatId)])) := by
  have hsum : ∀ e ∈ (if 0 < (messagesToSummarize msgs p).length
        then summarizeRound gem (messagesToSummarize msgs p) prompt env
        else (([], .ok []) : List Effect × Except Thrown JsString)).1,
      e.isNavigate = false ∧ ∀ m g, e = Effect.createChat m g → g = gem := by
    intro e he
    split at he
    · exact ⟨summarizeRound_effects gem _ prompt env e he,
        summarizeRound_gem gem _ prompt env e he⟩
    · simp at he
  unfold handleForkConfirm
  simp only
  generalize (if 0 < (messagesToSummarize msgs p).length
        then summarizeRound gem (messagesToSummarize msgs p) prompt env
        else (([], .ok []) : List Effect × Except Thrown JsString)) = summary at hsum
  rcases summary with ⟨effects, res⟩
  refine ⟨effects, hsum, ?_⟩
  cases res with
  | error e => exact Or.inl ⟨_, rfl⟩
  | ok summaryText =>
    simp only
    have heff := createNewChat_effects summaryText (messagesToKeep msgs p) gem env.finalReply
    cases hres : (createNewChat summaryText (messagesToKeep msgs p) gem env.finalReply).2 with
    | error e =>
      right; left
      refine ⟨summaryText, alertText e, ?_⟩
      rcases hc : createNewChat summaryText (messagesToKeep msgs p) gem env.finalReply
        with ⟨eff2, res2⟩
      rw [hc] at heff hres
      simp only at heff hres
      subst heff
      subst hres
      rfl
    | ok newChatId =>
      right; right
      obtain ⟨r, hr, hid, hne⟩ := createNewChat_ok _ _ _ _ _ hres
      refine ⟨summaryText, r, newChatId, hr, hid, hne, ?_⟩
      rcases hc : createNewChat summaryText (messagesToKeep msgs p) gem env.finalReply
        with ⟨eff2, res2⟩
      rw [hc] at heff hres
      simp only at heff hres
      subst heff
      subst hres
      rfl

theorem navigate_mem (gem : Option JsString) (msgs : List Message) (p : Nat)
    (prompt : JsString) (env : Env) (href : JsString)
    (h : Effect.navigate href ∈ handleForkConfirm gem msgs p prompt env) :
    ∃ r newChatId, env.finalReply = .resolved (some r) ∧ r.chatId = some newChatId ∧
      href = targetUrl gem newChatId := by
  obtain ⟨effects, heff, hcase⟩ := handleForkConfirm_cases gem msgs p prompt env
  have hno : Effect.navigate href ∉ effects := by
    intro hin
    have := (heff _ hin).1
    simp [Effect.isNavigate] at this
  rcases hcase with ⟨text, heq⟩ | ⟨s, text, heq⟩ | ⟨s, r, newChatId, hr, hid, _, heq⟩
  · rw [heq] at h
    simp [hno] at h
  · rw [heq] at h
    simp [hno] at h
  · rw [heq] at h
    simp [hno] at h
    exact ⟨r, newChatId, hr, hid, h⟩

/-- C12: whenever `handleForkConfirm` navigates, the location is built from the
gem id and the chat id of the final answer alone:
`https://gemini.google.com/gem/<gemId>/<newChatId>` for a (non-empty) gem id
and `https://gemini.google.com/app/<newChatId>` without one; the transcript,
the percentage, the summary prompt and the answers of the summarize round do
not enter it. -/
theorem navigation_target (gem : Option JsString) (msgs : List Message) (p : Nat)
    (prompt : JsString) (env : Env) (href : JsString) :
    Effect.navigate href ∈ handleForkConfirm gem msgs p prompt env →
    ∃ r newChatId, env.finalReply = .resolved (some r) ∧ r.chatId = some newChatId ∧
      href = (match gem with
        | some (c :: g) => lit "https://gemini.google.com/gem/" ++ (c :: g) ++ lit "/" ++ newChatId
        | _ => lit "https://gemini.google.com/app/" ++ newChatId) := by
  intro h
  obtain ⟨r, newChatId, hr, hid, hh⟩ := navigate_mem gem msgs p prompt env href h
  refine ⟨r, newChatId, hr, hid, ?_⟩
  rw [hh]
  unfold targetUrl
  cases gem with
  | none => rfl
  | some g =>
    cases g with
    | nil => rfl
    | cons c g => rfl

/-- C12 for a fork inside the gem `ab12` and one outside any gem. -/
theorem navigation_target_witness :
    (∃ r newChatId,
      (Reply.resolved (some (⟨some (lit "n1"), none⟩ : ChatResult))) = .resolved (some r) ∧
      r.chatId = some newChatId ∧
      lit "https://gemini.google.com/gem/ab12/n1" = (match some (lit "ab12") with
        | some (c :: g) => lit "https://gemini.google.com/gem/" ++ (c :: g) ++ lit "/" ++ newChatId
        | _ => lit "https://gemini.google.com/app/" ++ newChatId)) ∧
    Effect.navigate (lit "https://gemini.google.com/app/n1") ∈
      handleForkConfirm none [⟨lit "User", lit "hi"⟩] 100 (lit "P")
        ⟨.resolved none, .resolved (), .resolved (some ⟨some (lit "n1"), none⟩), []⟩ :=
  ⟨navigation_target (some (lit "ab12")) [⟨lit "User", lit "hi"⟩] 100 (lit "P")
      ⟨.resolved none, .resolved (), .resolved (some ⟨some (lit "n1"), none⟩), []⟩
      (lit "https://gemini.google.com/gem/ab12/n1") (by decide),
   by decide⟩

theorem app_not_gem (newChatId : JsString) :
    startsWith (lit "https://gemini.google.com/app/" ++ newChatId)
      (lit "https://gemini.google.com/gem/") = false := by
  have h1 : lit "https://gemini.google.com/app/"
      = [104, 116, 116, 112, 115, 58, 47, 47, 103, 101, 109, 105, 110, 105, 46, 103, 111, 111,
        103, 108, 101, 46, 99, 111, 109, 47, 97, 112, 112, 47] := by decide
  have h2 : lit "https://gemini.google.com/gem/"
      = [104, 116, 116, 112, 115, 58, 47, 47, 103, 101, 109, 105, 110, 105, 46, 103, 111, 111,
        103, 108, 101, 46, 99, 111, 109, 47, 103, 101, 109, 47] := by decide
  rw [h1, h2]
  simp [startsWith, List.isPrefixOf]

/-- C11: when no gem id is detected, none appears in the flow. Every
`createChat` request of the orchestrator carries `gemId` `null`; the listener
hands `null` on to `createChat`; the payload `createChat` builds then has
`null` in slot 19 and no `source-path` parameter is appended to the URL; and a
navigation goes to `https://gemini.google.com/app/<chatId>`, which is not of
the `/gem/` form. -/
theorem no_gem_is_never_introduced (msgs : List Message) (p : Nat) (prompt : JsString)
    (env : Env) (page : Page) (host : Host) (cache : RequestCache) (uuid1 uuid2 : JsString) :
    (∀ e ∈ handleForkConfirm none msgs p prompt env,
      ∀ m g, e = Effect.createChat m g → g = none) ∧
    (∀ requestId m, ∀ msg ∈ requestMessage requestId (Effect.createChat m none),
      dispatch page msg = Handled.createChat (.str m) .null) ∧
    gemIdArg .null = none ∧
    (∀ m tok, optIndex (.arr (innerPayload m tok uuid1 uuid2 none)) 19 = .null) ∧
    (∀ m, ∀ r ∈ createChatRequest host cache uuid1 uuid2 m none,
      optIndex (.arr r.1.innerPayload) 19 = .null ∧ r.1.sourcePath = none) ∧
    (∀ href, Effect.navigate href ∈ handleForkConfirm none msgs p prompt env →
      (∃ newChatId, href = lit "https://gemini.google.com/app/" ++ newChatId) ∧
      startsWith href (lit "https://gemini.google.com/gem/") = false) := by
  refine ⟨?_, ?_, rfl, ?_, ?_, ?_⟩
  · obtain ⟨effects, heff, hcase⟩ := handleForkConfirm_cases none msgs p prompt env
    intro e he m g hm
    rcases hcase with ⟨text, heq⟩ | ⟨s, text, heq⟩ | ⟨s, r, newChatId, _, _, _, heq⟩
    all_goals
      rw [heq] at he
      simp only [List.mem_append, List.mem_singleton, List.mem_cons, List.not_mem_nil,
        or_false] at he
    · rcases he with he | he
      · exact (heff e he).2 m g hm
      · subst he; simp at hm
    · rcases he with (he | he) | he
      · exact (heff e he).2 m g hm
      · subst he; simp at hm; exact hm.2.symm
      · subst he; simp at hm
    · rcases he with (he | he) | he | he
      · exact (heff e he).2 m g hm
      · subst he; simp at hm; exact hm.2.symm
      · subst he; simp at hm
      · subst he; simp at hm
  · intro requestId m msg hmsg
    simp only [requestMessage, Option.mem_def, Option.some.injEq] at hmsg
    subst hmsg
    have h1 : (lit "message" == lit "message") = true := by decide
    have h2 : (lit "gemId" == lit "message") = false := by decide
    have h3 : (lit "gemId" == lit "gemId") = true := by decide
    simp [dispatch, getProp, lookupProp, List.find?, h1, h2, h3]
  · intro m tok
    simp [innerPayload, nulls, optIndex, getIndex, List.replicate, gemOrNull, truthyStr]
  · intro m r hr
    unfold createChatRequest at hr
    cases hsg : cache.streamGenerate with
    | none => simp [hsg] at hr
    | some sg =>
      simp only [hsg, Option.mem_def, Option.some.injEq] at hr
      subst hr
      refine ⟨?_, ?_⟩
      · simp [innerPayload, nulls, optIndex, getIndex, List.replicate, gemOrNull, truthyStr]
      · simp [truthyStr]
  · intro href h
    obtain ⟨r, newChatId, _, _, hh⟩ := navigate_mem none msgs p prompt env href h
    have : href = lit "https://gemini.google.com/app/" ++ newChatId := by rw [hh]; rfl
    exact ⟨⟨newChatId, this⟩, by rw [this]; exact app_not_gem newChatId⟩

/-! ## The payload of `createChat` -/

/-- C20: for a cache whose `streamGenerate` object exists, `createChat` builds
an inner payload of exactly 101 slots with the message at `[0][0]`, the SNlM0e
token at `[3]`, the two generated UUIDs at `[4]` and `[59]`, the array `[1]` at
`[6]` and the gem id at `[19]` (`null` when there is none), and the form field
`f.req` is `JSON.stringify([null, JSON.stringify(innerPayload)])`. -/
theorem payload_layout (host : Host) (cache : RequestCache) (sg : StreamGenerateCache)
    (uuid1 uuid2 m : JsString) (g : Option JsString)
    (hsg : cache.streamGenerate = some sg) :
    ∃ request cache1, createChatRequest host cache uuid1 uuid2 m g = some (request, cache1) ∧
      request.innerPayload.length = 101 ∧
      optIndex (optIndex (.arr request.innerPayload) 0) 0 = .str m ∧
      optIndex (.arr request.innerPayload) 3 = strOrUndefined sg.snlm0Token ∧
      (∀ token, sg.snlm0Token = some token →
        optIndex (.arr request.innerPayload) 3 = .str token) ∧
      optIndex (.arr request.innerPayload) 4 = .str uuid1 ∧
      optIndex (.arr request.innerPayload) 59 = .str uuid2 ∧
      optIndex (.arr request.innerPayload) 6 = .arr [.num (F64.ofNat 1)] ∧
      (∀ c rest, g = some (c :: rest) →
        optIndex (.arr request.innerPayload) 19 = .str (c :: rest)) ∧
      (g = none → optIndex (.arr request.innerPayload) 19 = .null) ∧
      request.fReq
        = host.stringify (.arr [.null, .str (host.stringify (.arr request.innerPayload))]) := by
  unfold createChatRequest
  rw [hsg]
  simp only
  refine ⟨_, _, rfl, ?_, ?_, ?_, ?_, ?_, ?_, ?_, ?_, ?_, rfl⟩
  · simp [innerPayload, nulls]
  · simp [innerPayload, nulls, optIndex, getIndex, List.replicate]
  · simp [innerPayload, nulls, optIndex, getIndex, List.replicate]
  · intro token ht
    simp [innerPayload, nulls, optIndex, getIndex, List.replicate, ht, strOrUndefined]
  · simp [innerPayload, nulls, optIndex, getIndex, List.replicate]
  · simp [innerPayload, nulls, optIndex, getIndex, List.replicate]
  · simp [innerPayload, nulls, optIndex, getIndex, List.replicate, num1]
  · intro c rest hg
    simp [innerPayload, nulls, optIndex, getIndex, List.replicate, gemOrNull, truthyStr, hg]
  · intro hg
    simp [innerPayload, nulls, optIndex, getIndex, List.replicate, gemOrNull, truthyStr, hg]

/-- C20 for the message `Hello` in the gem `ab12`, with a cached token. -/
theorem payload_layout_witness :
    ∃ request cache1,
      createChatRequest ⟨fun _ => lit "json", fun s => s⟩
        ⟨some (lit "tok"), none, none, none, some 7, none, some ⟨none, some (lit "SN")⟩⟩
        (lit "U1") (lit "U2") (lit "Hello") (some (lit "ab12")) = some (request, cache1) ∧
      request.innerPayload.length = 101 ∧
      optIndex (.arr request.innerPayload) 19 = .str (lit "ab12") :=
  have h := payload_layout ⟨fun _ => lit "json", fun s => s⟩
    ⟨some (lit "tok"), none, none, none, some 7, none, some ⟨none, some (lit "SN")⟩⟩
    ⟨none, some (lit "SN")⟩ (lit "U1") (lit "U2") (lit "Hello") (some (lit "ab12")) rfl
  match h with
  | ⟨request, cache1, h1, h2, _, _, _, _, _, _, h9, _⟩ =>
    ⟨request, cache1, h1, h2, h9 97 (lit "b12") (by decide)⟩

/-! ## The credential cache -/

/-- The six fields a `batchexecute` capture assigns. -/
theorem cacheRequestParams_frozen (params : JsString → JsString → Option JsString)
    (random : Nat) (cache : RequestCache) (url : JsString) (body : Option JsString)
    (h : truthyStr cache.atToken = true) :
    (cacheRequestParams params random cache url body).atToken = cache.atToken ∧
    (cacheRequestParams params random cache url body).f_sid = cache.f_sid ∧
    (cacheRequestParams params random cache url body).bl = cache.bl ∧
    (cacheRequestParams params random cache url body).rt = cache.rt ∧
    (cacheRequestParams params random cache url body)._reqid_base = cache._reqid_base ∧
    (cacheRequestParams params random cache url body).targetUrl = cache.targetUrl := by
  unfold cacheRequestParams
  cases body with
  | none => simp
  | some body =>
    simp only [h, not_true_eq_false, and_false, if_false, ite_self]
    split
    · split
      · simp
      · simp
    · simp

theorem foldl_frozen (params : JsString → JsString → Option JsString)
    (later : List (JsString × Option JsString × Nat)) (cache : RequestCache)
    (h : truthyStr cache.atToken = true) :
    (later.foldl (fun c call => cacheRequestParams params call.2.2 c call.1 call.2.1)
        cache).atToken = cache.atToken ∧
    (later.foldl (fun c call => cacheRequestParams params call.2.2 c call.1 call.2.1)
        cache).f_sid = cache.f_sid ∧
    (later.foldl (fun c call => cacheRequestParams params call.2.2 c call.1 call.2.1)
        cache).bl = cache.bl ∧
    (later.foldl (fun c call => cacheRequestParams params call.2.2 c call.1 call.2.1)
        cache).rt = cache.rt ∧
    (later.foldl (fun c call => cacheRequestParams params call.2.2 c call.1 call.2.1)
        cache)._reqid_base = cache._reqid_base ∧
    (later.foldl (fun c call => cacheRequestParams params call.2.2 c call.1 call.2.1)
        cache).targetUrl = cache.targetUrl := by
  induction later generalizing cache with
  | nil => exact ⟨rfl, rfl, rfl, rfl, rfl, rfl⟩
  | cons call rest ih =>
    obtain ⟨h1, h2, h3, h4, h5, h6⟩ :=
      cacheRequestParams_frozen params call.2.2 cache call.1 call.2.1 h
    have h' : truthyStr (cacheRequestParams params call.2.2 cache call.1 call.2.1).atToken
        = true := by rw [h1]; exact h
    obtain ⟨g1, g2, g3, g4, g5, g6⟩ := ih _ h'
    rw [List.foldl_cons]
    exact ⟨g1.trans h1, g2.trans h2, g3.trans h3, g4.trans h4, g5.trans h5, g6.trans h6⟩

/-- C13: a call of `cacheRequestParams` on a `batchexecute` request whose body
carries a signing token, made while none is cached, stores the token, `f.sid`,
`bl`, `rt`, the request-id seed and the target URL; after it, no sequence of
further calls of `cacheRequestParams`, whatever their urls and bodies, changes
any of these six fields. -/
theorem first_capture_wins (params : JsString → JsString → Option JsString)
    (cache0 : RequestCache) (url0 body0 : JsString) (random0 : Nat)
    (later : List (JsString × Option JsString × Nat))
    (hurl : lit "batchexecute" <:+: url0)
    (hat : truthyStr (params body0 (lit "at")) = true)
    (hnone : truthyStr cache0.atToken = false) :
    (cacheRequestParams params random0 cache0 url0 (some body0)).atToken
      = params body0 (lit "at") ∧
    (cacheRequestParams params random0 cache0 url0 (some body0)).f_sid
      = params body0 (lit "f.sid") ∧
    (cacheRequestParams params random0 cache0 url0 (some body0)).bl
      = params body0 (lit "bl") ∧
    (cacheRequestParams params random0 cache0 url0 (some body0)).rt
      = params body0 (lit "rt") ∧
    (cacheRequestParams params random0 cache0 url0 (some body0))._reqid_base
      = some (reqidSeed (params body0 (lit "_reqid")) random0) ∧
    (cacheRequestParams params random0 cache0 url0 (some body0)).targetUrl
      = some (beforeQuery url0) ∧
    (later.foldl (fun c call => cacheRequestParams params call.2.2 c call.1 call.2.1)
        (cacheRequestParams params random0 cache0 url0 (some body0))).atToken
      = params body0 (lit "at") ∧
    (later.foldl (fun c call => cacheRequestParams params call.2.2 c call.1 call.2.1)
        (cacheRequestParams params random0 cache0 url0 (some body0))).f_sid
      = params body0 (lit "f.sid") ∧
    (later.foldl (fun c call => cacheRequestParams params call.2.2 c call.1 call.2.1)
        (cacheRequestParams params random0 cache0 url0 (some body0))).bl
      = params body0 (lit "bl") ∧
    (later.foldl (fun c call => cacheRequestParams params call.2.2 c call.1 call.2.1)
        (cacheRequestParams params random0 cache0 url0 (some body0))).rt
      = params body0 (lit "rt") ∧
    (later.foldl (fun c call => cacheRequestParams params call.2.2 c call.1 call.2.1)
        (cacheRequestParams params random0 cache0 url0 (some body0)))._reqid_base
      = some (reqidSeed (params body0 (lit "_reqid")) random0) ∧
    (later.foldl (fun c call => cacheRequestParams params call.2.2 c call.1 call.2.1)
        (cacheRequestParams params random0 cache0 url0 (some body0))).targetUrl
      = some (beforeQuery url0) := by
  have hne : url0 ≠ [] := by
    intro h0
    rw [h0] at hurl
    have := List.IsInfix.length_le hurl
    have hl : (lit "batchexecute").length = 12 := by decide
    rw [hl] at this
    simp at this
  have hcap : ∃ c1, cacheRequestParams params random0 cache0 url0 (some body0) = c1 ∧
      c1.atToken = params body0 (lit "at") ∧ c1.f_sid = params body0 (lit "f.sid") ∧
      c1.bl = params body0 (lit "bl") ∧ c1.rt = params body0 (lit "rt") ∧
      c1._reqid_base = some (reqidSeed (params body0 (lit "_reqid")) random0) ∧
      c1.targetUrl = some (beforeQuery url0) := by
    refine ⟨_, rfl, ?_⟩
    unfold cacheRequestParams
    simp only [hne, ne_eq, not_false_eq_true, hurl, and_self, if_true, hat, hnone,
      Bool.false_eq_true]
    split
    · simp
    · simp
  obtain ⟨c1, hc1, h1, h2, h3, h4, h5, h6⟩ := hcap
  rw [hc1]
  have htr : truthyStr c1.atToken = true := by rw [h1]; exact hat
  obtain ⟨g1, g2, g3, g4, g5, g6⟩ := foldl_frozen params later c1 htr
  exact ⟨h1, h2, h3, h4, h5, h6, g1.trans h1, g2.trans h2, g3.trans h3, g4.trans h4,
    g5.trans h5, g6.trans h6⟩

/-- C13 for a first `batchexecute` request with token `T1`, followed by a second
one and a `StreamGenerate` request that both carry `T2`. -/
theorem first_capture_wins_witness :
    ((([(lit "/_/BardChatUi/data/batchexecute?rpcids=x", some (lit "at=T2&bl=b2"), 5),
        (lit "/_/BardChatUi/data/StreamGenerate", some (lit "at=T2&bl=b2"), 9)] :
          List (JsString × Option JsString × Nat)).foldl
        (fun c call => cacheRequestParams exampleParams call.2.2 c call.1 call.2.1)
        (cacheRequestParams exampleParams 3 emptyCache
          (lit "/_/BardChatUi/data/batchexecute?rpcids=a") (some (lit "at=T1&bl=b1")))).atToken
      = some (lit "T1")) ∧
    ((([(lit "/_/BardChatUi/data/batchexecute?rpcids=x", some (lit "at=T2&bl=b2"), 5),
        (lit "/_/BardChatUi/data/StreamGenerate", some (lit "at=T2&bl=b2"), 9)] :
          List (JsString × Option JsString × Nat)).foldl
        (fun c call => cacheRequestParams exampleParams call.2.2 c call.1 call.2.1)
        (cacheRequestParams exampleParams 3 emptyCache
          (lit "/_/BardChatUi/data/batchexecute?rpcids=a") (some (lit "at=T1&bl=b1")))).bl
      = some (lit "b1")) :=
  have h := first_capture_wins exampleParams emptyCache
    (lit "/_/BardChatUi/data/batchexecute?rpcids=a") (lit "at=T1&bl=b1") 3
    [(lit "/_/BardChatUi/data/batchexecute?rpcids=x", some (lit "at=T2&bl=b2"), 5),
      (lit "/_/BardChatUi/data/StreamGenerate", some (lit "at=T2&bl=b2"), 9)]
    (by decide) (by decide) (by decide)
  ⟨h.2.2.2.2.2.2.1, h.2.2.2.2.2.2.2.2.1⟩

/-! ## The request counter -/

/-- C14: at counter `c`, `sendApiRequest` sends the form field `_reqid` with the
value `c + 1` (`this.requestCache._reqid_base + 1`), not `c`, and leaves the
counter at `c + 1`; `createChat` at the same counter sends `c`
(`_reqid_base++`). -/
theorem sendApiRequest_sends_next (host : Host) (parse : JsVal → Option JsVal) (c : Int)
    (rpcId : JsString) (rpcPayload : JsVal) (xhr : XhrOutcome) (uuid1 uuid2 m : JsString)
    (g : Option JsString) :
    batchReqid (sendApiRequest host parse (cacheAt c) rpcId rpcPayload xhr) = some (c + 1) ∧
    (sendApiRequest host parse (cacheAt c) rpcId rpcPayload xhr).1._reqid_base = some (c + 1) ∧
    streamReqid (createChatRequest host (cacheAt c) uuid1 uuid2 m g) = some c := by
  refine ⟨?_, ?_, rfl⟩
  · cases xhr <;> rfl
  · cases xhr <;> rfl

/-- C15: in the fork sequence `createChat`, `deleteChat`, `createChat` started
at counter `c`, the first `createChat` sends `_reqid = c` and leaves the counter
at `c + 1`; `deleteChat` (through `sendApiRequest`) sends `c + 2` and leaves
the counter at `c + 2`; the final `createChat` sends `c + 2` again: two
consecutive calls share a request id. -/
theorem delete_then_create_share_reqid (host : Host) (parse : JsVal → Option JsVal) (c : Int)
    (chatId : JsString) (xhr : XhrOutcome) (uuid1 uuid2 m : JsString) (g : Option JsString) :
    streamReqid (createChatRequest host (cacheAt c) uuid1 uuid2 m g) = some c ∧
    (createChatRequest host (cacheAt c) uuid1 uuid2 m g).map (·.2) = some (cacheAt (c + 1)) ∧
    batchReqid (deleteChat host parse (cacheAt (c + 1)) chatId xhr) = some (c + 2) ∧
    (deleteChat host parse (cacheAt (c + 1)) chatId xhr).1 = cacheAt (c + 2) ∧
    streamReqid (createChatRequest host (cacheAt (c + 2)) uuid1 uuid2 m g) = some (c + 2) := by
  have h12 : c + 1 + 1 = c + 2 := by ring
  refine ⟨rfl, rfl, ?_, ?_, rfl⟩
  · cases xhr <;> simp [batchReqid, deleteChat, sendApiRequest, truthyStr, lit, cacheAt, h12]
  · cases xhr <;> simp [deleteChat, sendApiRequest, truthyStr, lit, cacheAt, h12]

/-! ## Responses of the batched-RPC call -/

theorem sendApiRequest_load (host : Host) (parse : JsVal → Option JsVal) (cache : RequestCache)
    (rpcId : JsString) (rpcPayload : JsVal) (status : Nat) (body : JsString)
    (hat : truthyStr cache.atToken = true) (hurl : truthyStr cache.targetUrl = true) :
    (sendApiRequest host parse cache rpcId rpcPayload (.load status body)).2.2
      = onload parse status body := by
  simp [sendApiRequest, hat, hurl]

/-- C16: when the request was sent (the cache holds a signing token and a
target URL) and the response has a status in 200..299, `sendApiRequest`
resolves with `JSON.parse` of the body without its first four code units; for
every other status it rejects with `API request failed: <status>`, whatever the
body. -/
theorem batch_response (host : Host) (parse : JsVal → Option JsVal) (cache : RequestCache)
    (rpcId : JsString) (rpcPayload : JsVal) (status : Nat) (body : JsString)
    (hat : truthyStr cache.atToken = true) (hurl : truthyStr cache.targetUrl = true) :
    (∀ value, 200 ≤ status → status ≤ 299 → parse (.str (body.drop 4)) = some value →
      (sendApiRequest host parse cache rpcId rpcPayload (.load status body)).2.2
        = .resolved value) ∧
    (status < 200 ∨ 299 < status →
      (sendApiRequest host parse cache rpcId rpcPayload (.load status body)).2.2
        = .rejected ⟨lit "API request failed: " ++ lit (toString status)⟩) := by
  rw [sendApiRequest_load host parse cache rpcId rpcPayload status body hat hurl]
  constructor
  · intro value h1 h2 hp
    have : 200 ≤ status ∧ status < 300 := ⟨h1, by omega⟩
    simp [onload, this, substring, hp]
  · intro h
    have : ¬ (200 ≤ status ∧ status < 300) := by omega
    simp [onload, this]

/-- C16 for the status 200 with the body `1234[true]` and for the status 500. -/
theorem batch_response_witness :
    (sendApiRequest ⟨fun _ => [], fun s => s⟩ jsonParse (cacheAt 7) DELETE_RPC_ID .null
        (.load 200 (lit "1234[true]"))).2.2 = .resolved (.arr [.bool true]) ∧
    (sendApiRequest ⟨fun _ => [], fun s => s⟩ jsonParse (cacheAt 7) DELETE_RPC_ID .null
        (.load 500 (lit "Internal error"))).2.2
      = .rejected ⟨lit "API request failed: 500"⟩ :=
  ⟨(batch_response ⟨fun _ => [], fun s => s⟩ jsonParse (cacheAt 7) DELETE_RPC_ID .null 200
      (lit "1234[true]") (by decide) (by decide)).1 _ (by decide) (by decide) (by rfl),
   (batch_response ⟨fun _ => [], fun s => s⟩ jsonParse (cacheAt 7) DELETE_RPC_ID .null 500
      (lit "Internal error") (by decide) (by decide)).2 (by decide)⟩

/-! ## Malformed JSON -/

theorem innerDataOf_malformed (parse : JsVal → Option JsVal) (bad : JsString)
    (hbad : parse (.str bad) = none ∨
      ∃ json first inner, parse (.str bad) = some json ∧ getIndex json 0 = some first ∧
        getIndex first 2 = some inner ∧ parse inner = none) :
    innerDataOf parse bad = none := by
  unfold innerDataOf
  rcases hbad with h | ⟨json, first, inner, h1, h2, h3, h4⟩
  · simp [h]
  · simp only [h1, h2, h3, h4]
    split <;> simp

theorem parseLines_skip (parse : JsVal → Option JsVal) (pre post : List JsString)
    (bad : JsString) (h : innerDataOf parse bad = none) :
    parseLines parse (pre ++ bad :: post) = parseLines parse (pre ++ post) := by
  unfold parseLines
  rw [List.foldl_append, List.foldl_append, List.foldl_cons]
  have : ∀ st, processLine parse st bad = st := by
    intro st
    simp [processLine, h]
  rw [this]

theorem createChat_ok (parse : JsVal → Option JsVal) (status : Nat) (body : JsString)
    (r : ChatResult) (hok : (⟨status, body⟩ : HttpResponse).ok = true)
    (h : parseStreamResponse parse body = r) (hc : truthyStr r.chatId = true) :
    createChat parse ⟨status, body⟩ = .ok r := by
  simp [createChat, hok, h, hc]

/-- C17 (as stated, refuted): a stream whose first relevant line has a cut-off
outer JSON, or a third element that is not JSON, is no failure for its caller:
`createChat` returns the result of the remaining line. And a 2xx batched-RPC
response whose body is malformed after its first four code units leaves the
promise of `sendApiRequest` pending: it is neither resolved nor rejected. -/
theorem malformed_json_is_not_propagated :
    (jsonParse (.str truncatedLine)).isNone = true ∧
    createChat jsonParse ⟨200, bodyOf [truncatedLine, exampleLine "c_abc" "Hi"]⟩
      = .ok ⟨some (lit "abc"), some (lit "Hi")⟩ ∧
    (innerDataOf jsonParse badInnerLine).isNone = true ∧
    createChat jsonParse ⟨200, bodyOf [badInnerLine, exampleLine "c_abc" "Hi"]⟩
      = .ok ⟨some (lit "abc"), some (lit "Hi")⟩ ∧
    (sendApiRequest ⟨fun _ => [], fun s => s⟩ jsonParse (cacheAt 7) DELETE_RPC_ID .null
        (.load 200 (lit "1234[oops"))).2.2.isPending = true := by
  refine ⟨by decide, ?_, by decide, ?_, by decide⟩
  · exact createChat_ok _ _ _ _ (by decide) (by decide) (by decide)
  · exact createChat_ok _ _ _ _ (by decide) (by decide) (by decide)

/-- C17 (amended): a line of a create-conversation stream whose outer or inner
JSON is malformed is skipped: for a 2xx response `createChat` answers exactly
as for the body without that line, and its only failure then is
`Could not extract chat ID from API`, raised when no line yields a chat id. -/
theorem malformed_line_is_skipped (parse : JsVal → Option JsVal) (pre post : List JsString)
    (bad body1 body2 : JsString) (status : Nat)
    (hbad : parse (.str bad) = none ∨
      ∃ json first inner, parse (.str bad) = some json ∧ getIndex json 0 = some first ∧
        getIndex first 2 = some inner ∧ parse inner = none)
    (h1 : splitLines body1 = pre ++ bad :: post) (h2 : splitLines body2 = pre ++ post)
    (hok : (⟨status, body1⟩ : HttpResponse).ok = true) :
    parseStreamResponse parse body1 = parseStreamResponse parse body2 ∧
    createChat parse ⟨status, body1⟩ = createChat parse ⟨status, body2⟩ ∧
    (createChat parse ⟨status, body1⟩ = .error ⟨lit "Could not extract chat ID from API"⟩ ∨
      createChat parse ⟨status, body1⟩ = .ok (parseStreamResponse parse body2)) := by
  have hp : parseStreamResponse parse body1 = parseStreamResponse parse body2 := by
    unfold parseStreamResponse
    rw [h1, h2, parseLines_skip parse pre post bad (innerDataOf_malformed parse bad hbad)]
  have hok2 : (⟨status, body2⟩ : HttpResponse).ok = true := hok
  refine ⟨hp, ?_, ?_⟩
  · simp [createChat, hok, hok2, hp]
  · by_cases hc : truthyStr (parseStreamResponse parse body2).chatId = true
    · right; simp [createChat, hok, hp, hc]
    · left; simp [createChat, hok, hp, hc]

/-- The amended C17 for a cut-off line in front of a well-formed one. -/
theorem malformed_line_is_skipped_witness :
    createChat jsonParse ⟨200, bodyOf [truncatedLine, exampleLine "c_abc" "Hi"]⟩
      = createChat jsonParse ⟨200, bodyOf [exampleLine "c_abc" "Hi"]⟩ :=
  (malformed_line_is_skipped jsonParse [] [exampleLine "c_abc" "Hi"] truncatedLine
    (bodyOf [truncatedLine, exampleLine "c_abc" "Hi"]) (bodyOf [exampleLine "c_abc" "Hi"]) 200
    (Or.inl (Option.isNone_iff_eq_none.mp (by decide))) (by decide) (by decide)
    (by decide)).2.1

/-! ## The transcript extractor -/

theorem pushMessage_eq (messages : List Message) (node : MessageNode) :
    pushMessage messages node = messages ++ (messageOf node).toList := by
  have hu : truthyStr (some (lit "user")) = true := by decide
  have hm : truthyStr (some (lit "model")) = true := by decide
  have hne : (some (lit "model") : Option JsString) ≠ some (lit "user") := by decide
  have hlit : lit "MODEL-RESPONSE" ≠ lit "USER-QUERY" := by decide
  unfold pushMessage messageOf
  by_cases h1 : node.tagName = lit "USER-QUERY"
  · simp only [h1, if_true, hu, true_and]
    cases node.queryText with
    | none => simp
    | some t => by_cases ht : t = [] <;> simp [ht]
  · by_cases h2 : node.tagName = lit "MODEL-RESPONSE"
    · simp only [h2, hlit, if_true, if_false, hm, true_and, hne]
      cases node.markdown with
      | none => simp
      | some md => by_cases ht : trim md = [] <;> simp [ht]
    · simp [h1, h2, truthyStr]

theorem foldl_pushMessage (nodes : List MessageNode) (messages : List Message) :
    nodes.foldl pushMessage messages = messages ++ nodes.filterMap messageOf := by
  induction nodes generalizing messages with
  | nil => simp
  | cons node rest ih =>
    rw [List.foldl_cons, ih, pushMessage_eq]
    cases h : messageOf node <;> simp [List.filterMap_cons, h]

theorem indexOfNode_append (pre post : List MessageNode) (a : MessageNode)
    (h : ∀ n ∈ pre, n.id ≠ a.id) : indexOfNode (pre ++ a :: post) a.id = some pre.length := by
  induction pre with
  | nil => simp [indexOfNode]
  | cons n rest ih =>
    have hn : n.id ≠ a.id := h n (List.mem_cons_self _ _)
    have ih' := ih fun m hm => h m (List.mem_cons_of_mem _ hm)
    simp [indexOfNode, hn, ih']

/-- C18: `extractGemini` with an anchor whose enclosing `model-response` is the
node `a` returns, in document order, one message for each node up to and
including `a` whose extracted text is non-empty, `User` for a `user-query` and
`Assistant` for a `model-response`; the nodes after `a` contribute nothing and
a node without text is left out. Without an anchor the same holds for all
nodes. -/
theorem extractGemini_spec (pre post : List MessageNode) (a : MessageNode)
    (h : ∀ n ∈ pre, n.id ≠ a.id) :
    extractGemini (pre ++ a :: post) (some a.id) = (pre ++ [a]).filterMap messageOf ∧
    extractGemini (pre ++ a :: post) none = (pre ++ a :: post).filterMap messageOf := by
  constructor
  · unfold extractGemini
    simp only [indexOfNode_append pre post a h]
    have hs : slice (pre ++ a :: post) 0 ((pre.length : Int) + 1) = pre ++ [a] := by
      have hrel : relIndex (pre ++ a :: post).length ((pre.length : Int) + 1)
          = pre.length + 1 := by
        have hneg : ¬ ((pre.length : Int) + 1 < 0) := by omega
        simp only [relIndex, hneg, if_false, List.length_append, List.length_cons]
        omega
      unfold slice
      rw [hrel, relIndex_zero, List.drop_zero]
      have : pre ++ a :: post = (pre ++ [a]) ++ post := by simp
      rw [this, List.take_left' (by simp)]
    rw [hs, foldl_pushMessage]
    simp
  · unfold extractGemini
    simp only
    rw [foldl_pushMessage]
    simp

/-- C18 for a conversation of four nodes, anchored at the second
`model-response`: the blank `model-response` before it is left out and
the node after the anchor contributes nothing. -/
theorem extractGemini_spec_witness :
    extractGemini
      [⟨1, lit "USER-QUERY", some (lit "hi"), none⟩,
       ⟨2, lit "MODEL-RESPONSE", none, some (lit "  ")⟩,
       ⟨3, lit "MODEL-RESPONSE", none, some (lit " hello\n")⟩,
       ⟨4, lit "USER-QUERY", some (lit "later"), none⟩] (some 3)
      = [⟨lit "User", lit "hi"⟩, ⟨lit "Assistant", lit "hello"⟩] :=
  (extractGemini_spec
    [⟨1, lit "USER-QUERY", some (lit "hi"), none⟩,
     ⟨2, lit "MODEL-RESPONSE", none, some (lit "  ")⟩]
    [⟨4, lit "USER-QUERY", some (lit "later"), none⟩]
    ⟨3, lit "MODEL-RESPONSE", none, some (lit " hello\n")⟩ (by decide)).1.trans (by decide)

/-! ## Rounding is monotone -/

theorem roundHalfEven_spec (a b : Nat) (hb : 0 < b) :
    2 * (roundHalfEven a b * b) ≤ 2 * a + b ∧
    2 * a ≤ 2 * (roundHalfEven a b * b) + b ∧
    (2 * (roundHalfEven a b * b) = 2 * a + b → roundHalfEven a b % 2 = 0) ∧
    (2 * a = 2 * (roundHalfEven a b * b) + b → roundHalfEven a b % 2 = 0) := by
  have hq : b * (a / b) + a % b = a := Nat.div_add_mod a b
  have hr : a % b < b := Nat.mod_lt a hb
  have hc : a / b * b = b * (a / b) := Nat.mul_comm _ _
  have hc1 : (a / b + 1) * b = b * (a / b) + b := by rw [Nat.add_mul, hc, Nat.one_mul]
  unfold roundHalfEven
  simp only
  by_cases h1 : 2 * (a % b) < b
  · rw [if_pos h1, hc]
    refine ⟨by omega, by omega, by omega, by omega⟩
  · rw [if_neg h1]
    by_cases h2 : b < 2 * (a % b)
    · rw [if_pos h2, hc1]
      refine ⟨by omega, by omega, by omega, by omega⟩
    · rw [if_neg h2]
      by_cases h3 : a / b % 2 = 0
      · rw [if_pos h3, hc]
        refine ⟨by omega, by omega, by omega, fun _ => h3⟩
      · rw [if_neg h3, hc1]
        refine ⟨by omega, by omega, fun _ => by omega, by omega⟩

theorem roundHalfEven_spec_rat (a b : Nat) (hb : 0 < b) :
    (roundHalfEven a b : ℚ) - 1 / 2 ≤ (a : ℚ) / b ∧
    (a : ℚ) / b ≤ (roundHalfEven a b : ℚ) + 1 / 2 ∧
    ((a : ℚ) / b = (roundHalfEven a b : ℚ) - 1 / 2 → roundHalfEven a b % 2 = 0) ∧
    ((a : ℚ) / b = (roundHalfEven a b : ℚ) + 1 / 2 → roundHalfEven a b % 2 = 0) := by
  obtain ⟨h1, h2, h3, h4⟩ := roundHalfEven_spec a b hb
  have hbq : (0 : ℚ) < b := by exact_mod_cast hb
  have e1 : ((2 * (roundHalfEven a b * b) : ℕ) : ℚ) = 2 * ((roundHalfEven a b : ℚ) * b) := by
    push_cast; ring
  have e2 : ((2 * a + b : ℕ) : ℚ) = 2 * (a : ℚ) + b := by push_cast; ring
  have e3 : ((2 * (roundHalfEven a b * b) + b : ℕ) : ℚ)
      = 2 * ((roundHalfEven a b : ℚ) * b) + b := by push_cast; ring
  have e4 : ((2 * a : ℕ) : ℚ) = 2 * (a : ℚ) := by push_cast; ring
  have q1 : 2 * ((roundHalfEven a b : ℚ) * b) ≤ 2 * (a : ℚ) + b := by
    rw [← e1, ← e2]; exact_mod_cast h1
  have q2 : 2 * (a : ℚ) ≤ 2 * ((roundHalfEven a b : ℚ) * b) + b := by
    rw [← e4, ← e3]; exact_mod_cast h2
  refine ⟨?_, ?_, ?_, ?_⟩
  · rw [le_div_iff₀ hbq]; linarith
  · rw [div_le_iff₀ hbq]; linarith
  · intro h
    apply h3
    have : (a : ℚ) = ((roundHalfEven a b : ℚ) - 1 / 2) * b := by
      rw [← h]; field_simp
    have : 2 * ((roundHalfEven a b : ℚ) * b) = 2 * (a : ℚ) + b := by rw [this]; ring
    rw [← e1, ← e2] at this
    exact_mod_cast this
  · intro h
    apply h4
    have : (a : ℚ) = ((roundHalfEven a b : ℚ) + 1 / 2) * b := by
      rw [← h]; field_simp
    have : 2 * (a : ℚ) = 2 * ((roundHalfEven a b : ℚ) * b) + b := by rw [this]; ring
    rw [← e4, ← e3] at this
    exact_mod_cast this

theorem roundHalfEven_mono (a b a1 b1 : Nat) (hb : 0 < b) (hb1 : 0 < b1)
    (h : (a : ℚ) / b ≤ (a1 : ℚ) / b1) : roundHalfEven a b ≤ roundHalfEven a1 b1 := by
  obtain ⟨l, _, tl, _⟩ := roundHalfEven_spec_rat a b hb
  obtain ⟨_, u1, _, tu1⟩ := roundHalfEven_spec_rat a1 b1 hb1
  by_contra hc
  have hlt : roundHalfEven a1 b1 + 1 ≤ roundHalfEven a b := by omega
  have hq : (roundHalfEven a1 b1 : ℚ) + 1 ≤ (roundHalfEven a b : ℚ) := by exact_mod_cast hlt
  have hx : (a : ℚ) / b = (roundHalfEven a b : ℚ) - 1 / 2 := by linarith
  have hx1 : (a1 : ℚ) / b1 = (roundHalfEven a1 b1 : ℚ) + 1 / 2 := by linarith
  have hr : (roundHalfEven a b : ℚ) = (roundHalfEven a1 b1 : ℚ) + 1 := by linarith
  have hr' : roundHalfEven a b = roundHalfEven a1 b1 + 1 := by exact_mod_cast hr
  have p := tl hx
  have p1 := tu1 hx1
  omega

theorem roundHalfEven_le (a b N : Nat) (hb : 0 < b) (h : (a : ℚ) / b ≤ N) :
    roundHalfEven a b ≤ N := by
  have := roundHalfEven_mono a b (N * 1) 1 hb (by norm_num) (by simpa using h)
  rwa [roundHalfEven_mul N 1 (by norm_num)] at this

theorem roundHalfEven_ge (a b N : Nat) (hb : 0 < b) (h : (N : ℚ) ≤ (a : ℚ) / b) :
    N ≤ roundHalfEven a b := by
  have := roundHalfEven_mono (N * 1) 1 a b (by norm_num) hb (by simpa using h)
  rwa [roundHalfEven_mul N 1 (by norm_num)] at this

theorem two_zpow_split (e : ℤ) :
    ((2 : ℚ) ^ e.toNat) / (2 : ℚ) ^ (-e).toNat = (2 : ℚ) ^ e := by
  rcases le_or_lt 0 e with h | h
  · have h1 : ((e.toNat : ℕ) : ℤ) = e := Int.toNat_of_nonneg h
    have h2 : (-e).toNat = 0 := by omega
    rw [h2, pow_zero, div_one, ← zpow_natCast, h1]
  · have h1 : (((-e).toNat : ℕ) : ℤ) = -e := Int.toNat_of_nonneg (by omega)
    have h2 : e.toNat = 0 := by omega
    rw [h2, pow_zero, one_div, ← zpow_natCast, h1, zpow_neg, inv_inv]

theorem scaled_ratio (a b : Nat) (e : ℤ) :
    ((a * 2 ^ (-e).toNat : ℕ) : ℚ) / ((b * 2 ^ e.toNat : ℕ) : ℚ) = (a : ℚ) / b / (2 : ℚ) ^ e := by
  rw [← two_zpow_split e]
  push_cast
  have h1 : (2 : ℚ) ^ e.toNat ≠ 0 := pow_ne_zero _ two_ne_zero
  have h2 : (2 : ℚ) ^ (-e).toNat ≠ 0 := pow_ne_zero _ two_ne_zero
  by_cases hb : (b : ℚ) = 0
  · simp [hb]
  · field_simp

theorem leadExp_spec (a b : Nat) (ha : 0 < a) (hb : 0 < b) :
    (2 : ℚ) ^ leadExp a b ≤ (a : ℚ) / b ∧ (a : ℚ) / b < (2 : ℚ) ^ (leadExp a b + 1) := by
  obtain ⟨a1, a2⟩ := ilog2_self_spec a ha
  obtain ⟨b1, b2⟩ := ilog2_self_spec b hb
  have hbq : (0 : ℚ) < b := by exact_mod_cast hb
  have qa1 : (2 : ℚ) ^ ilog2 a a ≤ a := by exact_mod_cast a1
  have qa2 : (a : ℚ) < 2 ^ (ilog2 a a + 1) := by exact_mod_cast a2
  have qb1 : (2 : ℚ) ^ ilog2 b b ≤ b := by exact_mod_cast b1
  have qb2 : (b : ℚ) < 2 ^ (ilog2 b b + 1) := by exact_mod_cast b2
  have hpa : (0 : ℚ) < 2 ^ ilog2 a a := by positivity
  have hpb : (0 : ℚ) < 2 ^ ilog2 b b := by positivity
  have hk : (2 : ℚ) ^ ((ilog2 a a : ℤ) - (ilog2 b b : ℤ)) = 2 ^ ilog2 a a / 2 ^ ilog2 b b := by
    rw [zpow_sub₀ two_ne_zero, zpow_natCast, zpow_natCast]
  have hlow : (2 : ℚ) ^ ((ilog2 a a : ℤ) - (ilog2 b b : ℤ) - 1) < (a : ℚ) / b := by
    rw [zpow_sub₀ two_ne_zero, hk, zpow_one, lt_div_iff₀ hbq]
    have : (2 : ℚ) ^ ilog2 a a / 2 ^ ilog2 b b / 2 * b < 2 ^ ilog2 a a := by
      rw [div_div, div_mul_eq_mul_div, div_lt_iff₀ (by positivity)]
      have : (b : ℚ) < 2 ^ ilog2 b b * 2 := by rw [← pow_succ]; exact qb2
      nlinarith
    linarith
  have hup : (a : ℚ) / b < (2 : ℚ) ^ ((ilog2 a a : ℤ) - (ilog2 b b : ℤ) + 1) := by
    rw [zpow_add₀ two_ne_zero, hk, zpow_one, div_lt_iff₀ hbq]
    have h2 : (a : ℚ) < 2 ^ ilog2 a a * 2 := by rw [← pow_succ]; exact qa2
    have : (2 : ℚ) ^ ilog2 a a * 2 ≤ 2 ^ ilog2 a a / 2 ^ ilog2 b b * 2 * b := by
      rw [div_mul_eq_mul_div, div_mul_eq_mul_div, le_div_iff₀ hpb]
      nlinarith
    linarith
  have htest : (b * 2 ^ ((ilog2 a a : ℤ) - (ilog2 b b : ℤ)).toNat
        ≤ a * 2 ^ (-((ilog2 a a : ℤ) - (ilog2 b b : ℤ))).toNat) ↔
      (2 : ℚ) ^ ((ilog2 a a : ℤ) - (ilog2 b b : ℤ)) ≤ (a : ℚ) / b := by
    rw [← two_zpow_split, div_le_div_iff₀ (by positivity) hbq]
    constructor
    · intro h
      have : ((b * 2 ^ ((ilog2 a a : ℤ) - (ilog2 b b : ℤ)).toNat : ℕ) : ℚ)
          ≤ ((a * 2 ^ (-((ilog2 a a : ℤ) - (ilog2 b b : ℤ))).toNat : ℕ) : ℚ) := by
        exact_mod_cast h
      push_cast at this
      linarith
    · intro h
      have : ((b * 2 ^ ((ilog2 a a : ℤ) - (ilog2 b b : ℤ)).toNat : ℕ) : ℚ)
          ≤ ((a * 2 ^ (-((ilog2 a a : ℤ) - (ilog2 b b : ℤ))).toNat : ℕ) : ℚ) := by
        push_cast
        linarith
      exact_mod_cast this
  unfold leadExp
  simp only
  by_cases ht : b * 2 ^ ((ilog2 a a : ℤ) - (ilog2 b b : ℤ)).toNat
      ≤ a * 2 ^ (-((ilog2 a a : ℤ) - (ilog2 b b : ℤ))).toNat
  · rw [if_pos ht]
    exact ⟨htest.mp ht, hup⟩
  · rw [if_neg ht]
    refine ⟨le_of_lt hlow, ?_⟩
    have : ¬ (2 : ℚ) ^ ((ilog2 a a : ℤ) - (ilog2 b b : ℤ)) ≤ (a : ℚ) / b :=
      fun h => ht (htest.mpr h)
    rw [sub_add_cancel]
    exact lt_of_not_le this

theorem roundPos_toRat (a b : Nat) :
    (roundPos a b).toRat
      = (roundHalfEven (a * 2 ^ (-(max (leadExp a b - 52) (-1074))).toNat)
          (b * 2 ^ (max (leadExp a b - 52) (-1074)).toNat) : ℚ)
        * (2 : ℚ) ^ (max (leadExp a b - 52) (-1074)) := by
  simp [roundPos, F64.toRat]

theorem leadExp_mono (a b a1 b1 : Nat) (ha : 0 < a) (hb : 0 < b) (ha1 : 0 < a1) (hb1 : 0 < b1)
    (h : (a : ℚ) / b ≤ (a1 : ℚ) / b1) : leadExp a b ≤ leadExp a1 b1 := by
  obtain ⟨l, _⟩ := leadExp_spec a b ha hb
  obtain ⟨_, u1⟩ := leadExp_spec a1 b1 ha1 hb1
  have : (2 : ℚ) ^ leadExp a b < (2 : ℚ) ^ (leadExp a1 b1 + 1) := by linarith
  have := (zpow_lt_zpow_iff_right₀ (by norm_num : (1 : ℚ) < 2)).mp this
  omega

theorem roundPos_mono (a b a1 b1 : Nat) (ha : 0 < a) (hb : 0 < b) (ha1 : 0 < a1)
    (hb1 : 0 < b1) (h : (a : ℚ) / b ≤ (a1 : ℚ) / b1) :
    (roundPos a b).toRat ≤ (roundPos a1 b1).toRat := by
  have hL := leadExp_mono a b a1 b1 ha hb ha1 hb1 h
  obtain ⟨_, u⟩ := leadExp_spec a b ha hb
  obtain ⟨l1, _⟩ := leadExp_spec a1 b1 ha1 hb1
  rw [roundPos_toRat, roundPos_toRat]
  generalize he : max (leadExp a b - 52) (-1074) = e
  generalize he1 : max (leadExp a1 b1 - 52) (-1074) = e1
  have hee : e ≤ e1 := by omega
  have hpos : ∀ z : ℤ, (0 : ℚ) < 2 ^ z := fun z => zpow_pos (by norm_num) z
  have hbe : 0 < b * 2 ^ e.toNat := Nat.mul_pos hb (Nat.two_pow_pos _)
  have hbe1 : 0 < b1 * 2 ^ e1.toNat := Nat.mul_pos hb1 (Nat.two_pow_pos _)
  rcases eq_or_lt_of_le hee with heq | hlt
  · subst heq
    have hm : roundHalfEven (a * 2 ^ (-e).toNat) (b * 2 ^ e.toNat)
        ≤ roundHalfEven (a1 * 2 ^ (-e).toNat) (b1 * 2 ^ e.toNat) := by
      apply roundHalfEven_mono _ _ _ _ hbe hbe1
      rw [scaled_ratio, scaled_ratio]
      exact div_le_div_of_nonneg_right h (le_of_lt (hpos e))
    have hmq : (roundHalfEven (a * 2 ^ (-e).toNat) (b * 2 ^ e.toNat) : ℚ)
        ≤ (roundHalfEven (a1 * 2 ^ (-e).toNat) (b1 * 2 ^ e.toNat) : ℚ) := by
      exact_mod_cast hm
    exact mul_le_mul_of_nonneg_right hmq (le_of_lt (hpos e))
  · have hm : roundHalfEven (a * 2 ^ (-e).toNat) (b * 2 ^ e.toNat) ≤ 2 ^ 53 := by
      apply roundHalfEven_le _ _ _ hbe
      rw [scaled_ratio, div_le_iff₀ (hpos e)]
      have h1 : (2 : ℚ) ^ (leadExp a b + 1) ≤ 2 ^ (e + 53) :=
        zpow_le_zpow_right₀ (by norm_num) (by omega)
      have h2 : (2 : ℚ) ^ (e + 53) = ((2 ^ 53 : ℕ) : ℚ) * 2 ^ e := by
        rw [zpow_add₀ two_ne_zero, mul_comm]
        norm_num
      exact le_of_lt (lt_of_lt_of_le u (h1.trans (le_of_eq h2)))
    have hm1 : 2 ^ 52 ≤ roundHalfEven (a1 * 2 ^ (-e1).toNat) (b1 * 2 ^ e1.toNat) := by
      apply roundHalfEven_ge _ _ _ hbe1
      rw [scaled_ratio, le_div_iff₀ (hpos e1)]
      have h1 : (2 : ℚ) ^ (e1 + 52) ≤ 2 ^ leadExp a1 b1 :=
        zpow_le_zpow_right₀ (by norm_num) (by omega)
      have h2 : (2 : ℚ) ^ (e1 + 52) = ((2 ^ 52 : ℕ) : ℚ) * 2 ^ e1 := by
        rw [zpow_add₀ two_ne_zero, mul_comm]
        norm_num
      exact (le_of_eq h2.symm).trans (h1.trans l1)
    have hmq : (roundHalfEven (a * 2 ^ (-e).toNat) (b * 2 ^ e.toNat) : ℚ) ≤ 2 ^ 53 := by
      exact_mod_cast hm
    have hmq1 : (2 : ℚ) ^ 52
        ≤ (roundHalfEven (a1 * 2 ^ (-e1).toNat) (b1 * 2 ^ e1.toNat) : ℚ) := by
      exact_mod_cast hm1
    have hstep : (2 : ℚ) ^ 53 * 2 ^ e ≤ 2 ^ 52 * 2 ^ e1 := by
      have h1 : (2 : ℚ) ^ (e + 53) ≤ 2 ^ (e1 + 52) :=
        zpow_le_zpow_right₀ (by norm_num) (by omega)
      have h2 : (2 : ℚ) ^ (e + 53) = 2 ^ 53 * 2 ^ e := by
        rw [zpow_add₀ two_ne_zero, mul_comm]
        norm_num
      have h3 : (2 : ℚ) ^ (e1 + 52) = 2 ^ 52 * 2 ^ e1 := by
        rw [zpow_add₀ two_ne_zero, mul_comm]
        norm_num
      linarith
    calc (roundHalfEven (a * 2 ^ (-e).toNat) (b * 2 ^ e.toNat) : ℚ) * 2 ^ e
        ≤ 2 ^ 53 * 2 ^ e := mul_le_mul_of_nonneg_right hmq (le_of_lt (hpos e))
      _ ≤ 2 ^ 52 * 2 ^ e1 := hstep
      _ ≤ (roundHalfEven (a1 * 2 ^ (-e1).toNat) (b1 * 2 ^ e1.toNat) : ℚ) * 2 ^ e1 :=
          mul_le_mul_of_nonneg_right hmq1 (le_of_lt (hpos e1))

theorem roundRat_toRat_nonneg (A : ℤ) (B : ℕ) (hA : 0 ≤ A) : 0 ≤ (roundRat A B).toRat := by
  unfold roundRat
  by_cases h0 : A = 0
  · simp [h0, F64.toRat]
  · have hn : ¬ A < 0 := by omega
    simp only [h0, hn, if_false]
    rw [show (⟨(roundPos A.natAbs B).m, (roundPos A.natAbs B).e⟩ : F64) = roundPos A.natAbs B
      from rfl, roundPos_toRat]
    exact mul_nonneg (Nat.cast_nonneg _) (le_of_lt (zpow_pos (by norm_num) _))

theorem roundRat_mono (A A1 : ℤ) (B B1 : ℕ) (hB : 0 < B) (hB1 : 0 < B1)
    (h0 : 0 ≤ (A : ℚ) / B) (h : (A : ℚ) / B ≤ (A1 : ℚ) / B1) :
    (roundRat A B).toRat ≤ (roundRat A1 B1).toRat := by
  have hBq : (0 : ℚ) < B := by exact_mod_cast hB
  have hB1q : (0 : ℚ) < B1 := by exact_mod_cast hB1
  have hA : 0 ≤ A := by
    have : (0 : ℚ) ≤ A := by
      have := mul_nonneg h0 (le_of_lt hBq)
      rwa [div_mul_cancel₀ _ (ne_of_gt hBq)] at this
    exact_mod_cast this
  have hA1 : 0 ≤ A1 := by
    have : (0 : ℚ) ≤ A1 := by
      have := mul_nonneg (h0.trans h) (le_of_lt hB1q)
      rwa [div_mul_cancel₀ _ (ne_of_gt hB1q)] at this
    exact_mod_cast this
  by_cases hz : A = 0
  · have : (roundRat A B).toRat = 0 := by simp [roundRat, hz, F64.toRat]
    rw [this]
    exact roundRat_toRat_nonneg A1 B1 hA1
  · have hpos : 0 < A := by omega
    have hposq : (0 : ℚ) < A := by exact_mod_cast hpos
    have hpos1 : 0 < A1 := by
      have h1 : (0 : ℚ) < (A : ℚ) / B := div_pos hposq hBq
      have h2 : (0 : ℚ) < (A1 : ℚ) / B1 := lt_of_lt_of_le h1 h
      have h3 : (0 : ℚ) < A1 := by
        have := mul_pos h2 hB1q
        rwa [div_mul_cancel₀ _ (ne_of_gt hB1q)] at this
      exact_mod_cast h3
    have e1 : roundRat A B = roundPos A.natAbs B := by
      have hn : ¬ A < 0 := by omega
      simp [roundRat, hz, hn]
    have e2 : roundRat A1 B1 = roundPos A1.natAbs B1 := by
      have hn : ¬ A1 < 0 := by omega
      have hz1 : A1 ≠ 0 := by omega
      simp [roundRat, hz1, hn]
    have c1 : ((A.natAbs : ℕ) : ℚ) = (A : ℚ) := by
      rw [Nat.cast_natAbs, abs_of_nonneg hA]
    have c2 : ((A1.natAbs : ℕ) : ℚ) = (A1 : ℚ) := by
      rw [Nat.cast_natAbs, abs_of_nonneg hA1]
    rw [e1, e2]
    apply roundPos_mono _ _ _ _ (by omega) hB (by omega) hB1
    rw [c1, c2]
    exact h

theorem floor_eq (x : F64) : F64.floor x = ⌊x.toRat⌋ := by
  have h : x.toRat = ((x.m * 2 ^ x.e.toNat : ℤ) : ℚ) / ((2 ^ (-x.e).toNat : ℕ) : ℚ) := by
    unfold F64.toRat
    rw [← two_zpow_split x.e]
    push_cast
    ring
  rw [h, Rat.floor_intCast_div_natCast]
  unfold F64.floor
  push_cast
  rfl

theorem mul_arg (x y : F64) :
    ((x.m * y.m * 2 ^ (x.e + y.e).toNat : ℤ) : ℚ) / ((2 ^ (-(x.e + y.e)).toNat : ℕ) : ℚ)
      = x.toRat * y.toRat := by
  unfold F64.toRat
  have : (2 : ℚ) ^ x.e * 2 ^ y.e = 2 ^ (x.e + y.e) := (zpow_add₀ two_ne_zero _ _).symm
  rw [show (x.m : ℚ) * 2 ^ x.e * ((y.m : ℚ) * 2 ^ y.e)
    = (x.m : ℚ) * y.m * ((2 : ℚ) ^ x.e * 2 ^ y.e) by ring, this, ← two_zpow_split (x.e + y.e)]
  push_cast
  ring

theorem two_pow_toNat_sub (a e : ℤ) (h : e ≤ a) :
    ((2 : ℚ) ^ (a - e).toNat) * (2 : ℚ) ^ e = (2 : ℚ) ^ a := by
  have h1 : (((a - e).toNat : ℕ) : ℤ) = a - e := Int.toNat_of_nonneg (by omega)
  rw [← zpow_natCast, h1, ← zpow_add₀ two_ne_zero]
  congr 1
  ring

theorem sub_arg (x y : F64) :
    (((x.m * 2 ^ (x.e - min x.e y.e).toNat - y.m * 2 ^ (y.e - min x.e y.e).toNat)
        * 2 ^ (min x.e y.e).toNat : ℤ) : ℚ) / ((2 ^ (-(min x.e y.e)).toNat : ℕ) : ℚ)
      = x.toRat - y.toRat := by
  unfold F64.toRat
  have hx := two_pow_toNat_sub x.e (min x.e y.e) (min_le_left _ _)
  have hy := two_pow_toNat_sub y.e (min x.e y.e) (min_le_right _ _)
  rw [← hx, ← hy, ← two_zpow_split (min x.e y.e)]
  push_cast
  ring

theorem div_arg (x y : F64) (hy : 0 < y.m) :
    ((x.m * 2 ^ (x.e - y.e).toNat * (if y.m < 0 then -1 else 1) : ℤ) : ℚ)
        / ((y.m.natAbs * 2 ^ (y.e - x.e).toNat : ℕ) : ℚ)
      = x.toRat / y.toRat := by
  have hn : ¬ y.m < 0 := by omega
  have c : ((y.m.natAbs : ℕ) : ℚ) = (y.m : ℚ) := by
    rw [Nat.cast_natAbs, abs_of_nonneg (le_of_lt hy)]
  have hyq : (y.m : ℚ) ≠ 0 := by
    have : (0 : ℚ) < y.m := by exact_mod_cast hy
    exact ne_of_gt this
  have hs := two_zpow_split (x.e - y.e)
  have hneg : -(x.e - y.e) = y.e - x.e := by ring
  rw [hneg] at hs
  have hd : (2 : ℚ) ^ x.e / 2 ^ y.e = 2 ^ (x.e - y.e) := (zpow_sub₀ two_ne_zero _ _).symm
  unfold F64.toRat
  simp only [hn, if_false]
  push_cast
  rw [c, show (x.m : ℚ) * 2 ^ x.e / ((y.m : ℚ) * 2 ^ y.e)
    = (x.m : ℚ) / y.m * ((2 : ℚ) ^ x.e / 2 ^ y.e) by field_simp, hd, ← hs]
  have h1 : (2 : ℚ) ^ (x.e - y.e).toNat ≠ 0 := pow_ne_zero _ two_ne_zero
  have h2 : (2 : ℚ) ^ (y.e - x.e).toNat ≠ 0 := pow_ne_zero _ two_ne_zero
  field_simp

theorem two_pow_nat_pos (k : ℕ) : 0 < 2 ^ k := Nat.two_pow_pos k

theorem mul_toRat_mono (x y y1 : F64) (hx : 0 ≤ x.toRat) (hy : 0 ≤ y.toRat)
    (h : y.toRat ≤ y1.toRat) : (F64.mul x y).toRat ≤ (F64.mul x y1).toRat := by
  unfold F64.mul
  simp only
  apply roundRat_mono _ _ _ _ (two_pow_nat_pos _) (two_pow_nat_pos _)
  · rw [mul_arg]; exact mul_nonneg hx hy
  · rw [mul_arg, mul_arg]; exact mul_le_mul_of_nonneg_left h hx

theorem sub_toRat_antitone (z y y1 : F64) (h : y.toRat ≤ y1.toRat) (h1 : y1.toRat ≤ z.toRat) :
    (F64.sub z y1).toRat ≤ (F64.sub z y).toRat := by
  unfold F64.sub
  simp only
  apply roundRat_mono _ _ _ _ (two_pow_nat_pos _) (two_pow_nat_pos _)
  · rw [sub_arg]; linarith
  · rw [sub_arg, sub_arg]; linarith

theorem sub_toRat_nonneg (z y : F64) (h : y.toRat ≤ z.toRat) : 0 ≤ (F64.sub z y).toRat := by
  unfold F64.sub
  simp only
  apply roundRat_toRat_nonneg
  have hq : (0 : ℚ) ≤ (((z.m * 2 ^ (z.e - min z.e y.e).toNat
      - y.m * 2 ^ (y.e - min z.e y.e).toNat) * 2 ^ (min z.e y.e).toNat : ℤ) : ℚ)
        / ((2 ^ (-(min z.e y.e)).toNat : ℕ) : ℚ) := by
    rw [sub_arg]; linarith
  have hB : (0 : ℚ) < ((2 ^ (-(min z.e y.e)).toNat : ℕ) : ℚ) := by
    exact_mod_cast two_pow_nat_pos _
  have := mul_nonneg hq (le_of_lt hB)
  rw [div_mul_cancel₀ _ (ne_of_gt hB)] at this
  exact_mod_cast this

theorem div_toRat_mono (x x1 y : F64) (hy : 0 < y.m) (hx : 0 ≤ x.toRat)
    (h : x.toRat ≤ x1.toRat) : (F64.div x y).toRat ≤ (F64.div x1 y).toRat := by
  have hyq : (0 : ℚ) < y.toRat := by
    unfold F64.toRat
    exact mul_pos (by exact_mod_cast hy) (zpow_pos (by norm_num) _)
  have hB : ∀ e : ℤ, 0 < y.m.natAbs * 2 ^ e.toNat := fun e =>
    Nat.mul_pos (by omega) (two_pow_nat_pos _)
  unfold F64.div
  apply roundRat_mono _ _ _ _ (hB _) (hB _)
  · rw [div_arg x y hy]; exact div_nonneg hx (le_of_lt hyq)
  · rw [div_arg x y hy, div_arg x1 y hy]
    exact div_le_div_of_nonneg_right h (le_of_lt hyq)

theorem ofNat_toRat_mono (p1 p2 : Nat) (h : p1 ≤ p2) :
    (F64.ofNat p1).toRat ≤ (F64.ofNat p2).toRat := by
  unfold F64.ofNat
  apply roundRat_mono _ _ _ _ (by norm_num) (by norm_num)
  · simp
  · simp only [Int.cast_natCast, Nat.cast_one, div_one]
    exact_mod_cast h

theorem ofNat_toRat_nonneg (n : Nat) : 0 ≤ (F64.ofNat n).toRat :=
  roundRat_toRat_nonneg _ _ (by omega)

theorem ofNat_hundred : F64.ofNat 100 = ⟨7036874417766400, -46⟩ := by decide

theorem div_hundred_hundred :
    F64.div (F64.ofNat 100) (F64.ofNat 100) = ⟨4503599627370496, -52⟩ := by decide

theorem ofNat_one : F64.ofNat 1 = ⟨4503599627370496, -52⟩ := by decide

theorem one_toRat : (⟨4503599627370496, -52⟩ : F64).toRat = 1 := by
  unfold F64.toRat
  norm_num

/-- The factor `1 - p / 100` of the split index does not grow with `p`. -/
theorem factor_antitone (p1 p2 : Nat) (h : p1 ≤ p2) (h2 : p2 ≤ 100) :
    0 ≤ (F64.sub (F64.ofNat 1) (F64.div (F64.ofNat p2) (F64.ofNat 100))).toRat ∧
    (F64.sub (F64.ofNat 1) (F64.div (F64.ofNat p2) (F64.ofNat 100))).toRat
      ≤ (F64.sub (F64.ofNat 1) (F64.div (F64.ofNat p1) (F64.ofNat 100))).toRat := by
  have hm : 0 < (F64.ofNat 100).m := by rw [ofNat_hundred]; norm_num
  have hd : (F64.div (F64.ofNat p1) (F64.ofNat 100)).toRat
      ≤ (F64.div (F64.ofNat p2) (F64.ofNat 100)).toRat :=
    div_toRat_mono _ _ _ hm (ofNat_toRat_nonneg p1) (ofNat_toRat_mono p1 p2 h)
  have hd1 : (F64.div (F64.ofNat p2) (F64.ofNat 100)).toRat ≤ (F64.ofNat 1).toRat := by
    have := div_toRat_mono _ _ _ hm (ofNat_toRat_nonneg p2) (ofNat_toRat_mono p2 100 h2)
    rw [div_hundred_hundred, one_toRat] at this
    rw [ofNat_one, one_toRat]
    exact this
  exact ⟨sub_toRat_nonneg _ _ hd1, sub_toRat_antitone _ _ _ hd hd1⟩

/-- C19: for a fixed number of messages the split index does not grow with the
retain percentage, in the binary64 arithmetic of the code: for `p1 ≤ p2 ≤ 100`,
`splitPoint n p2 ≤ splitPoint n p1`. At the ends, `splitPoint n 100 = 0`, and
`splitPoint n 0 = n` for every length an array can have. -/
theorem splitPoint_antitone (n p1 p2 : Nat) (h : p1 ≤ p2) (h2 : p2 ≤ 100) :
    splitPoint n p2 ≤ splitPoint n p1 ∧
    splitPoint n 100 = 0 ∧
    (n < 2 ^ 32 → splitPoint n 0 = n) := by
  refine ⟨?_, splitPoint_hundred n, fun hn => splitPoint_zero n (lt_trans hn (by norm_num))⟩
  obtain ⟨h0, hle⟩ := factor_antitone p1 p2 h h2
  unfold splitPoint
  rw [floor_eq, floor_eq]
  exact Int.floor_mono (mul_toRat_mono _ _ _ (ofNat_toRat_nonneg n) h0 hle)

/-- C19 for ten messages between 80 and 90 percent, where the code gives the
split indices 1 and 0. -/
theorem splitPoint_antitone_witness :
    splitPoint 10 90 ≤ splitPoint 10 80 ∧ splitPoint 10 100 = 0 ∧ splitPoint 10 0 = 10 :=
  have h := splitPoint_antitone 10 80 90 (by decide) (by decide)
  ⟨h.1, h.2.1, h.2.2 (by decide)⟩

/-! ## Readiness and the cache check of `sendApiRequest` -/

theorem streamFirstCache_eq :
    streamFirstCache =
      ⟨some (lit "T1"), none, none, none, none, none, some ⟨some (lit "T1"), some (lit "S")⟩⟩ := by
  decide

/-- C22: from the empty cache, a `StreamGenerate` request carrying `at=T1`
followed by `extractTokenFromGlobals` finding the token `S` gives a cache that
is ready, with `requestCache.at` present and `requestCache.targetUrl` absent.
The listener admits a `deleteChat` message on it, `deleteChat` sends nothing
and is rejected with `Cache is empty. Please refresh Gemini.`, and a later
`batchexecute` request leaves the cache as it is. -/
theorem ready_cache_fails_cache_check (host : Host) (parse : JsVal → Option JsVal)
    (page : Page) (chatId requestId : JsString) (xhr : XhrOutcome) (random : Nat) :
    streamFirstCache =
      runOps exampleParams host parse
        [.cacheRequestParams 3
          (lit "/_/BardChatUi/data/assistant.lamda.BardFrontendService/StreamGenerate?bl=b1")
          (some (lit "at=T1&bl=b1")),
         .extractTokenFromGlobals ⟨some (lit "S"), []⟩] emptyCache ∧
    (isReady streamFirstCache).all = true ∧
    streamFirstCache.atToken = some (lit "T1") ∧
    streamFirstCache.targetUrl = none ∧
    (onMessage page streamFirstCache
      (some ⟨lit "FORKER_REQUEST", lit "deleteChat", .str chatId, requestId⟩)).2
      = .deleteChat (.str chatId) ∧
    (deleteChat host parse streamFirstCache chatId xhr).2.1 = none ∧
    (deleteChat host parse streamFirstCache chatId xhr).2.2.rejection
      = some (lit "Cache is empty. Please refresh Gemini.") ∧
    cacheRequestParams exampleParams random streamFirstCache
      (lit "/_/BardChatUi/data/batchexecute?rpcids=x") (some (lit "at=T2&bl=b2"))
      = streamFirstCache := by
  have hd : lit "deleteChat" ≠ lit "createChat" := by decide
  have ht : ¬ (lit "FORKER_REQUEST" ≠ lit "FORKER_REQUEST" ∨ lit "deleteChat" = []) := by decide
  have hr : (isReady streamFirstCache).all = true := by decide
  have hg : ¬ (truthyStr streamFirstCache.atToken = false) := by decide
  refine ⟨by rfl, by decide, by decide, by decide, ?_, ?_, ?_, ?_⟩
  · have hn : lit "deleteChat" ≠ [] := by decide
    simp [onMessage, hr, dispatch, hd, ht, hn]
  · simp [deleteChat, sendApiRequest, streamFirstCache_eq, truthyStr, lit]
  · simp [deleteChat, sendApiRequest, streamFirstCache_eq, truthyStr, lit, Settled.rejection]
  · rw [streamFirstCache_eq]
    simp [cacheRequestParams, truthyStr, lit]
    decide

/-! ## The cache only grows -/

theorem runOp_atToken (params : JsString → JsString → Option JsString) (host : Host)
    (parse : JsVal → Option JsVal) (cache : RequestCache) (op : ClientOp)
    (h : truthyStr cache.atToken = true) :
    truthyStr (runOp params host parse cache op).atToken = true := by
  cases op with
  | cacheRequestParams random url body =>
    cases body with
    | none => exact h
    | some body =>
      simp only [runOp, cacheRequestParams, h]
      split_ifs <;> simp_all
  | extractTokenFromGlobals page =>
    simp only [runOp, extractTokenFromGlobals]
    split_ifs <;> simp_all
  | createChat uuid1 uuid2 m g =>
    simp only [runOp, createChatRequest]
    cases cache.streamGenerate <;> simp_all
  | sendApiRequest rpcId rpcPayload xhr =>
    simp only [runOp, sendApiRequest]
    split_ifs
    · exact h
    · cases xhr <;> exact h

theorem runOp_streamAt (params : JsString → JsString → Option JsString) (host : Host)
    (parse : JsVal → Option JsVal) (cache : RequestCache) (op : ClientOp)
    (h : truthyStr cache.streamAt = true) :
    truthyStr (runOp params host parse cache op).streamAt = true := by
  cases op with
  | cacheRequestParams random url body =>
    cases body with
    | none => exact h
    | some body =>
      simp only [runOp, cacheRequestParams]
      split_ifs <;> simp_all [RequestCache.streamAt]
  | extractTokenFromGlobals page =>
    simp only [runOp, extractTokenFromGlobals]
    split_ifs
    · cases hs : cache.streamGenerate <;> simp_all [RequestCache.streamAt, truthyStr]
    · exact h
  | createChat uuid1 uuid2 m g =>
    simp only [runOp, createChatRequest]
    cases hs : cache.streamGenerate <;> simp_all [RequestCache.streamAt]
  | sendApiRequest rpcId rpcPayload xhr =>
    simp only [runOp, sendApiRequest]
    split_ifs
    · exact h
    · cases xhr <;> exact h

theorem runOp_snlm0 (params : JsString → JsString → Option JsString) (host : Host)
    (parse : JsVal → Option JsVal) (cache : RequestCache) (op : ClientOp)
    (h : truthyStr cache.snlm0 = true) :
    truthyStr (runOp params host parse cache op).snlm0 = true := by
  cases op with
  | cacheRequestParams random url body =>
    cases body with
    | none => exact h
    | some body =>
      simp only [runOp, cacheRequestParams]
      split_ifs <;>
        first
        | exact h
        | (cases hs : cache.streamGenerate <;> simp_all [RequestCache.snlm0, truthyStr])
  | extractTokenFromGlobals page =>
    simp only [runOp, extractTokenFromGlobals]
    split_ifs <;> simp_all [RequestCache.snlm0]
  | createChat uuid1 uuid2 m g =>
    simp only [runOp, createChatRequest]
    cases hs : cache.streamGenerate <;> simp_all [RequestCache.snlm0]
  | sendApiRequest rpcId rpcPayload xhr =>
    simp only [runOp, sendApiRequest]
    split_ifs
    · exact h
    · cases xhr <;> exact h

theorem isReady_all_iff (cache : RequestCache) :
    (isReady cache).all = true ↔
      (truthyStr cache.atToken = true ∨ truthyStr cache.streamAt = true) ∧
        truthyStr cache.snlm0 = true := by
  cases hs : cache.streamGenerate <;>
    simp [isReady, RequestCache.streamAt, RequestCache.snlm0, hs, truthyStr]

theorem runOp_isReady (params : JsString → JsString → Option JsString) (host : Host)
    (parse : JsVal → Option JsVal) (cache : RequestCache) (op : ClientOp)
    (h : (isReady cache).all = true) :
    (isReady (runOp params host parse cache op)).all = true := by
  rw [isReady_all_iff] at h ⊢
  refine ⟨?_, runOp_snlm0 params host parse cache op h.2⟩
  rcases h.1 with h1 | h1
  · exact Or.inl (runOp_atToken params host parse cache op h1)
  · exact Or.inr (runOp_streamAt params host parse cache op h1)

/-- The counter is a number only when the signing token is cached: this holds
of the empty cache and every operation keeps it. -/
theorem runOp_guarded (params : JsString → JsString → Option JsString) (host : Host)
    (parse : JsVal → Option JsVal) (cache : RequestCache) (op : ClientOp)
    (h : truthyStr cache.atToken = true ∨ cache._reqid_base = none) :
    truthyStr (runOp params host parse cache op).atToken = true ∨
      (runOp params host parse cache op)._reqid_base = none := by
  rcases h with h | h
  · exact Or.inl (runOp_atToken params host parse cache op h)
  · cases op with
    | cacheRequestParams random url body =>
      cases body with
      | none => exact Or.inr h
      | some body =>
        simp only [runOp, cacheRequestParams]
        split_ifs <;> simp_all
    | extractTokenFromGlobals page =>
      simp only [runOp, extractTokenFromGlobals]
      split_ifs <;> simp_all
    | createChat uuid1 uuid2 m g =>
      simp only [runOp, createChatRequest]
      cases cache.streamGenerate <;> simp_all
    | sendApiRequest rpcId rpcPayload xhr =>
      simp only [runOp, sendApiRequest]
      split_ifs
      · exact Or.inr h
      · cases xhr <;> simp_all

theorem runOps_guarded (params : JsString → JsString → Option JsString) (host : Host)
    (parse : JsVal → Option JsVal) (ops : List ClientOp) (cache : RequestCache)
    (h : truthyStr cache.atToken = true ∨ cache._reqid_base = none) :
    truthyStr (runOps params host parse ops cache).atToken = true ∨
      (runOps params host parse ops cache)._reqid_base = none := by
  induction ops generalizing cache with
  | nil => exact h
  | cons op rest ih => exact ih _ (runOp_guarded params host parse cache op h)

theorem runOp_counter (params : JsString → JsString → Option JsString) (host : Host)
    (parse : JsVal → Option JsVal) (cache : RequestCache) (op : ClientOp)
    (h : truthyStr cache.atToken = true ∨ cache._reqid_base = none) (c : Int)
    (hc : cache._reqid_base = some c) :
    ∃ c', (runOp params host parse cache op)._reqid_base = some c' ∧ c ≤ c' := by
  have hat : truthyStr cache.atToken = true := by
    rcases h with h | h
    · exact h
    · rw [h] at hc
      cases hc
  cases op with
  | cacheRequestParams random url body =>
    refine ⟨c, ?_, le_refl c⟩
    cases body with
    | none => exact hc
    | some body =>
      simp only [runOp, cacheRequestParams, hat]
      split_ifs <;> simp_all
  | extractTokenFromGlobals page =>
    refine ⟨c, ?_, le_refl c⟩
    simp only [runOp, extractTokenFromGlobals]
    split_ifs <;> simp_all
  | createChat uuid1 uuid2 m g =>
    simp only [runOp, createChatRequest]
    cases cache.streamGenerate with
    | none => exact ⟨c, hc, le_refl c⟩
    | some sg => exact ⟨c + 1, by simp [hc], by omega⟩
  | sendApiRequest rpcId rpcPayload xhr =>
    simp only [runOp, sendApiRequest]
    split_ifs
    · exact ⟨c, hc, le_refl c⟩
    · cases xhr <;> exact ⟨c + 1, by simp [hc], by omega⟩

/-- C21: every client operation (`cacheRequestParams`,
`extractTokenFromGlobals`, `createChat`, `sendApiRequest`) keeps a token that
is present: in every cache state, `requestCache.at`, `streamGenerate.at` and
`streamGenerate.snlm0Token` stay truthy once they are, and `isReady().all`
stays true once it is. The counter, once a number, stays a number and does not
decrease: in every cache state that holds the signing token, and in every state
the operations reach from the empty cache. -/
theorem cache_only_grows (params : JsString → JsString → Option JsString) (host : Host)
    (parse : JsVal → Option JsVal) (op : ClientOp) (cache : RequestCache)
    (ops : List ClientOp) :
    (truthyStr cache.atToken = true →
      truthyStr (runOp params host parse cache op).atToken = true) ∧
    (truthyStr cache.streamAt = true →
      truthyStr (runOp params host parse cache op).streamAt = true) ∧
    (truthyStr cache.snlm0 = true →
      truthyStr (runOp params host parse cache op).snlm0 = true) ∧
    ((isReady cache).all = true →
      (isReady (runOp params host parse cache op)).all = true) ∧
    (∀ c : Int, truthyStr cache.atToken = true → cache._reqid_base = some c →
      ∃ c', (runOp params host parse cache op)._reqid_base = some c' ∧ c ≤ c') ∧
    (∀ c : Int, (runOps params host parse ops emptyCache)._reqid_base = some c →
      ∃ c', (runOp params host parse (runOps params host parse ops emptyCache) op)._reqid_base
          = some c' ∧ c ≤ c') :=
  ⟨runOp_atToken params host parse cache op, runOp_streamAt params host parse cache op,
    runOp_snlm0 params host parse cache op, runOp_isReady params host parse cache op,
    fun c h => runOp_counter params host parse cache op (Or.inl h) c,
    runOp_counter params host parse _ op
      (runOps_guarded params host parse ops emptyCache (Or.inr rfl))⟩

/-- C21 for the cache after a `batchexecute` request with `at=T1`, a
`StreamGenerate` request with `at=T2` and the embedded token `S`: it is ready
with the counter at 7, and a `sendApiRequest` keeps it ready and leaves the
counter at 7 or above. -/
theorem cache_only_grows_witness :
    (isReady (runOps exampleParams ⟨fun _ => [], fun s => s⟩ jsonParse capturedOps
      emptyCache)).all = true ∧
    (isReady (runOp exampleParams ⟨fun _ => [], fun s => s⟩ jsonParse
      (runOps exampleParams ⟨fun _ => [], fun s => s⟩ jsonParse capturedOps emptyCache)
      (.sendApiRequest DELETE_RPC_ID .null .error))).all = true ∧
    (runOps exampleParams ⟨fun _ => [], fun s => s⟩ jsonParse capturedOps
      emptyCache)._reqid_base = some 7 ∧
    ∃ c', (runOp exampleParams ⟨fun _ => [], fun s => s⟩ jsonParse
      (runOps exampleParams ⟨fun _ => [], fun s => s⟩ jsonParse capturedOps emptyCache)
      (.sendApiRequest DELETE_RPC_ID .null .error))._reqid_base = some c' ∧ 7 ≤ c' :=
  have h := cache_only_grows exampleParams ⟨fun _ => [], fun s => s⟩ jsonParse
    (.sendApiRequest DELETE_RPC_ID .null .error)
    (runOps exampleParams ⟨fun _ => [], fun s => s⟩ jsonParse capturedOps emptyCache)
    capturedOps
  ⟨by decide, h.2.2.2.1 (by decide), by decide, h.2.2.2.2.2 7 (by decide)⟩

/-! ## The response text is the trimmed form of a candidate -/

theorem processLine_longest_mem (parse : JsVal → Option JsVal) (st : ParseState)
    (line : JsString) :
    (processLine parse st line).longestResponse = st.longestResponse ∨
      lineText parse line = some (processLine parse st line).longestResponse := by
  unfold processLine lineText
  cases hd : innerDataOf parse line with
  | none => exact Or.inl rfl
  | some d =>
    simp only [Option.some_bind]
    cases hf : findChatId st.chatId d with
    | none => exact Or.inl rfl
    | some c1 =>
      rcases findText_spec st.longestResponse d with ⟨_, hn, _⟩ | ht
      · simp [hn]
      · cases hc : textCandidate d with
        | none =>
          rw [hc] at ht
          simp [ht]
        | some s =>
          rw [hc] at ht
          simp only [ht, Option.elim]
          by_cases hlt : st.longestResponse.length < s.length
          · rw [pick_of_lt hlt]
            exact Or.inr rfl
          · rw [pick_of_not_lt hlt]
            exact Or.inl rfl

theorem foldl_longest_mem (parse : JsVal → Option JsVal) (lines : List JsString)
    (st : ParseState) :
    (lines.foldl (processLine parse) st).longestResponse = st.longestResponse ∨
      ∃ line ∈ lines,
        lineText parse line = some (lines.foldl (processLine parse) st).longestResponse := by
  induction lines generalizing st with
  | nil => exact Or.inl rfl
  | cons line rest ih =>
    rw [List.foldl_cons]
    rcases ih (processLine parse st line) with h | ⟨l, hl, h⟩
    · rcases processLine_longest_mem parse st line with h1 | h1
      · exact Or.inl (h.trans h1)
      · refine Or.inr ⟨line, List.mem_cons_self _ _, ?_⟩
        rw [h]
        exact h1
    · exact Or.inr ⟨l, List.mem_cons_of_mem _ hl, h⟩

theorem lineText_relevant (parse : JsVal → Option JsVal) (line s : JsString)
    (h : lineText parse line = some s) : startsWith line marker = true := by
  unfold lineText innerDataOf at h
  by_cases hm : startsWith line marker = true
  · exact hm
  · simp [hm] at h

theorem trim_getLast (s : JsString) (c : Nat) (h : (trim s).getLast? = some c) :
    isWhiteSpace c = false := by
  unfold trim at h
  rw [List.getLast?_reverse] at h
  have := List.head?_dropWhile_not isWhiteSpace (s.dropWhile isWhiteSpace).reverse
  rw [h] at this
  exact this

theorem getLast?_dropWhile (p : Nat → Bool) (l : List Nat) (c : Nat)
    (h : (l.dropWhile p).getLast? = some c) : l.getLast? = some c := by
  obtain ⟨t, ht⟩ := List.dropWhile_suffix (l := l) p
  have hne : l.dropWhile p ≠ [] := by
    intro h0
    rw [h0] at h
    simp at h
  rw [← ht, List.getLast?_append_of_ne_nil _ hne]
  exact h

theorem trim_head (s : JsString) (c : Nat) (h : (trim s).head? = some c) :
    isWhiteSpace c = false := by
  unfold trim at h
  rw [List.head?_reverse] at h
  have h1 := getLast?_dropWhile _ _ _ h
  rw [List.getLast?_reverse] at h1
  have := List.head?_dropWhile_not isWhiteSpace s
  rw [h1] at this
  exact this

/-- C23: for every input string, the `responseText` that `parseStreamResponse`
returns is `null`, or it is `trim s` for the text candidate `s` of a relevant
line of the input (the non-blank string at `inner[4][0][1][0]` of a line that
starts with the marker), and then it is not empty and neither its first nor its
last code unit is white space. -/
theorem responseText_is_trimmed_candidate (parse : JsVal → Option JsVal) (body : JsString) :
    (parseStreamResponse parse body).responseText = none ∨
      ∃ line s, line ∈ splitLines body ∧ startsWith line marker = true ∧
        lineText parse line = some s ∧
        (parseStreamResponse parse body).responseText = some (trim s) ∧
        trim s ≠ [] ∧
        (∀ c, (trim s).head? = some c → isWhiteSpace c = false) ∧
        (∀ c, (trim s).getLast? = some c → isWhiteSpace c = false) := by
  unfold parseStreamResponse finish parseLines
  rcases foldl_longest_mem parse (splitLines body) ⟨none, []⟩ with h | ⟨line, hl, h⟩
  · left
    rw [h]
    simp [trim]
  · right
    refine ⟨line, _, hl, lineText_relevant parse line _ h, h, ?_,
      lineText_nonblank parse line _ h, trim_head _, trim_getLast _⟩
    simp only [if_pos (lineText_nonblank parse line _ h)]

/-- C23 for a body whose one relevant line carries the text ` Hello `: the
response text is `Hello`, the trimmed form of that candidate. -/
theorem responseText_is_trimmed_candidate_witness :
    (parseStreamResponse jsonParse (exampleLine "c_abc" " Hello ")).responseText
      = some (lit "Hello") ∧
    ∃ line s, line ∈ splitLines (exampleLine "c_abc" " Hello ") ∧
      startsWith line marker = true ∧
      lineText jsonParse line = some s ∧
      (parseStreamResponse jsonParse (exampleLine "c_abc" " Hello ")).responseText
        = some (trim s) ∧
      trim s ≠ [] ∧
      (∀ c, (trim s).head? = some c → isWhiteSpace c = false) ∧
      (∀ c, (trim s).getLast? = some c → isWhiteSpace c = false) :=
  ⟨by decide,
    (responseText_is_trimmed_candidate jsonParse (exampleLine "c_abc" " Hello ")).resolve_left
      (by decide)⟩

end GeminiForker
